import Mathlib

/-! # ImGui CVLog: window registry, task queue, tiling and settings handler

A shallow embedding of `imgui_cvlog.cpp` (namespace `ImGui::CVLog`).

* Pointers to `WindowData` are indices into `WindowManager::_windowsData`
  (the vector only grows, so an index is a stable address); pointers to
  `Window` are indices into `WindowManager::_windows`.
* `float` values are rationals: every statement below is over exact arithmetic.
* The host toolkit's hash `ImHashStr` is a parameter of every operation that
  calls it.
* Closures (`std::function<void(void)>`) are terms of `Closure`, interpreted by
  `Closure.run`.
-/

namespace CVLog

/-! ## Host toolkit types -/

/-- The host toolkit's `ImGuiID` (an unsigned integer). -/
abbrev ImGuiID := Nat

/-- The host toolkit's `ImVec2`, over exact arithmetic. -/
structure ImVec2 where
  x : ℚ
  y : ℚ
  deriving DecidableEq, Repr, Inhabited

/-- The two values of `ImGuiCond_` that the registry uses. -/
inductive ImGuiCond where
  | Always
  | FirstUseEver
  deriving DecidableEq, Repr, Inhabited

/-- The part of `ImGuiViewport` that the registry reads. -/
structure ImGuiViewport where
  Pos : ImVec2
  Size : ImVec2
  deriving DecidableEq, Repr, Inhabited

/-- The host toolkit's `ImGuiStorage`, as the key-sorted vector of pairs it is:
keys are ids, values are `WindowData*` (indices into `_windowsData`). -/
abbrev ImGuiStorage := List (ImGuiID × Nat)

/-- `ImGuiStorage::GetVoidPtr`: lower bound of `key`, then the value stored
there when its key is `key`, else `NULL`. -/
def ImGuiStorage.GetVoidPtr : ImGuiStorage → ImGuiID → Option Nat
  | [], _ => none
  | (k, v) :: rest, key =>
    if k < key then ImGuiStorage.GetVoidPtr rest key
    else if k = key then some v
    else none

/-- `ImGuiStorage::SetVoidPtr`: lower bound of `key`, then overwrite the value
when the key is there, else insert the pair at that place. -/
def ImGuiStorage.SetVoidPtr : ImGuiStorage → ImGuiID → Nat → ImGuiStorage
  | [], key, val => [(key, val)]
  | (k, v) :: rest, key, val =>
    if k < key then (k, v) :: ImGuiStorage.SetVoidPtr rest key val
    else if k = key then (k, val) :: rest
    else (key, val) :: (k, v) :: rest

/-! ## Closures

The `std::function<void(void)>` values that reach the task queue or a callback
table. The first group are the lambdas written in `imgui_cvlog.cpp`; the second
group are client closures, written as the sequence of public API calls they
make. -/

/-- A closure of type `std::function<void(void)>`. -/
inductive Closure where
  /-- The lambda queued by `SetWindowProperties` (captures by copy). -/
  | setWindowProperties (windowNameCopy categoryNameCopy helpStringCopy : String)
      (preferredWidth preferredHeight : Int)
  /-- The lambda queued by `SetWindowPreRenderCallback` with a non-empty callback. -/
  | setWindowPreRenderCallback (windowNameCopy callbackNameCopy : String) (callback : Closure)
  /-- The lambda queued by `SetWindowPreRenderCallback` with an empty callback. -/
  | eraseWindowPreRenderCallback (windowNameCopy callbackNameCopy : String)
  /-- The lambda queued by `AddMenuBarCallback`. -/
  | addMenuBarCallback (nameCopy : String) (callback : Closure)
  /-- The lambda queued by `ClearAll`. -/
  | clearAll
  /-- A client closure with an empty body. -/
  | skip
  /-- A client closure that runs `first` and then `second`. -/
  | seq (first second : Closure)
  /-- A client closure that calls `RunOnceInImGuiThread(f)`. -/
  | callRunOnceInImGuiThread (f : Closure)
  /-- A client closure that calls `ClearAll()`. -/
  | callClearAll
  /-- A client closure that calls `SetWindowProperties(...)`; `none` is a null pointer. -/
  | callSetWindowProperties (windowName : String) (categoryName helpString : Option String)
      (preferredWidth preferredHeight : Int)
  /-- A client closure that calls `SetPerFrameCallback(callbackName, callback)`. -/
  | callSetPerFrameCallback (callbackName : String) (callback : Closure)
  /-- A client closure that calls `SetPerFrameCallback(callbackName, nullptr)`. -/
  | callErasePerFrameCallback (callbackName : String)
  /-- A client closure that calls `SetWindowPreRenderCallback(...)` with a callback. -/
  | callSetWindowPreRenderCallback (windowName callbackName : String) (callback : Closure)
  /-- A client closure that calls `AddMenuBarCallback(name, callback)`. -/
  | callAddMenuBarCallback (name : String) (callback : Closure)
  deriving DecidableEq, Repr, Inhabited

/-! ## `std::map<std::string, std::function<void(void)>>` -/

/-- A `std::map` keyed by `std::string`: the pairs in ascending key order. -/
abbrev StdMap (α : Type) := List (String × α)

/-- The `m[key] = value` of `std::map`: overwrite, or insert in key order. -/
def StdMap.assign {α : Type} : StdMap α → String → α → StdMap α
  | [], key, value => [(key, value)]
  | (k, v) :: rest, key, value =>
    if k < key then (k, v) :: StdMap.assign rest key value
    else if k = key then (k, value) :: rest
    else (key, value) :: (k, v) :: rest

/-- The `m.erase(key)` of `std::map`. -/
def StdMap.erase {α : Type} : StdMap α → String → StdMap α
  | [], _ => []
  | (k, v) :: rest, key => if k = key then rest else (k, v) :: StdMap.erase rest key

/-! ## `WindowData`, `WindowCategory`, `WindowManager` -/

/-- The anonymous struct `WindowData::layoutUpdateOnNextFrame`. -/
structure LayoutUpdate where
  hasData : Bool := false
  pos : ImVec2 := ⟨0, 0⟩
  size : ImVec2 := ⟨0, 0⟩
  imGuiCond : ImGuiCond := ImGuiCond.Always
  deriving DecidableEq, Repr, Inhabited

/-- The class `WindowData`; `name`, `id`, `isVisible`, `isDocked` are the
private members `_name`, `_id`, `_isVisible`, `_isDocked` behind the accessors
of those names. -/
structure WindowData where
  name : String
  id : ImGuiID
  isVisible : Bool := true
  isDocked : Bool := false
  /-- `Window* window`: null, or the index of the window in `_windows`. -/
  window : Option Nat := none
  category : String := "Default"
  preferredContentSize : ImVec2 := ⟨320, 240⟩
  helpString : String := "No help specified"
  layoutUpdateOnNextFrame : LayoutUpdate := {}
  preRenderCallbacks : StdMap Closure := []
  deriving DecidableEq, Repr, Inhabited

/-- `WindowData::defaultCategoryName`. -/
def WindowData.defaultCategoryName : String := "Default"

/-- The constructor `WindowData::WindowData(const char* windowName)`. -/
def WindowData.new (ImHashStr : String → ImGuiID) (windowName : String) : WindowData :=
  { name := windowName, id := ImHashStr windowName }

/-- `WindowData::preferredWindowSize`, with `extraWindowHeight()` (a value read
from the host style) as an argument. -/
def WindowData.preferredWindowSize (d : WindowData) (extraWindowHeight : ℚ) : ImVec2 :=
  { x := d.preferredContentSize.x, y := d.preferredContentSize.y + extraWindowHeight }

/-- `WindowData::setPreferredWindowSize`. -/
def WindowData.setPreferredWindowSize (d : WindowData) (windowSize : ImVec2)
    (extraWindowHeight : ℚ) : WindowData :=
  { d with preferredContentSize := { x := windowSize.x, y := windowSize.y + extraWindowHeight } }

/-- The class `Window`, as far as the registry sees it: `imGuiData` is the index
of the `WindowData` that `AddWindow` bound the window to. -/
structure Window where
  imGuiData : Nat
  deriving DecidableEq, Repr, Inhabited

/-- The pure virtual `Window::Clear`: the overrides touch panel-local buffers
only, none of which is part of `Window` here. -/
def Window.Clear (w : Window) : Window := w

/-- The struct `WindowCategory`; `windows` holds `WindowData*` as indices. -/
structure WindowCategory where
  name : String
  windows : List Nat
  deriving DecidableEq, Repr, Inhabited

/-- The class `WindowManager`; `windowsByID` is `concurrent.windowsByID`. -/
structure WindowManager where
  windowsByID : ImGuiStorage := []
  _windows : List Window := []
  _windowsData : List WindowData := []
  _windowsPerCategory : List WindowCategory := []
  _menuBarCallbacks : List (String × Closure) := []
  deriving DecidableEq, Repr, Inhabited

/-- `WindowManager::windowListWidth`. -/
def WindowManager.windowListWidth : ℚ := 200

/-- The `WindowData` behind a pointer (index) `p`. -/
def WindowManager.data (wm : WindowManager) (p : Nat) : WindowData :=
  wm._windowsData.getD p default

/-- Assignment through a `WindowData*`: apply `f` to the pointee. -/
def WindowManager.modifyData (wm : WindowManager) (p : Nat) (f : WindowData → WindowData) :
    WindowManager :=
  { wm with _windowsData := wm._windowsData.modify f p }

/-- `WindowManager::findDataForWindow`: the first entry whose id is `windowID`. -/
def WindowManager.findDataForWindow (wm : WindowManager) (windowID : ImGuiID) : Option Nat :=
  wm._windowsData.findIdx? (fun data => data.id == windowID)

/-- `WindowManager::findOrCreateCategory`: the first category of that name, else
a new empty one at the back. Returns the manager and the category's index. -/
def WindowManager.findOrCreateCategory (wm : WindowManager) (categoryName : String) :
    WindowManager × Nat :=
  match wm._windowsPerCategory.findIdx? (fun cat => cat.name == categoryName) with
  | some c => (wm, c)
  | none =>
    ({ wm with _windowsPerCategory := wm._windowsPerCategory ++ [{ name := categoryName, windows := [] }] },
      wm._windowsPerCategory.length)

/-- `WindowManager::createDataForWindow`. Returns the manager and the new
entry's pointer. -/
def WindowManager.createDataForWindow (ImHashStr : String → ImGuiID) (wm : WindowManager)
    (windowName categoryName : String) : WindowManager × Nat :=
  let winData := wm._windowsData.length
  let wm1 : WindowManager :=
    { wm with _windowsData := wm._windowsData ++
        [{ WindowData.new ImHashStr windowName with category := categoryName }] }
  let found := wm1.findOrCreateCategory categoryName
  let wm2 := found.1
  let cat := found.2
  let wm3 : WindowManager :=
    { wm2 with _windowsPerCategory :=
        wm2._windowsPerCategory.modify (fun c => { c with windows := c.windows ++ [winData] }) cat }
  ({ wm3 with windowsByID := ImGuiStorage.SetVoidPtr wm3.windowsByID (ImHashStr windowName) winData },
    winData)

/-- `WindowManager::FindOrCreateDataForWindow`. -/
def WindowManager.FindOrCreateDataForWindow (ImHashStr : String → ImGuiID) (wm : WindowManager)
    (windowName : String) : WindowManager × Nat :=
  match wm.findDataForWindow (ImHashStr windowName) with
  | some data => (wm, data)
  | none => wm.createDataForWindow ImHashStr windowName WindowData.defaultCategoryName

/-- `WindowManager::SetWindowCategory`. The `find_if` + `erase` pair removes the
first occurrence of the entry's pointer from the old category's list. -/
def WindowManager.SetWindowCategory (ImHashStr : String → ImGuiID) (wm : WindowManager)
    (windowName newCategory : String) : WindowManager × Nat :=
  let found := wm.FindOrCreateDataForWindow ImHashStr windowName
  let wm1 := found.1
  let data := found.2
  if (wm1.data data).category = newCategory then (wm1, data)
  else
    let foundOld := wm1.findOrCreateCategory (wm1.data data).category
    let wm2 := foundOld.1
    let oldCat := foundOld.2
    let wm3 : WindowManager :=
      { wm2 with _windowsPerCategory :=
          wm2._windowsPerCategory.modify (fun c => { c with windows := c.windows.erase data }) oldCat }
    let wm4 := wm3.modifyData data (fun d => { d with category := newCategory })
    let foundNew := wm4.findOrCreateCategory newCategory
    let wm5 := foundNew.1
    let newCat := foundNew.2
    ({ wm5 with _windowsPerCategory :=
        wm5._windowsPerCategory.modify (fun c => { c with windows := c.windows ++ [data] }) newCat },
      data)

/-- `WindowManager::SetWindowPreferredSize`. -/
def WindowManager.SetWindowPreferredSize (ImHashStr : String → ImGuiID) (wm : WindowManager)
    (windowName : String) (preferredSize : ImVec2) : WindowManager × Nat :=
  let found := wm.FindOrCreateDataForWindow ImHashStr windowName
  (found.1.modifyData found.2 (fun d => { d with preferredContentSize := preferredSize }), found.2)

/-- `WindowManager::SetWindowHelpString`. -/
def WindowManager.SetWindowHelpString (ImHashStr : String → ImGuiID) (wm : WindowManager)
    (windowName helpString : String) : WindowManager × Nat :=
  let found := wm.FindOrCreateDataForWindow ImHashStr windowName
  (found.1.modifyData found.2 (fun d => { d with helpString := helpString }), found.2)

/-- `WindowManager::AddWindow`. `vp` is the main viewport, `extraWindowHeight`
the style value of that name, and `rand1`, `rand2` the two values of
`float(rand()) / float(RAND_MAX)`. -/
def WindowManager.AddWindow (ImHashStr : String → ImGuiID) (wm : WindowManager)
    (windowName : String) (vp : ImGuiViewport) (extraWindowHeight rand1 rand2 : ℚ) :
    WindowManager × Nat :=
  let window := wm._windows.length
  let wm1 : WindowManager := { wm with _windows := wm._windows ++ [{ imGuiData := 0 }] }
  let found := wm1.FindOrCreateDataForWindow ImHashStr windowName
  let wm2 := found.1
  let data := found.2
  let wm3 : WindowManager :=
    { wm2 with _windows := wm2._windows.modify (fun w => { w with imGuiData := data }) window }
  let preferredWindowSize := (wm3.data data).preferredWindowSize extraWindowHeight
  let availableWidth := max 0 (vp.Size.x - WindowManager.windowListWidth - preferredWindowSize.x)
  let availableHeight := max 0 (vp.Size.y - preferredWindowSize.y)
  (wm3.modifyData data (fun d =>
    { d with
      window := some window
      layoutUpdateOnNextFrame :=
        { hasData := true
          pos := { x := vp.Pos.x + WindowManager.windowListWidth + rand1 * availableWidth
                   y := vp.Pos.y + rand2 * availableHeight }
          size := preferredWindowSize
          imGuiCond := ImGuiCond.FirstUseEver } }), data)

/-- `CVLogSettingsHandler_ReadOpen`: the entry handed to the following
`ReadLine` calls. -/
def CVLogSettingsHandler_ReadOpen (ImHashStr : String → ImGuiID) (wm : WindowManager)
    (name : String) : WindowManager × Nat :=
  wm.FindOrCreateDataForWindow ImHashStr name

/-! ## Registry states reachable through the registry operations -/

/-- One call of a registry operation. -/
inductive RegistryOp where
  | FindOrCreateDataForWindow (windowName : String)
  | AddWindow (windowName : String) (vp : ImGuiViewport) (extraWindowHeight rand1 rand2 : ℚ)
  | SetWindowCategory (windowName newCategory : String)
  | SetWindowPreferredSize (windowName : String) (preferredSize : ImVec2)
  | SetWindowHelpString (windowName helpString : String)
  | ReadOpen (name : String)
  deriving DecidableEq, Repr

/-- The registry after one operation. -/
def RegistryOp.apply (ImHashStr : String → ImGuiID) (wm : WindowManager) : RegistryOp → WindowManager
  | .FindOrCreateDataForWindow n => (wm.FindOrCreateDataForWindow ImHashStr n).1
  | .AddWindow n vp e r1 r2 => (wm.AddWindow ImHashStr n vp e r1 r2).1
  | .SetWindowCategory n c => (wm.SetWindowCategory ImHashStr n c).1
  | .SetWindowPreferredSize n s => (wm.SetWindowPreferredSize ImHashStr n s).1
  | .SetWindowHelpString n h => (wm.SetWindowHelpString ImHashStr n h).1
  | .ReadOpen n => (CVLogSettingsHandler_ReadOpen ImHashStr wm n).1

/-- The registry reached from the empty one by a sequence of operations. -/
def registryAfter (ImHashStr : String → ImGuiID) (ops : List RegistryOp) : WindowManager :=
  ops.foldl (RegistryOp.apply ImHashStr) {}

/-- The `(name, id)` pairs of the registry entries, in creation order. -/
def WindowManager.keys (wm : WindowManager) : List (String × ImGuiID) :=
  wm._windowsData.map (fun d => (d.name, d.id))

/-- The id invariant: every id is the hash of its name and no id occurs twice. -/
def WindowManager.IdInv (H : String → ImGuiID) (wm : WindowManager) : Prop :=
  (∀ p ∈ wm.keys, p.2 = H p.1) ∧ (wm.keys.map Prod.snd).Nodup

/-! ## The category invariant -/

/-- The category lists are consistent with the entries, apart from the entry
`x` (when there is one), which is in no list: category names are pairwise
distinct, every other entry's category exists, and an index occurs in a
category's list once when that entry carries the category's name, and not at
all otherwise. -/
def CatOK (data : List WindowData) (cats : List WindowCategory) (x : Option Nat) : Prop :=
  (cats.map (fun c => c.name)).Nodup ∧
  (∀ (i : Nat) (d : WindowData), data[i]? = some d → some i ≠ x →
    ∃ (c : Nat) (cat : WindowCategory), cats[c]? = some cat ∧ cat.name = d.category) ∧
  (∀ (c : Nat) (cat : WindowCategory), cats[c]? = some cat → ∀ i : Nat,
    cat.windows.count i =
      if some i ≠ x ∧ ∃ d, data[i]? = some d ∧ d.category = cat.name then 1 else 0)

/-- The category invariant of a registry. -/
def WindowManager.CatInv (wm : WindowManager) : Prop :=
  CatOK wm._windowsData wm._windowsPerCategory none

/-! ## Settings handler -/

/-- A stand-in for the host hash in concrete instances: a 32-bit polynomial
hash of the characters. -/
def polyHash (s : String) : ImGuiID :=
  s.data.foldl (fun h c => (h * 31 + c.toNat) % 4294967296) 0

/-- The part of `ImGuiSettingsHandler` that the write handler reads. -/
structure ImGuiSettingsHandler where
  TypeName : String
  deriving DecidableEq, Repr

/-- The handler that `Init` registers. -/
def Init : ImGuiSettingsHandler := { TypeName := "CvLogData" }

/-- The `%d` of a `bool` argument: the promoted value, in decimal. -/
def formatBoolAsInt (b : Bool) : String := toString b.toNat

/-- `CVLogSettingsHandler_WriteAll`: the text buffer after the handler ran. -/
def CVLogSettingsHandler_WriteAll (handler : ImGuiSettingsHandler) (wm : WindowManager)
    (buf : String) : String :=
  wm._windowsData.foldl (fun buf winData =>
    ((buf ++ ("[" ++ handler.TypeName ++ "][" ++ winData.name ++ "]\n"))
      ++ ("Visible=" ++ formatBoolAsInt winData.isVisible ++ "\n")) ++ "\n") buf

/-- The C `isspace` in the "C" locale. -/
def isspace (c : Char) : Bool :=
  c = ' ' || c = '\t' || c = '\n' || c = '\x0b' || c = '\x0c' || c = '\r'

/-- The value of a run of decimal digits. -/
def decimalValue (digits : List Char) : Nat :=
  digits.foldl (fun acc c => acc * 10 + (c.toNat - '0'.toNat)) 0

/-- The `%d` conversion of `sscanf`: skip white space, read an optional sign and
then at least one decimal digit. -/
def scanInt (input : List Char) : Option Int :=
  let rest := input.dropWhile isspace
  let negative := rest.head? = some '-'
  let unsigned := if rest.head? = some '-' ∨ rest.head? = some '+' then rest.tail else rest
  let digits := unsigned.takeWhile Char.isDigit
  if digits = [] then none
  else some (if negative then - (decimalValue digits : Int) else (decimalValue digits : Int))

/-- The text after the literal `lit` at the start of `input`, if `input` starts with it. -/
def afterLiteral : List Char → List Char → Option (List Char)
  | [], input => some input
  | _ :: _, [] => none
  | l :: lit, c :: input => if l = c then afterLiteral lit input else none

/-- The call `sscanf(line, "Visible=%d", &i)`: `some i` when it returns 1. -/
def sscanfVisible (line : String) : Option Int :=
  match afterLiteral "Visible=".data line.data with
  | some rest => scanInt rest
  | none => none

/-- `CVLogSettingsHandler_ReadLine`; `entry` is the pointer `ReadOpen` returned. -/
def CVLogSettingsHandler_ReadLine (wm : WindowManager) (entry : Nat) (line : String) :
    WindowManager :=
  match sscanfVisible line with
  | some i => wm.modifyData entry (fun settings => { settings with isVisible := decide (i ≠ 0) })
  | none => wm

/-- One section of the settings text: the panel name of its header line
`[CvLogData][name]` and the lines below it. -/
structure IniSection where
  name : String
  lines : List String
  deriving DecidableEq, Repr

/-- The host feeds one section to the read handlers: `ReadOpen` on the name,
then `ReadLine` on every line with the entry `ReadOpen` returned. -/
def readSection (ImHashStr : String → ImGuiID) (wm : WindowManager) (s : IniSection) :
    WindowManager :=
  s.lines.foldl
    (fun w line => CVLogSettingsHandler_ReadLine w (CVLogSettingsHandler_ReadOpen ImHashStr wm s.name).2 line)
    (CVLogSettingsHandler_ReadOpen ImHashStr wm s.name).1

/-- The host feeds a sequence of sections to the read handlers. -/
def readSections (ImHashStr : String → ImGuiID) (wm : WindowManager) (ss : List IniSection) :
    WindowManager :=
  ss.foldl (readSection ImHashStr) wm

/-- The visibility flags changed through `isVisibleRef()` (check boxes, close
buttons, Show All, Hide All): entry `i` gets the flag `flags i`. -/
def WindowManager.withVisibility (wm : WindowManager) (flags : Nat → Bool) : WindowManager :=
  { wm with _windowsData :=
      wm._windowsData.enum.map (fun p => { p.2 with isVisible := flags p.1 }) }

/-! ## Concurrent lookup -/

/-- The outcome of a call whose body holds an `IM_ASSERT`: the value returned,
or the assertion failed. -/
inductive Asserted (α : Type) where
  | ok (value : α)
  | assertionFailed
  deriving DecidableEq, Repr

/-- `WindowManager::ConcurrentFindWindowById`. -/
def WindowManager.ConcurrentFindWindowById (wm : WindowManager) (id : ImGuiID) : Option Nat :=
  ImGuiStorage.GetVoidPtr wm.windowsByID id

/-- `WindowManager::ConcurrentFindWindow`: `ok none` is the null pointer. -/
def WindowManager.ConcurrentFindWindow (ImHashStr : String → ImGuiID) (wm : WindowManager)
    (name : String) : Asserted (Option Nat) :=
  match wm.ConcurrentFindWindowById (ImHashStr name) with
  | none => Asserted.ok none
  | some windowData =>
    if (wm.data windowData).name = name then Asserted.ok (some windowData)
    else Asserted.assertionFailed

/-- What `WindowIsVisible` leaves behind: the registry, the value returned, and
the address stored in `*persistentAddressOfFlag` when the caller passed one
(`some none` is a stored null address, `some (some p)` the address of the
`_isVisible` member of the entry `p`). -/
structure WindowIsVisibleResult where
  registry : WindowManager
  returned : Bool
  stored : Option (Option Nat)
  deriving DecidableEq, Repr

/-- `WindowIsVisible`; `wantsAddress` says whether `persistentAddressOfFlag` is non-null. -/
def WindowIsVisible (ImHashStr : String → ImGuiID) (wm : WindowManager) (windowName : String)
    (wantsAddress : Bool) : Asserted WindowIsVisibleResult :=
  match wm.ConcurrentFindWindow ImHashStr windowName with
  | Asserted.assertionFailed => Asserted.assertionFailed
  | Asserted.ok windowData =>
    Asserted.ok
      { registry := wm
        returned := match windowData with
          | some p => (wm.data p).isVisible
          | none => false
        stored := if wantsAddress then some windowData else none }

/-- The index invariant: the keys of `concurrent.windowsByID` ascend, and the
index finds under an id what `findDataForWindow` finds. -/
def WindowManager.IndexInv (wm : WindowManager) : Prop :=
  (wm.windowsByID.map Prod.fst).Pairwise (fun a b => a < b) ∧
  ∀ k, ImGuiStorage.GetVoidPtr wm.windowsByID k = wm.findDataForWindow k

/-! ## Tile and scale -/

/-- The comparator `isWindowHeightSmaller` of `TileAndScaleVisibleWindows`; the
`operator<` of `std::string` is the lexicographic order of the characters. -/
def WindowManager.isWindowHeightSmaller (wm : WindowManager) (w1 w2 : Window) : Bool :=
  if (wm.data w1.imGuiData).preferredContentSize.y < (wm.data w2.imGuiData).preferredContentSize.y
  then true
  else if (wm.data w1.imGuiData).preferredContentSize.y > (wm.data w2.imGuiData).preferredContentSize.y
  then false
  else if (wm.data w1.imGuiData).preferredContentSize.x < (wm.data w2.imGuiData).preferredContentSize.x
  then true
  else if (wm.data w1.imGuiData).preferredContentSize.x > (wm.data w2.imGuiData).preferredContentSize.x
  then false
  else decide ((wm.data w1.imGuiData).name.data < (wm.data w2.imGuiData).name.data)

/-- The `insert` of a `std::set` with comparator `lt`, on the set's elements in
ascending order: an element equivalent to one of the set is not inserted. -/
def stdSetInsert {α : Type} (lt : α → α → Bool) (x : α) : List α → List α
  | [] => [x]
  | y :: ys =>
    if lt x y then x :: y :: ys
    else if lt y x then y :: stdSetInsert lt x ys
    else y :: ys

/-- The set `windowsSortedBySize` after the insertion loop over `_windows`. -/
def WindowManager.windowsSortedBySize (wm : WindowManager) : List Window :=
  wm._windows.foldl (fun set win => stdSetInsert wm.isWindowHeightSmaller win set) []

/-- The local variables `currentX`, `currentY`, `maxHeightInCurrentRow` of a pass. -/
structure TileCursor where
  currentX : ℚ
  currentY : ℚ
  maxHeightInCurrentRow : ℚ
  deriving DecidableEq, Repr

/-- The local `scaledWinSize` of the loop body. -/
def scaledWinSize (winData : WindowData) (extraWindowHeight scaleFactor : ℚ) : ImVec2 :=
  { x := (winData.preferredWindowSize extraWindowHeight).x * scaleFactor
    y := (winData.preferredWindowSize extraWindowHeight).y * scaleFactor }

/-- The `if` under "Start new row?": the cursor after it. -/
def tileStartNewRow (vp : ImGuiViewport) (cur : TileCursor) (size : ImVec2) : TileCursor :=
  if cur.currentX > WindowManager.windowListWidth + vp.Pos.x ∧
      cur.currentX + size.x > vp.Pos.x + vp.Size.x then
    { currentX := WindowManager.windowListWidth + vp.Pos.x
      currentY := cur.currentY + cur.maxHeightInCurrentRow
      maxHeightInCurrentRow := 0 }
  else cur

/-- The four assignments to `layoutUpdateOnNextFrame` of the loop body. -/
def tilePlace (cur : TileCursor) (size : ImVec2) (winData : WindowData) : WindowData :=
  { winData with
    layoutUpdateOnNextFrame :=
      { hasData := true
        pos := { x := cur.currentX, y := cur.currentY }
        size := size
        imGuiCond := ImGuiCond.Always } }

/-- The two updates of the cursor that end the loop body. -/
def tileAdvance (cur : TileCursor) (size : ImVec2) : TileCursor :=
  { currentX := cur.currentX + size.x
    currentY := cur.currentY
    maxHeightInCurrentRow := max cur.maxHeightInCurrentRow size.y }

/-- The `for` loop of one pass at `scaleFactor`, from the window `win` on: the
registry after the pass and `didFit` (false when the loop broke). -/
def tilePass (vp : ImGuiViewport) (extraWindowHeight scaleFactor : ℚ) :
    List Window → TileCursor → WindowManager → WindowManager × Bool
  | [], _, wm => (wm, true)
  | win :: rest, cur, wm =>
    if (wm.data win.imGuiData).isVisible = false then
      tilePass vp extraWindowHeight scaleFactor rest cur wm
    else if (wm.data win.imGuiData).isDocked = true then
      tilePass vp extraWindowHeight scaleFactor rest cur wm
    else if (tileStartNewRow vp cur
          (scaledWinSize (wm.data win.imGuiData) extraWindowHeight scaleFactor)).currentY
        + (scaledWinSize (wm.data win.imGuiData) extraWindowHeight scaleFactor).y
        > vp.Pos.y + vp.Size.y then
      (wm, false)
    else
      tilePass vp extraWindowHeight scaleFactor rest
        (tileAdvance
          (tileStartNewRow vp cur
            (scaledWinSize (wm.data win.imGuiData) extraWindowHeight scaleFactor))
          (scaledWinSize (wm.data win.imGuiData) extraWindowHeight scaleFactor))
        (wm.modifyData win.imGuiData
          (tilePlace
            (tileStartNewRow vp cur
              (scaledWinSize (wm.data win.imGuiData) extraWindowHeight scaleFactor))
            (scaledWinSize (wm.data win.imGuiData) extraWindowHeight scaleFactor)))

/-- The cursor at the start of a pass. -/
def tileStart (vp : ImGuiViewport) : TileCursor :=
  { currentX := WindowManager.windowListWidth + vp.Pos.x
    currentY := vp.Pos.y
    maxHeightInCurrentRow := 0 }

/-- The `while (!didFit)` loop, run for at most `fuel` passes: `none` when the
passes ran out before one fitted. -/
def tileLoop (vp : ImGuiViewport) (extraWindowHeight : ℚ) (sorted : List Window) :
    Nat → ℚ → WindowManager → Option WindowManager
  | 0, _, _ => none
  | fuel + 1, scaleFactor, wm =>
    if (tilePass vp extraWindowHeight scaleFactor sorted (tileStart vp) wm).2 = true then
      some (tilePass vp extraWindowHeight scaleFactor sorted (tileStart vp) wm).1
    else
      tileLoop vp extraWindowHeight sorted fuel (scaleFactor * (95 / 100))
        (tilePass vp extraWindowHeight scaleFactor sorted (tileStart vp) wm).1

/-- `WindowManager::TileAndScaleVisibleWindows`, run for at most `fuel` passes. -/
def WindowManager.TileAndScaleVisibleWindows (wm : WindowManager) (fuel : Nat)
    (vp : ImGuiViewport) (extraWindowHeight : ℚ) : Option WindowManager :=
  tileLoop vp extraWindowHeight wm.windowsSortedBySize fuel 1 wm

/-- An entry without its layout command. -/
def WindowData.sansLayout (d : WindowData) : WindowData :=
  { d with layoutUpdateOnNextFrame := {} }

/-- Two registries that differ in layout commands only. -/
def WindowManager.SameButLayout (wm1 wm : WindowManager) : Prop :=
  wm1._windowsData.length = wm._windowsData.length ∧
  ∀ i, (wm1.data i).sansLayout = (wm.data i).sansLayout

/-- The heights that the visible, undocked windows of `ws` take at scale 1. -/
def tileHeightSum (wm : WindowManager) (extraWindowHeight : ℚ) (ws : List Window) : ℚ :=
  (ws.map (fun w =>
    if (wm.data w.imGuiData).isVisible = true ∧ (wm.data w.imGuiData).isDocked = false
    then max 0 ((wm.data w.imGuiData).preferredWindowSize extraWindowHeight).y else 0)).sum

/-- The key that `isWindowHeightSmaller` compares, in lexicographic order. -/
def WindowManager.sizeKey (wm : WindowManager) (w : Window) : ℚ ×ₗ ℚ ×ₗ String :=
  toLex ((wm.data w.imGuiData).preferredContentSize.y,
    toLex ((wm.data w.imGuiData).preferredContentSize.x, (wm.data w.imGuiData).name))

/-- Every window of `_windows` points at an entry of `_windowsData`. -/
def WindowManager.WindowsInv (wm : WindowManager) : Prop :=
  ∀ w ∈ wm._windows, w.imGuiData < wm._windowsData.length

/-- A registry with three panels, `A` of preferred size 600 by 500 and `B`, `C`
of the default size, each with a panel instance. -/
def threePanels : WindowManager :=
  registryAfter polyHash
    [RegistryOp.AddWindow "A" ⟨⟨0, 0⟩, ⟨1280, 720⟩⟩ 20 0 0,
     RegistryOp.AddWindow "B" ⟨⟨0, 0⟩, ⟨1280, 720⟩⟩ 20 0 0,
     RegistryOp.AddWindow "C" ⟨⟨0, 0⟩, ⟨1280, 720⟩⟩ 20 0 0,
     RegistryOp.SetWindowPreferredSize "A" ⟨600, 500⟩]

/-- A registry with the one panel `A`, of preferred size 2000 by 100, with a
panel instance. -/
def widePanel : WindowManager :=
  registryAfter polyHash
    [RegistryOp.AddWindow "A" ⟨⟨0, 0⟩, ⟨1280, 720⟩⟩ 20 0 0,
     RegistryOp.SetWindowPreferredSize "A" ⟨2000, 100⟩]

/-! ## The context and the public API -/

/-- The `m[key] = value` of the `std::unordered_map` `_menuBarCallbacks`
(iteration order unspecified; here the order of first insertion). -/
def UnorderedMap.assign {α : Type} : List (String × α) → String → α → List (String × α)
  | [], key, value => [(key, value)]
  | (k, v) :: rest, key, value =>
    if k = key then (k, value) :: rest else (k, v) :: UnorderedMap.assign rest key value

/-- `WindowManager::AddMenuBarCallback`. -/
def WindowManager.AddMenuBarCallback (wm : WindowManager) (name : String) (callback : Closure) :
    WindowManager :=
  { wm with _menuBarCallbacks := UnorderedMap.assign wm._menuBarCallbacks name callback }

/-- The struct `Context`; `tasksToRun` is `cache.tasksToRun`. -/
structure Context where
  tasksForNextFrame : List Closure := []
  tasksToRepeatForEachFrame : StdMap Closure := []
  tasksToRun : List Closure := []
  windowManager : WindowManager := {}
  deriving DecidableEq, Repr, Inhabited

/-- `RunOnceInImGuiThread`. -/
def RunOnceInImGuiThread (ctx : Context) (f : Closure) : Context :=
  { ctx with tasksForNextFrame := ctx.tasksForNextFrame ++ [f] }

/-- `SetPerFrameCallback`; `none` is an empty `std::function`. -/
def SetPerFrameCallback (ctx : Context) (callbackName : String) (callback : Option Closure) :
    Context :=
  match callback with
  | some cb =>
    { ctx with tasksToRepeatForEachFrame :=
        StdMap.assign ctx.tasksToRepeatForEachFrame callbackName cb }
  | none =>
    { ctx with tasksToRepeatForEachFrame :=
        StdMap.erase ctx.tasksToRepeatForEachFrame callbackName }

/-- `SetWindowProperties`; `none` is a null pointer. -/
def SetWindowProperties (ctx : Context) (windowName categoryName helpString : Option String)
    (preferredWidth preferredHeight : Int) : Context :=
  RunOnceInImGuiThread ctx
    (Closure.setWindowProperties (windowName.getD "") (categoryName.getD "") (helpString.getD "")
      preferredWidth preferredHeight)

/-- `SetWindowPreRenderCallback`; `none` is an empty `std::function`. -/
def SetWindowPreRenderCallback (ctx : Context) (windowName callbackName : String)
    (callback : Option Closure) : Context :=
  RunOnceInImGuiThread ctx
    (match callback with
      | some cb => Closure.setWindowPreRenderCallback windowName callbackName cb
      | none => Closure.eraseWindowPreRenderCallback windowName callbackName)

/-- The free function `AddMenuBarCallback`. -/
def AddMenuBarCallback (ctx : Context) (name : String) (callback : Closure) : Context :=
  RunOnceInImGuiThread ctx (Closure.addMenuBarCallback name callback)

/-- `ClearAll`. -/
def ClearAll (ctx : Context) : Context :=
  RunOnceInImGuiThread ctx Closure.clearAll

/-- The body of the lambda of `SetWindowProperties`, on the registry. -/
def setWindowPropertiesBody (ImHashStr : String → ImGuiID) (wm : WindowManager)
    (windowNameCopy categoryNameCopy helpStringCopy : String)
    (preferredWidth preferredHeight : Int) : WindowManager :=
  let found := wm.FindOrCreateDataForWindow ImHashStr windowNameCopy
  let winData := found.2
  let wm1 :=
    if categoryNameCopy ≠ "" then
      (found.1.SetWindowCategory ImHashStr windowNameCopy categoryNameCopy).1
    else found.1
  let wm2 :=
    if helpStringCopy ≠ "" then
      wm1.modifyData winData (fun d => { d with helpString := helpStringCopy })
    else wm1
  let wm3 :=
    if preferredWidth > 0 then
      wm2.modifyData winData (fun d =>
        { d with preferredContentSize :=
            { x := (preferredWidth : ℚ), y := d.preferredContentSize.y } })
    else wm2
  if preferredHeight > 0 then
    wm3.modifyData winData (fun d =>
      { d with preferredContentSize :=
          { x := d.preferredContentSize.x, y := (preferredHeight : ℚ) } })
  else wm3

/-- The body of the lambda of `ClearAll`: `Clear()` on the window of every entry that has one. -/
def clearAllBody (wm : WindowManager) : WindowManager :=
  wm._windowsData.foldl (fun w winData =>
    match winData.window with
    | some window => { w with _windows := w._windows.modify Window.Clear window }
    | none => w) wm

/-- Running a closure on the render thread. -/
def Closure.run (ImHashStr : String → ImGuiID) : Closure → Context → Context
  | Closure.setWindowProperties n c h pw ph, ctx =>
    { ctx with windowManager := setWindowPropertiesBody ImHashStr ctx.windowManager n c h pw ph }
  | Closure.setWindowPreRenderCallback n cbn cb, ctx =>
    let found := ctx.windowManager.FindOrCreateDataForWindow ImHashStr n
    let wm := found.1.modifyData found.2
      (fun d => { d with preRenderCallbacks := StdMap.assign d.preRenderCallbacks cbn cb })
    { ctx with windowManager := wm }
  | Closure.eraseWindowPreRenderCallback n cbn, ctx =>
    let found := ctx.windowManager.FindOrCreateDataForWindow ImHashStr n
    let wm := found.1.modifyData found.2
      (fun d => { d with preRenderCallbacks := StdMap.erase d.preRenderCallbacks cbn })
    { ctx with windowManager := wm }
  | Closure.addMenuBarCallback n cb, ctx =>
    { ctx with windowManager := ctx.windowManager.AddMenuBarCallback n cb }
  | Closure.clearAll, ctx => { ctx with windowManager := clearAllBody ctx.windowManager }
  | Closure.skip, ctx => ctx
  | Closure.seq first second, ctx => second.run ImHashStr (first.run ImHashStr ctx)
  | Closure.callRunOnceInImGuiThread f, ctx => RunOnceInImGuiThread ctx f
  | Closure.callClearAll, ctx => ClearAll ctx
  | Closure.callSetWindowProperties n c h pw ph, ctx => SetWindowProperties ctx (some n) c h pw ph
  | Closure.callSetPerFrameCallback n cb, ctx => SetPerFrameCallback ctx n (some cb)
  | Closure.callErasePerFrameCallback n, ctx => SetPerFrameCallback ctx n none
  | Closure.callSetWindowPreRenderCallback w n cb, ctx =>
    SetWindowPreRenderCallback ctx w n (some cb)
  | Closure.callAddMenuBarCallback n cb, ctx => AddMenuBarCallback ctx n cb

/-- The locked block that opens `Render`: the one-shot closures go to the front
of `cache.tasksToRun`, the one-shot list is cleared, and the repeating callbacks
are pushed to the back in key order. -/
def drainTasks (ctx : Context) : Context :=
  { ctx with
    tasksToRun := (ctx.tasksForNextFrame ++ ctx.tasksToRun)
      ++ ctx.tasksToRepeatForEachFrame.map Prod.snd
    tasksForNextFrame := [] }

/-- The loop `for (auto& task : cache.tasksToRun) task();`. -/
def runTasks (ImHashStr : String → ImGuiID) (ctx : Context) : Context :=
  ctx.tasksToRun.foldl (fun c task => task.run ImHashStr c) ctx

/-- The statement `cache.tasksToRun.clear()`. -/
def clearTasksToRun (ctx : Context) : Context :=
  { ctx with tasksToRun := [] }

/-! ## A frame: `Render` -/

/-- What the host toolkit reports for one panel window during a frame. -/
structure WindowFrameInput where
  /-- `Begin(&isVisibleRef())` cleared the flag (the close button was pressed). -/
  closeClicked : Bool := false
  /-- The value `window->Begin(&isVisibleRef())` returns. -/
  beginReturned : Bool := true
  /-- `ImGui::GetWindowSize()`. -/
  windowSize : ImVec2 := ⟨0, 0⟩
  /-- `ImGui::IsWindowDocked()`. -/
  docked : Bool := false
  /-- The value `window->Begin(nullptr)` returns before the pre-render callbacks. -/
  preRenderBegin : Bool := true

/-- What the host toolkit reports during one call of `WindowManager::Render`:
the style and viewport, which widgets are open, and which were activated. -/
structure FrameInput where
  vp : ImGuiViewport
  extraWindowHeight : ℚ := 0
  windowListBegin : Bool := true
  menuBarBegin : Bool := true
  cvlogMenuOpen : Bool := false
  windowsMenuOpen : Bool := false
  showAllClicked : Bool := false
  hideAllClicked : Bool := false
  tileClicked : Bool := false
  /-- The number of passes allowed to the tiling loop. -/
  tilePasses : Nat := 0
  loadPresetMenuOpen : Bool := false
  /-- For each preset activated in "Load Preset", the `CvLogData` sections of its file. -/
  loadedPresets : List (List IniSection) := []
  clearAllClicked : Bool := false
  categoryHeaderOpen : String → Bool := fun _ => true
  categoryCheckboxClicked : String → Bool := fun _ => false
  windowCheckboxClicked : String → Bool := fun _ => false
  window : String → WindowFrameInput := fun _ => {}

/-- A callback that `WindowManager::Render` invoked: the window whose pre-render
callback it is (`none` for a menu bar callback), its key, and the closure. -/
structure CallbackRun where
  window : Option String
  key : String
  callback : Closure
  deriving DecidableEq, Repr

/-- The context during `Render`, with the closures invoked so far: `tasksRun`
by the loop over `cache.tasksToRun`, `callbacksRun` by `WindowManager::Render`. -/
structure RenderState where
  ctx : Context
  tasksRun : List Closure := []
  callbacksRun : List CallbackRun := []
  deriving DecidableEq, Repr

/-- The locked block of `Render`, the loop `for (auto& task : cache.tasksToRun)
task();` and `cache.tasksToRun.clear()`. -/
def renderTasks (ImHashStr : String → ImGuiID) (ctx : Context) : RenderState :=
  { ctx := clearTasksToRun (runTasks ImHashStr (drainTasks ctx))
    tasksRun := (drainTasks ctx).tasksToRun }

/-- A callback is invoked (`it.second()`). -/
def RenderState.invoke (ImHashStr : String → ImGuiID) (window : Option String)
    (s : RenderState) (it : String × Closure) : RenderState :=
  { s with
    ctx := it.2.run ImHashStr s.ctx
    callbacksRun := s.callbacksRun ++ [{ window := window, key := it.1, callback := it.2 }] }

/-- The registry of a render state replaced. -/
def RenderState.withWindowManager (s : RenderState) (wm : WindowManager) : RenderState :=
  { s with ctx := { s.ctx with windowManager := wm } }

/-- The menu "Windows": Show All, Hide All, Tile Windows. `none` when the tiling
loop did not end within `input.tilePasses` passes. -/
def menuWindows (input : FrameInput) (wm : WindowManager) : Option WindowManager :=
  let wm1 := if input.showAllClicked then wm.withVisibility (fun _ => true) else wm
  let wm2 := if input.hideAllClicked then wm1.withVisibility (fun _ => false) else wm1
  if input.tileClicked then
    wm2.TileAndScaleVisibleWindows input.tilePasses input.vp input.extraWindowHeight
  else some wm2

/-- The menu "CVLog": the menu "Windows", "Load Preset" (the host feeds the
sections of each activated file to the read handlers) and "Clear All". -/
def menuCVLog (ImHashStr : String → ImGuiID) (input : FrameInput) (s : RenderState) :
    Option RenderState :=
  (if input.windowsMenuOpen then menuWindows input s.ctx.windowManager
    else some s.ctx.windowManager).map (fun wm1 =>
      let wm2 :=
        if input.loadPresetMenuOpen then input.loadedPresets.foldl (readSections ImHashStr) wm1
        else wm1
      let s1 := s.withWindowManager wm2
      if input.clearAllClicked then { s1 with ctx := ClearAll s1.ctx } else s1)

/-- The loop `for (const auto& it : _menuBarCallbacks) it.second();`. -/
def runMenuBarCallbacks (ImHashStr : String → ImGuiID) (s : RenderState) : RenderState :=
  s.ctx.windowManager._menuBarCallbacks.foldl (RenderState.invoke ImHashStr none) s

/-- The block under `if (ImGui::BeginMenuBar())`. -/
def renderMenuBar (ImHashStr : String → ImGuiID) (input : FrameInput) (s : RenderState) :
    Option RenderState :=
  (if input.cvlogMenuOpen then menuCVLog ImHashStr input s else some s).map
    (runMenuBarCallbacks ImHashStr)

/-- The body of the loop over `_windowsPerCategory` for the category `cat`. -/
def renderCategory (input : FrameInput) (wm : WindowManager) (cat : WindowCategory) :
    WindowManager :=
  let numVisible := (cat.windows.filter (fun p => (wm.data p).isVisible)).length
  let selected : Bool := decide (numVisible = cat.windows.length)
  let wm1 :=
    if input.categoryCheckboxClicked cat.name then
      cat.windows.foldl (fun w p => w.modifyData p (fun d => { d with isVisible := !selected })) wm
    else wm
  if input.categoryHeaderOpen cat.name then
    cat.windows.foldl (fun w p =>
      if input.windowCheckboxClicked (w.data p).name then
        w.modifyData p (fun d => { d with isVisible := !d.isVisible })
      else w) wm1
  else wm1

/-- The block under `if (ImGui::Begin("Window List", ...))`. -/
def renderWindowList (ImHashStr : String → ImGuiID) (input : FrameInput) (s : RenderState) :
    Option RenderState :=
  (if input.menuBarBegin then renderMenuBar ImHashStr input s else some s).map (fun s1 =>
    s1.withWindowManager
      (s1.ctx.windowManager._windowsPerCategory.foldl (renderCategory input)
        s1.ctx.windowManager))

/-- The part of the loop body over `_windowsData` before the pre-render
callbacks: the layout command is consumed, `Begin` may clear the visibility
flag, and an active window reports its size and docking state. -/
def beginWindow (input : FrameInput) (winData : WindowData) : WindowData :=
  let d1 :=
    if winData.layoutUpdateOnNextFrame.hasData then { winData with layoutUpdateOnNextFrame := {} }
    else winData
  let d2 := if (input.window d1.name).closeClicked then { d1 with isVisible := false } else d1
  if (input.window d2.name).beginReturned then
    { d2.setPreferredWindowSize (input.window d2.name).windowSize input.extraWindowHeight with
      isDocked := (input.window d2.name).docked }
  else d2

/-- The body of the loop over `_windowsData` for the entry `p`. -/
def renderWindow (ImHashStr : String → ImGuiID) (input : FrameInput) (s : RenderState)
    (p : Nat) : RenderState :=
  if (s.ctx.windowManager.data p).window.isSome ∧ (s.ctx.windowManager.data p).isVisible then
    let s1 := s.withWindowManager (s.ctx.windowManager.modifyData p (beginWindow input))
    if (s1.ctx.windowManager.data p).preRenderCallbacks ≠ [] ∧
        (input.window (s1.ctx.windowManager.data p).name).preRenderBegin then
      (s1.ctx.windowManager.data p).preRenderCallbacks.foldl
        (RenderState.invoke ImHashStr (some (s1.ctx.windowManager.data p).name)) s1
    else s1
  else s

/-- `WindowManager::Render`. -/
def WindowManagerRender (ImHashStr : String → ImGuiID) (input : FrameInput) (s : RenderState) :
    Option RenderState :=
  (if input.windowListBegin then renderWindowList ImHashStr input s else some s).map (fun s1 =>
    (List.range s1.ctx.windowManager._windowsData.length).foldl
      (renderWindow ImHashStr input) s1)

/-- `Render`: the context it leaves and the closures it invoked; `none` when the
tiling loop of "Tile Windows" did not end within `input.tilePasses` passes. -/
def Render (ImHashStr : String → ImGuiID) (input : FrameInput) (ctx : Context) :
    Option RenderState :=
  WindowManagerRender ImHashStr input (renderTasks ImHashStr ctx)

/-- Whether running the closure submits no one-shot closure, directly or
through a callback it installs. -/
def Closure.submitsNothing : Closure → Bool
  | Closure.setWindowProperties _ _ _ _ _ => true
  | Closure.setWindowPreRenderCallback _ _ _ => true
  | Closure.eraseWindowPreRenderCallback _ _ => true
  | Closure.addMenuBarCallback _ _ => true
  | Closure.clearAll => true
  | Closure.skip => true
  | Closure.seq first second => first.submitsNothing && second.submitsNothing
  | Closure.callRunOnceInImGuiThread _ => false
  | Closure.callClearAll => false
  | Closure.callSetWindowProperties _ _ _ _ _ => false
  | Closure.callSetPerFrameCallback _ _ => true
  | Closure.callErasePerFrameCallback _ => true
  | Closure.callSetWindowPreRenderCallback _ _ _ => false
  | Closure.callAddMenuBarCallback _ _ => false

/-- The step from `s` to `r` leaves `cache.tasksToRun` and the log of tasks
alone, only appends to the log of callbacks, and leaves the one-shot list alone
when the callbacks it appended submit nothing. -/
def RenderState.Quietly (s r : RenderState) : Prop :=
  r.tasksRun = s.tasksRun ∧ r.ctx.tasksToRun = s.ctx.tasksToRun ∧
  ∃ extra, r.callbacksRun = s.callbacksRun ++ extra ∧
    ((∀ c ∈ extra, c.callback.submitsNothing = true) →
      r.ctx.tasksForNextFrame = s.ctx.tasksForNextFrame)

/-- A frame in which the user does nothing, in a 1280 by 720 viewport. -/
def idleFrame : FrameInput := { vp := ⟨⟨0, 0⟩, ⟨1280, 720⟩⟩ }

/-- A frame in which the user activates "Clear All" in the menu "CVLog". -/
def clearAllFrame : FrameInput :=
  { vp := ⟨⟨0, 0⟩, ⟨1280, 720⟩⟩, cvlogMenuOpen := true, clearAllClicked := true }

/-- A context with two queued one-shot closures and one repeating callback,
none of which submits a closure. -/
def quietContext : Context :=
  { tasksForNextFrame := [Closure.setWindowProperties "A" "Images" "help" 640 480, Closure.skip]
    tasksToRepeatForEachFrame := [("tick", Closure.skip)] }

/-- A context whose registry holds the one name `Aa`. -/
def contextWithAa : Context :=
  { windowManager := registryAfter polyHash [RegistryOp.FindOrCreateDataForWindow "Aa"] }

/-- The entry `d` with each field updated exactly when provided, as the
specification of `SetWindowProperties` words it: a non-empty `cat` sets the
category, a non-empty `help` the help string, a positive `w` the preferred
content width and a positive `h` the preferred content height. -/
def WindowData.withProperties (d : WindowData) (cat help : Option String) (w h : Int) :
    WindowData :=
  { d with
    category := match cat with
      | some c => if c ≠ "" then c else d.category
      | none => d.category
    helpString := match help with
      | some s => if s ≠ "" then s else d.helpString
      | none => d.helpString
    preferredContentSize :=
      { x := if w > 0 then (w : ℚ) else d.preferredContentSize.x
        y := if h > 0 then (h : ℚ) else d.preferredContentSize.y } }

/-! ## Image panels (`ImageWindow`) -/

/-- The pixel formats that `ImageWindow::Render` uploads, and any other. -/
inductive MatType where
  | CV_8UC1
  | CV_8UC3
  | CV_8UC4
  | CV_32F
  | CV_32FC3
  | CV_32FC4
  | other
  deriving DecidableEq, Repr, Inhabited

/-- The part of `cv::Mat` that the image panel reads: the address `data` of the
pixels (`0` is the null pointer of an empty matrix), `rows`, `cols` and
`type()`. Copying a `cv::Mat` copies the header, so the copy has the same
`data`. -/
structure Mat where
  data : Nat := 0
  rows : Int := 0
  cols : Int := 0
  type : MatType := MatType.CV_8UC1
  deriving DecidableEq, Repr, Inhabited

/-- The class `ImageWindow` of `imgui_cvlog_gl_opencv.cpp`: `image` is
`concurrent.image`. (The `ImageWindow` of `imgui_cvlog_demo.cpp` is the same
with an `ImagePtr` for the `cv::Mat`, `height` and `width` for `rows` and
`cols`.) -/
structure ImageWindow where
  image : Mat := {}
  _textureID : Nat := 0
  _imageDataUploadedToTexture : Nat := 0
  deriving DecidableEq, Repr, Inhabited

/-- `ImageWindow::UpdateImage`; `isVisible` is the value of `isVisible()`, the
flag of the metadata the panel is bound to. -/
def ImageWindow.UpdateImage (w : ImageWindow) (isVisible : Bool) (newImage : Mat) :
    ImageWindow :=
  if !isVisible then w
  else { w with image := newImage }

/-- `ImageWindow::Clear`: `UpdateImage (cv::Mat())`. -/
def ImageWindow.Clear (w : ImageWindow) (isVisible : Bool) : ImageWindow :=
  w.UpdateImage isVisible {}

/-- What the host reports to one `ImageWindow::Render`. -/
structure ImageFrameInput where
  /-- The texture name that `glGenTextures` writes. -/
  genTexture : Nat := 1
  /-- The value `ImGui::Begin(name())` returns. -/
  beginReturned : Bool := true
  /-- `ImGui::GetContentRegionAvail()`. -/
  contentRegionAvail : ImVec2 := ⟨0, 0⟩
  deriving DecidableEq, Repr, Inhabited

/-- What one `ImageWindow::Render` hands to the host: the pixel address given to
`glTexImage2D`, and the size given to `ImGui::Image`. -/
structure ImageFrameOutput where
  uploaded : Option Nat := none
  drawn : Option ImVec2 := none
  deriving DecidableEq, Repr, Inhabited

/-- The size that `ImageWindow::Render` passes to `ImGui::Image` for an image
of `rows` by `cols` in the content region `wSize`, over exact arithmetic. -/
def ImageWindow.imageSize (rows cols : Int) (wSize : ImVec2) : ImVec2 :=
  let inputImageAspectRatio : ℚ := (rows : ℚ) / (cols : ℚ)
  let windowContentAspectRatio : ℚ := wSize.y / wSize.x
  if inputImageAspectRatio < windowContentAspectRatio then
    { x := wSize.x, y := wSize.x * inputImageAspectRatio }
  else
    { x := wSize.y / inputImageAspectRatio, y := wSize.y }

/-- Two bitmaps, at the addresses 5 and 7. -/
def twoBitmaps : List Mat :=
  [{ data := 5, rows := 2, cols := 2 }, { data := 7, rows := 4, cols := 8 }]

/-- `ImageWindow::Render`. -/
def ImageWindow.Render (w : ImageWindow) (input : ImageFrameInput) :
    ImageWindow × ImageFrameOutput :=
  let imageToShow := w.image
  if imageToShow.data = 0 then (w, {})
  else
    let w1 := if w._textureID = 0 then { w with _textureID := input.genTexture } else w
    let upload : Bool := decide (imageToShow.data ≠ w1._imageDataUploadedToTexture)
    let w2 := if upload then { w1 with _imageDataUploadedToTexture := imageToShow.data } else w1
    (w2,
      { uploaded :=
          if upload ∧ imageToShow.type ≠ MatType.other then some imageToShow.data else none
        drawn :=
          if input.beginReturned then
            some (ImageWindow.imageSize imageToShow.rows imageToShow.cols input.contentRegionAvail)
          else none })

/-! ## Plot panels (`PlotWindow`) -/

/-- The host toolkit's `ImVec4`, over exact arithmetic. -/
structure ImVec4 where
  x : ℚ
  y : ℚ
  z : ℚ
  w : ℚ
  deriving DecidableEq, Repr, Inhabited

/-- The struct `PlotWindow::GroupData`. `hasCustomLineColor` and `lineColor`
have no initialiser; a group is created by `operator[]` of the map, which
value-initialises it, so they start as `false` and zero. -/
structure GroupData where
  name : String := ""
  hasCustomLineColor : Bool := false
  lineColor : ImVec4 := ⟨0, 0, 0, 0⟩
  xData : List ℚ := []
  yData : List ℚ := []
  xMin : ℚ := 0
  xMax : ℚ := 1
  yMin : ℚ := 0
  yMax : ℚ := 1
  deriving DecidableEq, Repr, Inhabited

/-- The struct `PlotWindow::DataToAppend`. -/
structure DataToAppend where
  group : ImGuiID
  xValue : ℚ
  yValue : ℚ
  deriving DecidableEq, Repr, Inhabited

/-- The struct `PlotWindow::GroupToAdd`. -/
structure GroupToAdd where
  name : String
  style : String
  deriving DecidableEq, Repr, Inhabited

/-- The anonymous struct `PlotWindow::_dataBounds`. -/
structure DataBounds where
  xMin : ℚ := 0
  xMax : ℚ := 1
  yMin : ℚ := 0
  yMax : ℚ := 1
  deriving DecidableEq, Repr, Inhabited

/-- The plotting library's `ImPlotRange`; its constructor sets both ends to 0. -/
structure ImPlotRange where
  Min : ℚ := 0
  Max : ℚ := 0
  deriving DecidableEq, Repr, Inhabited

/-- The plotting library's `ImPlotLimits`. -/
structure ImPlotLimits where
  X : ImPlotRange := {}
  Y : ImPlotRange := {}
  deriving DecidableEq, Repr, Inhabited

/-- The `std::unordered_map<ImGuiID, GroupData>` `_groupData` (iteration order
unspecified; here the order of first insertion). -/
abbrev GroupMap := List (ImGuiID × GroupData)

/-- The value of `m[key]`, which is value-initialised when `key` is absent. -/
def GroupMap.get : GroupMap → ImGuiID → GroupData
  | [], _ => {}
  | (k, v) :: rest, key => if k = key then v else GroupMap.get rest key

/-- An assignment through the reference `m[key]`: `f` is applied to the value
under `key`, which is inserted value-initialised when absent. -/
def GroupMap.update : GroupMap → ImGuiID → (GroupData → GroupData) → GroupMap
  | [], key, f => [(key, f {})]
  | (k, v) :: rest, key, f =>
    if k = key then (k, f v) :: rest else (k, v) :: GroupMap.update rest key f

/-- `ImGuiStorage::GetBool(key)` with the default `false`: lower bound of `key`,
then whether the int stored there is not 0 when its key is `key`. -/
def ImGuiStorage.GetBool : ImGuiStorage → ImGuiID → Bool
  | [], _ => false
  | (k, v) :: rest, key =>
    if k < key then ImGuiStorage.GetBool rest key
    else if k = key then decide (v ≠ 0)
    else false

/-- `ImGuiStorage::SetBool(key, val)`, that is `SetInt(key, val ? 1 : 0)`: lower
bound of `key`, then overwrite the int when the key is there, else insert the
pair at that place. -/
def ImGuiStorage.SetBool : ImGuiStorage → ImGuiID → Bool → ImGuiStorage
  | [], key, val => [(key, if val then 1 else 0)]
  | (k, v) :: rest, key, val =>
    if k < key then (k, v) :: ImGuiStorage.SetBool rest key val
    else if k = key then (k, if val then 1 else 0) :: rest
    else (key, if val then 1 else 0) :: (k, v) :: rest

/-- The value of a hexadecimal digit, upper or lower case. -/
def hexDigitValue (c : Char) : Option Nat :=
  if 48 ≤ c.toNat ∧ c.toNat ≤ 57 then some (c.toNat - 48)
  else if 97 ≤ c.toNat ∧ c.toNat ≤ 102 then some (c.toNat - 97 + 10)
  else if 65 ≤ c.toNat ∧ c.toNat ≤ 70 then some (c.toNat - 65 + 10)
  else none

/-- The `%02x` conversion of `sscanf`: skip white space, then read an item of at
most two characters, an optional sign followed by hexadecimal digits; the
result is the value and the input left. A sign leaves room for one digit, and
the value of a negated item is stored in the `int` as a negative number. The
item `0x` (the prefix, with no room for a digit) is not a number, and the
conversion fails (C standard; C libraries differ on it, and nothing below
depends on that case). -/
def scanHex2 (input : List Char) : Option (Int × List Char) :=
  match input.dropWhile isspace with
  | [] => none
  | c :: cs =>
    if c = '+' ∨ c = '-' then
      match cs with
      | [] => none
      | d :: ds =>
        match hexDigitValue d with
        | none => none
        | some v => some (if c = '-' then - (v : Int) else (v : Int), ds)
    else
      match hexDigitValue c with
      | none => none
      | some v1 =>
        match cs with
        | [] => some ((v1 : Int), [])
        | d :: ds =>
          match hexDigitValue d with
          | some v2 => some (((v1 * 16 + v2 : Nat) : Int), ds)
          | none =>
            if c = '0' ∧ (d = 'x' ∨ d = 'X') then none
            else some ((v1 : Int), d :: ds)

/-- The call `sscanf(style.c_str(), "#%02x%02x%02x%02x", &r, &g, &b, &a)`:
`some (r, g, b, a)` when it returns 4. Characters after the fourth item are
not read. -/
def sscanfStyle (style : String) : Option (Int × Int × Int × Int) :=
  match afterLiteral "#".data style.data with
  | none => none
  | some rest0 =>
    match scanHex2 rest0 with
    | none => none
    | some (r, rest1) =>
      match scanHex2 rest1 with
      | none => none
      | some (g, rest2) =>
        match scanHex2 rest2 with
        | none => none
        | some (b, rest3) =>
          match scanHex2 rest3 with
          | none => none
          | some (a, _) => some (r, g, b, a)

/-- `PlotWindow::parseAndFillStyle`: the group after the call, or the failure
of one of its two assertions. -/
def parseAndFillStyle (style : String) (group : GroupData) : Asserted GroupData :=
  if style.data.head? ≠ some '#' then Asserted.assertionFailed
  else
    match sscanfStyle style with
    | some (r, g, b, a) =>
      Asserted.ok { group with lineColor := ⟨r, g, b, a⟩, hasCustomLineColor := true }
    | none => Asserted.assertionFailed

/-- The class `PlotWindow`; `dataSinceLastFrame`, `addedGroupsSinceLastFrame`
and `existingGroups` are the members of `concurrent`. -/
structure PlotWindow where
  _groupData : GroupMap := []
  _cacheOfDataToAppend : List DataToAppend := []
  dataSinceLastFrame : List DataToAppend := []
  addedGroupsSinceLastFrame : List GroupToAdd := []
  existingGroups : ImGuiStorage := []
  _dataBounds : DataBounds := {}
  _autoFitEnabled : Bool := true
  _previousLimits : ImPlotLimits := {}
  deriving DecidableEq, Repr, Inhabited

/-- `PlotWindow::Clear`. -/
def PlotWindow.Clear (w : PlotWindow) : PlotWindow :=
  { w with _groupData := [], _previousLimits := {}, _autoFitEnabled := true }

/-- `PlotWindow::AddPlotValue`; `isVisible` is the value of `isVisible()`, and
`style = none` is a null pointer. -/
def PlotWindow.AddPlotValue (ImHashStr : String → ImGuiID) (w : PlotWindow) (isVisible : Bool)
    (groupName : String) (yValue xValue : ℚ) (style : Option String) : PlotWindow :=
  if !isVisible then w
  else
    let groupId := ImHashStr groupName
    let w1 : PlotWindow :=
      { w with dataSinceLastFrame :=
          w.dataSinceLastFrame ++ [{ group := groupId, xValue := xValue, yValue := yValue }] }
    if !(w1.existingGroups.GetBool groupId) then
      { w1 with addedGroupsSinceLastFrame :=
          w1.addedGroupsSinceLastFrame ++ [{ name := groupName, style := style.getD "" }] }
    else w1

/-- The body of the loop over `concurrent.addedGroupsSinceLastFrame` in
`PlotWindow::Render`. -/
def PlotWindow.installGroup (ImHashStr : String → ImGuiID) (w : PlotWindow) (group : GroupToAdd) :
    Asserted PlotWindow :=
  let groupId := ImHashStr group.name
  let groupData1 := w._groupData.update groupId (fun g => { g with name := group.name })
  let parsed : Asserted GroupMap :=
    if group.style ≠ "" then
      match parseAndFillStyle group.style (groupData1.get groupId) with
      | Asserted.ok g => Asserted.ok (groupData1.update groupId (fun _ => g))
      | Asserted.assertionFailed => Asserted.assertionFailed
    else Asserted.ok groupData1
  match parsed with
  | Asserted.ok groupData2 =>
    Asserted.ok
      { w with
        _groupData := groupData2
        existingGroups := w.existingGroups.SetBool groupId true }
  | Asserted.assertionFailed => Asserted.assertionFailed

/-- The loop over `concurrent.addedGroupsSinceLastFrame`, which stops at the
first failed assertion. -/
def PlotWindow.installGroups (ImHashStr : String → ImGuiID) :
    PlotWindow → List GroupToAdd → Asserted PlotWindow
  | w, [] => Asserted.ok w
  | w, group :: groups =>
    match w.installGroup ImHashStr group with
    | Asserted.ok w1 => PlotWindow.installGroups ImHashStr w1 groups
    | Asserted.assertionFailed => Asserted.assertionFailed

/-- The body of the loop over `_cacheOfDataToAppend` in `PlotWindow::Render`. -/
def PlotWindow.appendSample (w : PlotWindow) (it : DataToAppend) : PlotWindow :=
  let groupData1 := w._groupData.update it.group (fun g =>
    let g1 : GroupData :=
      { g with xData := g.xData ++ [it.xValue], yData := g.yData ++ [it.yValue] }
    if g1.xData.length = 1 then
      { g1 with xMin := it.xValue, xMax := it.xValue, yMin := it.yValue, yMax := it.yValue }
    else
      { g1 with
        xMin := min g1.xMin it.xValue
        xMax := max g1.xMax it.xValue
        yMin := min g1.yMin it.yValue
        yMax := max g1.yMax it.yValue })
  let groupData := groupData1.get it.group
  { w with
    _groupData := groupData1
    _dataBounds :=
      { xMin := min w._dataBounds.xMin groupData.xMin
        xMax := max w._dataBounds.xMax groupData.xMax
        yMin := min w._dataBounds.yMin groupData.yMin
        yMax := max w._dataBounds.yMax groupData.yMax } }

/-- What the host reports to one `PlotWindow::Render`. -/
structure PlotFrameInput where
  /-- The value `Begin(nullptr)` returns. -/
  beginReturned : Bool := true
  /-- The value `ImPlot::BeginPlot(...)` returns. -/
  beginPlotReturned : Bool := true
  /-- `ImPlot::IsXAxisAutoFitRequested()`. -/
  xAxisAutoFitRequested : Bool := false
  /-- `ImPlot::IsYAxisAutoFitRequested()`. -/
  yAxisAutoFitRequested : Bool := false
  /-- `ImPlot::GetPlotLimits()`. -/
  plotLimits : ImPlotLimits := {}
  deriving DecidableEq, Repr, Inhabited

/-- One call of `ImPlot::PlotLine`, with the colour pushed for it. -/
structure PlotLine where
  name : String
  xData : List ℚ
  yData : List ℚ
  lineColor : Option ImVec4
  deriving DecidableEq, Repr, Inhabited

/-- What one `PlotWindow::Render` hands to the plotting library: the limits
given to `ImPlot::SetNextPlotLimits` (x min, x max, y min, y max), and the
lines plotted. -/
structure PlotFrameOutput where
  nextPlotLimits : Option (ℚ × ℚ × ℚ × ℚ) := none
  lines : List PlotLine := []
  deriving DecidableEq, Repr, Inhabited

/-- The part of `PlotWindow::Render` after `_cacheOfDataToAppend.clear()`. -/
def PlotWindow.draw (w : PlotWindow) (input : PlotFrameInput) : PlotWindow × PlotFrameOutput :=
  if w._groupData = [] then (w, {})
  else if input.beginReturned then
    let nextPlotLimits : Option (ℚ × ℚ × ℚ × ℚ) :=
      if w._autoFitEnabled ∧
          (w._previousLimits.X.Min > w._dataBounds.xMin
            ∨ w._previousLimits.X.Max < w._dataBounds.xMax
            ∨ w._previousLimits.Y.Min > w._dataBounds.yMin
            ∨ w._previousLimits.Y.Max < w._dataBounds.yMax) then
        some (w._dataBounds.xMin,
          w._dataBounds.xMax * (3 / 2),
          if w._dataBounds.yMin < 0 then w._dataBounds.yMin * (6 / 5)
          else w._dataBounds.yMin * (4 / 5),
          w._dataBounds.yMax * (6 / 5))
      else none
    if input.beginPlotReturned then
      let w1 : PlotWindow :=
        if input.xAxisAutoFitRequested ∧ input.yAxisAutoFitRequested then
          { w with _autoFitEnabled := !w._autoFitEnabled }
        else w
      ({ w1 with _previousLimits := input.plotLimits },
        { nextPlotLimits := nextPlotLimits
          lines := (w1._groupData.filter (fun it => it.2.xData ≠ [])).map (fun it =>
            { name := it.2.name, xData := it.2.xData, yData := it.2.yData
              lineColor := if it.2.hasCustomLineColor then some it.2.lineColor else none }) })
    else (w, { nextPlotLimits := nextPlotLimits })
  else (w, {})

/-- `PlotWindow::Render`: the panel and what was handed to the plotting
library, or the failure of an assertion of `parseAndFillStyle`. -/
def PlotWindow.Render (ImHashStr : String → ImGuiID) (w : PlotWindow) (input : PlotFrameInput) :
    Asserted (PlotWindow × PlotFrameOutput) :=
  let w1 : PlotWindow :=
    { w with
      _cacheOfDataToAppend := w.dataSinceLastFrame
      dataSinceLastFrame := w._cacheOfDataToAppend }
  match PlotWindow.installGroups ImHashStr w1 w1.addedGroupsSinceLastFrame with
  | Asserted.assertionFailed => Asserted.assertionFailed
  | Asserted.ok w2 =>
    let w3 := w2._cacheOfDataToAppend.foldl PlotWindow.appendSample w2
    Asserted.ok (PlotWindow.draw { w3 with _cacheOfDataToAppend := [] } input)

/-- A character that no `%02x` item can start with or hold: not a hexadecimal
digit, not white space, not a sign, and not the `x` of the prefix `0x`. -/
def plainChar (c : Char) : Bool :=
  (hexDigitValue c).isNone && !isspace c && c ≠ '+' && c ≠ '-' && c ≠ 'x' && c ≠ 'X'

/-- The integer value of a pair of hexadecimal digits. -/
def hexPairValue (hi lo : Char) : Nat :=
  16 * (hexDigitValue hi).getD 0 + (hexDigitValue lo).getD 0

/-- One call on a plot panel: `AddPlotValue` or `Render`. -/
inductive PlotCall where
  | AddPlotValue (groupName : String) (yValue xValue : ℚ) (style : Option String)
  | Render (input : PlotFrameInput)
  deriving DecidableEq, Repr

/-- The panel after a sequence of calls, `isVisible` being the value of
`isVisible()` throughout; the sequence stops at the first failed assertion. -/
def PlotWindow.after (ImHashStr : String → ImGuiID) (isVisible : Bool) :
    PlotWindow → List PlotCall → Asserted PlotWindow
  | w, [] => Asserted.ok w
  | w, PlotCall.AddPlotValue groupName yValue xValue style :: calls =>
    PlotWindow.after ImHashStr isVisible
      (w.AddPlotValue ImHashStr isVisible groupName yValue xValue style) calls
  | w, PlotCall.Render input :: calls =>
    match w.Render ImHashStr input with
    | Asserted.ok result => PlotWindow.after ImHashStr isVisible result.1 calls
    | Asserted.assertionFailed => Asserted.assertionFailed

/-- The `(x, y)` values of the `AddPlotValue` calls made for the group
`groupName`, in call order. -/
def samplesOfGroup (calls : List PlotCall) (groupName : String) : List (ℚ × ℚ) :=
  calls.filterMap (fun call =>
    match call with
    | PlotCall.AddPlotValue g y x _ => if g = groupName then some (x, y) else none
    | PlotCall.Render _ => none)

/-- The calls `AddPlotValue("L1", y, x)` for `(y, x)` = (1, 0), (2, 1), (3, 2), (4, 3). -/
def fourSamplesOnL1 : List PlotCall :=
  [PlotCall.AddPlotValue "L1" 1 0 none, PlotCall.AddPlotValue "L1" 2 1 none,
   PlotCall.AddPlotValue "L1" 3 2 none, PlotCall.AddPlotValue "L1" 4 3 none]

/-- The `(x, y)` values of the `AddPlotValue` calls whose group name has the
id `k`, in call order. -/
def samplesOfId (ImHashStr : String → ImGuiID) (calls : List PlotCall) (k : ImGuiID) :
    List (ℚ × ℚ) :=
  calls.filterMap (fun call =>
    match call with
    | PlotCall.AddPlotValue g y x _ => if ImHashStr g = k then some (x, y) else none
    | PlotCall.Render _ => none)

/-- The x values held for the group id `k`: those in `_groupData`, then those
waiting in `concurrent.dataSinceLastFrame`. -/
def PlotWindow.heldX (w : PlotWindow) (k : ImGuiID) : List ℚ :=
  (w._groupData.get k).xData
    ++ (w.dataSinceLastFrame.filter (fun it => it.group = k)).map (fun it => it.xValue)

/-- The y values held for the group id `k`. -/
def PlotWindow.heldY (w : PlotWindow) (k : ImGuiID) : List ℚ :=
  (w._groupData.get k).yData
    ++ (w.dataSinceLastFrame.filter (fun it => it.group = k)).map (fun it => it.yValue)

/-- Whether a style is empty or a string in which `sscanf` finds the four items. -/
def styleAccepted (style : String) : Bool :=
  decide (style = "") || (sscanfStyle style).isSome

/-- Whether the style of an `AddPlotValue` call is null or accepted. -/
def PlotCall.styleAccepted : PlotCall → Bool
  | PlotCall.AddPlotValue _ _ _ style => CVLog.styleAccepted (style.getD "")
  | PlotCall.Render _ => true

/-- The value of an outcome, when no assertion failed. -/
def Asserted.toOption {α : Type} : Asserted α → Option α
  | Asserted.ok value => some value
  | Asserted.assertionFailed => none

/-- `Window::isVisible`. -/
def Window.isVisible (w : Window) (wm : WindowManager) : Bool :=
  (wm.data w.imGuiData).isVisible

/-- `Window::name`. -/
def Window.name (w : Window) (wm : WindowManager) : String :=
  (wm.data w.imGuiData).name

/-- A registry with the one window `A`, hidden. -/
def hiddenPanelRegistry : WindowManager :=
  (registryAfter polyHash [RegistryOp.AddWindow "A" ⟨⟨0, 0⟩, ⟨1280, 720⟩⟩ 20 0 0]).withVisibility
    (fun _ => false)

/-! ## Value list panels (`ValueListWindow`) -/

/-- The struct `ValueListWindow::ValueToUpdate`. -/
structure ValueToUpdate where
  valueName : String
  value : String
  deriving DecidableEq, Repr, Inhabited

/-- The class `ValueListWindow`; `valuesToUpdate` and `existingGroups` are the
members of `concurrent`, and `_values` is a `std::unordered_map` (iteration
order unspecified; here the order of first insertion). -/
structure ValueListWindow where
  valuesToUpdate : List ValueToUpdate := []
  existingGroups : ImGuiStorage := []
  _cacheOfValuesToUpdate : List ValueToUpdate := []
  _values : List (String × String) := []
  deriving DecidableEq, Repr, Inhabited

/-- `ValueListWindow::Clear`. -/
def ValueListWindow.Clear (w : ValueListWindow) : ValueListWindow :=
  { w with _values := [] }

/-- `ValueListWindow::AddValue`. -/
def ValueListWindow.AddValue (w : ValueListWindow) (name value : String) : ValueListWindow :=
  { w with valuesToUpdate := w.valuesToUpdate ++ [{ valueName := name, value := value }] }

/-- `ValueListWindow::Render`: the panel, and the lines handed to `ImGui::Text`. -/
def ValueListWindow.Render (w : ValueListWindow) : ValueListWindow × List String :=
  let w1 : ValueListWindow :=
    { w with
      _cacheOfValuesToUpdate := w.valuesToUpdate
      valuesToUpdate := w._cacheOfValuesToUpdate }
  let values := w1._cacheOfValuesToUpdate.foldl
    (fun values it => UnorderedMap.assign values it.valueName it.value) w1._values
  ({ w1 with _values := values, _cacheOfValuesToUpdate := [] },
    values.map (fun it => it.1 ++ " = " ++ it.2))

/-! ## The panels of a registry, and the publishers -/

/-- The classes derived from `Window` in `imgui_cvlog_gl_opencv.cpp`. -/
inductive Panel where
  | image (w : ImageWindow)
  | plot (w : PlotWindow)
  | values (w : ValueListWindow)
  deriving DecidableEq, Repr

/-- `dynamic_cast<ImageWindow*>`. -/
def Panel.asImage : Panel → Option ImageWindow
  | Panel.image w => some w
  | _ => none

/-- `dynamic_cast<PlotWindow*>`. -/
def Panel.asPlot : Panel → Option PlotWindow
  | Panel.plot w => some w
  | _ => none

/-- `dynamic_cast<ValueListWindow*>`. -/
def Panel.asValues : Panel → Option ValueListWindow
  | Panel.values w => some w
  | _ => none

/-- The window manager together with the state of the classes derived from
`Window`: `windowManager._windows[i]` is the `Window` part of the object whose
derived part is `panels[i]`. -/
structure PanelRegistry where
  windowManager : WindowManager := {}
  panels : List Panel := []
  deriving DecidableEq, Repr

/-- `FindWindow`: the window (an index into `_windows`) of the entry of that
name, `ok none` being the null pointer. -/
def FindWindow (ImHashStr : String → ImGuiID) (wm : WindowManager) (windowName : String) :
    Asserted (Option Nat) :=
  match wm.ConcurrentFindWindow ImHashStr windowName with
  | Asserted.assertionFailed => Asserted.assertionFailed
  | Asserted.ok (some windowData) => Asserted.ok (wm.data windowData).window
  | Asserted.ok none => Asserted.ok none

/-- The template `FindWindow<WindowType>`: `FindWindow`, then the
`dynamic_cast` given as `cast`. -/
def FindWindowAs {α : Type} (ImHashStr : String → ImGuiID) (r : PanelRegistry)
    (cast : Panel → Option α) (name : String) : Asserted (Option (Nat × α)) :=
  match FindWindow ImHashStr r.windowManager name with
  | Asserted.assertionFailed => Asserted.assertionFailed
  | Asserted.ok none => Asserted.ok none
  | Asserted.ok (some window) =>
    Asserted.ok ((r.panels[window]?.bind cast).map (fun concreteWindow => (window, concreteWindow)))

/-- `FindOrCreateWindow`: the registry and the window returned.
`createWindowFunc` is the window that the function of that name makes; `vp`,
`extraWindowHeight`, `rand1`, `rand2` are what the host hands to `AddWindow`. -/
def FindOrCreateWindow (ImHashStr : String → ImGuiID) (r : PanelRegistry) (name : String)
    (createWindowFunc : Panel) (vp : ImGuiViewport) (extraWindowHeight rand1 rand2 : ℚ) :
    Asserted (PanelRegistry × Nat) :=
  match r.windowManager.ConcurrentFindWindow ImHashStr name with
  | Asserted.assertionFailed => Asserted.assertionFailed
  | Asserted.ok windowData =>
    match windowData.bind (fun p => (r.windowManager.data p).window) with
    | some window => Asserted.ok (r, window)
    | none =>
      let concreteWindow := r.windowManager._windows.length
      Asserted.ok
        ({ windowManager :=
             (r.windowManager.AddWindow ImHashStr name vp extraWindowHeight rand1 rand2).1
           panels := r.panels ++ [createWindowFunc] },
          concreteWindow)

/-- The template `FindOrCreateWindow<WindowType>`: `FindOrCreateWindow` with a
function that makes a new `WindowType`, then the `dynamic_cast` given as `cast`
and the assertion that it is not null. -/
def FindOrCreateWindowAs {α : Type} (ImHashStr : String → ImGuiID) (r : PanelRegistry)
    (newWindow : Panel) (cast : Panel → Option α) (windowName : String)
    (vp : ImGuiViewport) (extraWindowHeight rand1 rand2 : ℚ) :
    Asserted (PanelRegistry × Nat × α) :=
  match FindOrCreateWindow ImHashStr r windowName newWindow vp extraWindowHeight rand1 rand2 with
  | Asserted.assertionFailed => Asserted.assertionFailed
  | Asserted.ok (r1, window) =>
    match r1.panels[window]?.bind cast with
    | some concreteWindow => Asserted.ok (r1, window, concreteWindow)
    | none => Asserted.assertionFailed

/-- The value of `isVisible()` of the window `window`. -/
def PanelRegistry.isVisible (r : PanelRegistry) (window : Nat) : Bool :=
  (r.windowManager._windows.getD window default).isVisible r.windowManager

/-- The lambdas that the publishers hand to `RunOnceInImGuiThread` (captures by
copy). -/
inductive PublisherTask where
  | updateImage (windowNameCopy : String) (image : Mat)
  | addPlotValue (windowNameCopy groupNameCopy : String) (xValue yValue : ℚ) (styleCopy : String)
  | addValue (windowNameCopy nameCopy valueCopy : String)
  deriving DecidableEq, Repr

/-- The body of a publisher's lambda, run in the ImGui thread. -/
def PublisherTask.run (ImHashStr : String → ImGuiID) (r : PanelRegistry)
    (vp : ImGuiViewport) (extraWindowHeight rand1 rand2 : ℚ) :
    PublisherTask → Asserted PanelRegistry
  | PublisherTask.updateImage windowNameCopy image =>
    match FindOrCreateWindowAs ImHashStr r (Panel.image {}) Panel.asImage windowNameCopy
        vp extraWindowHeight rand1 rand2 with
    | Asserted.assertionFailed => Asserted.assertionFailed
    | Asserted.ok (r1, window, imWindow) =>
      Asserted.ok
        { r1 with panels :=
            r1.panels.set window (Panel.image (imWindow.UpdateImage (r1.isVisible window) image)) }
  | PublisherTask.addPlotValue windowNameCopy groupNameCopy xValue yValue styleCopy =>
    match FindOrCreateWindowAs ImHashStr r (Panel.plot {}) Panel.asPlot windowNameCopy
        vp extraWindowHeight rand1 rand2 with
    | Asserted.assertionFailed => Asserted.assertionFailed
    | Asserted.ok (r1, window, plotWindow) =>
      let updated := plotWindow.AddPlotValue ImHashStr (r1.isVisible window) groupNameCopy
        yValue xValue (if styleCopy = "" then none else some styleCopy)
      Asserted.ok { r1 with panels := r1.panels.set window (Panel.plot updated) }
  | PublisherTask.addValue windowNameCopy nameCopy valueCopy =>
    match FindOrCreateWindowAs ImHashStr r (Panel.values {}) Panel.asValues windowNameCopy
        vp extraWindowHeight rand1 rand2 with
    | Asserted.assertionFailed => Asserted.assertionFailed
    | Asserted.ok (r1, window, valuesWindow) =>
      Asserted.ok
        { r1 with panels :=
            r1.panels.set window (Panel.values (valuesWindow.AddValue nameCopy valueCopy)) }

/-- What a publisher did: it updated the panel in place, or it handed a lambda
to `RunOnceInImGuiThread` and changed nothing else. -/
inductive Published where
  | updated (r : PanelRegistry)
  | enqueued (task : PublisherTask)
  deriving DecidableEq, Repr

/-- The publisher `UpdateImage`. -/
def UpdateImage (ImHashStr : String → ImGuiID) (r : PanelRegistry) (windowName : String)
    (image : Mat) : Asserted Published :=
  match FindWindowAs ImHashStr r Panel.asImage windowName with
  | Asserted.assertionFailed => Asserted.assertionFailed
  | Asserted.ok (some (window, imWindow)) =>
    Asserted.ok (Published.updated
      { r with panels :=
          r.panels.set window (Panel.image (imWindow.UpdateImage (r.isVisible window) image)) })
  | Asserted.ok none => Asserted.ok (Published.enqueued (PublisherTask.updateImage windowName image))

/-- The publisher `AddPlotValue`; `style = none` is a null pointer. -/
def AddPlotValue (ImHashStr : String → ImGuiID) (r : PanelRegistry)
    (windowName groupName : String) (yValue xValue : ℚ) (style : Option String) :
    Asserted Published :=
  match FindWindowAs ImHashStr r Panel.asPlot windowName with
  | Asserted.assertionFailed => Asserted.assertionFailed
  | Asserted.ok (some (window, plotWindow)) =>
    let updated := plotWindow.AddPlotValue ImHashStr (r.isVisible window) groupName
      yValue xValue style
    Asserted.ok (Published.updated { r with panels := r.panels.set window (Panel.plot updated) })
  | Asserted.ok none =>
    Asserted.ok (Published.enqueued
      (PublisherTask.addPlotValue windowName groupName xValue yValue (style.getD "")))

/-- The publisher `AddValue`. -/
def AddValue (ImHashStr : String → ImGuiID) (r : PanelRegistry) (windowName name value : String) :
    Asserted Published :=
  match FindWindowAs ImHashStr r Panel.asValues windowName with
  | Asserted.assertionFailed => Asserted.assertionFailed
  | Asserted.ok (some (window, valuesWindow)) =>
    Asserted.ok (Published.updated
      { r with panels := r.panels.set window (Panel.values (valuesWindow.AddValue name value)) })
  | Asserted.ok none =>
    Asserted.ok (Published.enqueued (PublisherTask.addValue windowName name value))

/-- A registry that holds the metadata of `A`, with category and preferred
size set, and no window. -/
def metadataOfA : PanelRegistry :=
  { windowManager := registryAfter polyHash
      [RegistryOp.SetWindowCategory "A" "Images",
       RegistryOp.SetWindowPreferredSize "A" ⟨640, 480⟩] }

/-- A bitmap of 4 rows by 8 columns at the address 7. -/
def bitmapAt7 : Mat := { data := 7, rows := 4, cols := 8 }

/-- A viewport of 1280 by 720 at the origin. -/
def viewport1280x720 : ImGuiViewport := ⟨⟨0, 0⟩, ⟨1280, 720⟩⟩

/-- A registry that holds the metadata of `Aa` and no window. -/
def metadataOfAa : PanelRegistry :=
  { windowManager := registryAfter polyHash [RegistryOp.FindOrCreateDataForWindow "Aa"] }

/-- A value list panel with the map `values`, the pending list `pending` and an
empty cache, after the calls `AddValue(name, value)` for the pairs of `posts`. -/
def ValueListWindow.afterPosts (values : List (String × String)) (existingGroups : ImGuiStorage)
    (pending : List ValueToUpdate) (posts : List (String × String)) : ValueListWindow :=
  posts.foldl (fun w post => w.AddValue post.1 post.2)
    { valuesToUpdate := pending, existingGroups := existingGroups, _values := values }

/-- The viewport at the origin, 1280 wide and 720 high. -/
def viewportAtOrigin : ImGuiViewport := ⟨⟨0, 0⟩, ⟨1280, 720⟩⟩

/-- One call on a plot panel: `AddPlotValue` (with the value of `isVisible()` at
the call), `Render`, or `Clear`. -/
inductive PlotOp where
  | AddPlotValue (isVisible : Bool) (groupName : String) (yValue xValue : ℚ)
      (style : Option String)
  | Render (input : PlotFrameInput)
  | Clear
  deriving DecidableEq, Repr

/-- The panel after a sequence of calls; the sequence stops at the first failed
assertion. -/
def PlotWindow.afterOps (ImHashStr : String → ImGuiID) :
    PlotWindow → List PlotOp → Asserted PlotWindow
  | w, [] => Asserted.ok w
  | w, PlotOp.AddPlotValue isVisible groupName yValue xValue style :: ops =>
    PlotWindow.afterOps ImHashStr
      (w.AddPlotValue ImHashStr isVisible groupName yValue xValue style) ops
  | w, PlotOp.Render input :: ops =>
    match w.Render ImHashStr input with
    | Asserted.ok result => PlotWindow.afterOps ImHashStr result.1 ops
    | Asserted.assertionFailed => Asserted.assertionFailed
  | w, PlotOp.Clear :: ops => PlotWindow.afterOps ImHashStr w.Clear ops

/-- The limits that `PlotWindow::Render` hands to `ImPlot::SetNextPlotLimits`
for the data bounds `b` (x min, x max, y min, y max). -/
def paddedLimits (b : DataBounds) : ℚ × ℚ × ℚ × ℚ :=
  (b.xMin, b.xMax * (3 / 2), if b.yMin < 0 then b.yMin * (6 / 5) else b.yMin * (4 / 5),
    b.yMax * (6 / 5))

/-- Every sample held by a group of the panel is within the global data bounds,
and these contain x in [0, 1] and y in [0, 1]. -/
def PlotWindow.BoundsInv (w : PlotWindow) : Prop :=
  w._dataBounds.xMin ≤ 0 ∧ 1 ≤ w._dataBounds.xMax ∧
  w._dataBounds.yMin ≤ 0 ∧ 1 ≤ w._dataBounds.yMax ∧
  ∀ p ∈ w._groupData,
    (∀ x ∈ p.2.xData, w._dataBounds.xMin ≤ x ∧ x ≤ w._dataBounds.xMax) ∧
    (∀ y ∈ p.2.yData, w._dataBounds.yMin ≤ y ∧ y ≤ w._dataBounds.yMax)

/-- The calls `AddPlotValue("L1", 5, 3)` and `AddPlotValue("L1", -2, 4)` on a
visible panel. -/
def twoSamplesOnL1 : List PlotOp :=
  [PlotOp.AddPlotValue true "L1" 5 3 none, PlotOp.AddPlotValue true "L1" (-2) 4 none]

/-- The panel after `twoSamplesOnL1` on a new panel. -/
def twoSamplesPending : PlotWindow :=
  ((PlotWindow.afterOps polyHash {} twoSamplesOnL1).toOption).getD {}

/-- What `Render` returns on `twoSamplesPending`. -/
def twoSamplesFlushed : PlotWindow × PlotFrameOutput :=
  ((twoSamplesPending.Render polyHash {}).toOption).getD default

/-- The calls `AddPlotValue("L1", 1, 0, "#ff000000")`, `Render`, `Clear` on a
visible panel. -/
def styledSampleFlushedAndCleared : List PlotOp :=
  [PlotOp.AddPlotValue true "L1" 1 0 (some "#ff000000"), PlotOp.Render {}, PlotOp.Clear]

/-- The body of the lambda of `SetWindowPreRenderCallback` for a non-empty
callback, on the registry. -/
def setWindowPreRenderCallbackBody (ImHashStr : String → ImGuiID) (windowNameCopy : String)
    (wm : WindowManager) (hook : String × Closure) : WindowManager :=
  (wm.FindOrCreateDataForWindow ImHashStr windowNameCopy).1.modifyData
    (wm.FindOrCreateDataForWindow ImHashStr windowNameCopy).2
    (fun d => { d with preRenderCallbacks := StdMap.assign d.preRenderCallbacks hook.1 hook.2 })

/-- The context after the calls `SetWindowPreRenderCallback(windowName, name,
callback)` for the pairs of `hooks`, made on a context with the registry `wm`
and nothing queued. -/
def hooksQueued (wm : WindowManager) (windowName : String) (hooks : List (String × Closure)) :
    Context :=
  hooks.foldl (fun ctx hook => SetWindowPreRenderCallback ctx windowName hook.1 (some hook.2))
    { windowManager := wm }

/-- The registry with the panel "A" added in a 1280 by 720 viewport. -/
def registryWithPanelA : WindowManager :=
  (({} : WindowManager).AddWindow polyHash "A" ⟨⟨0, 0⟩, ⟨1280, 720⟩⟩ 20 0 0).1

/-- The hooks "b" and then "a", in insertion order. -/
def hooksBThenA : List (String × Closure) :=
  [("b", Closure.skip), ("a", Closure.seq Closure.skip Closure.skip)]

/-- Whether tiling arranges the window: its entry is visible and not docked. -/
def WindowManager.isArranged (wm : WindowManager) (w : Window) : Bool :=
  (wm.data w.imGuiData).isVisible && !(wm.data w.imGuiData).isDocked

/-- The rectangles `[pos.x, pos.x + size.x) x [pos.y, pos.y + size.y)` of two
layout commands are separated by a vertical or a horizontal line. -/
def LayoutUpdate.Separated (a b : LayoutUpdate) : Prop :=
  a.pos.x + a.size.x ≤ b.pos.x ∨ b.pos.x + b.size.x ≤ a.pos.x ∨
  a.pos.y + a.size.y ≤ b.pos.y ∨ b.pos.y + b.size.y ≤ a.pos.y

/-- The point `(x, y)` is in the rectangle
`[pos.x, pos.x + size.x) x [pos.y, pos.y + size.y)` of the layout command. -/
def LayoutUpdate.Contains (a : LayoutUpdate) (x y : ℚ) : Prop :=
  a.pos.x ≤ x ∧ x < a.pos.x + a.size.x ∧ a.pos.y ≤ y ∧ y < a.pos.y + a.size.y

/-- The rectangle of the layout command `c` is right of the window list and
below the top of the viewport, and either above the current row of the cursor
or in that row, left of the cursor and no higher than the row. -/
def TileCursor.Covers (vp : ImGuiViewport) (cur : TileCursor) (c : LayoutUpdate) : Prop :=
  WindowManager.windowListWidth + vp.Pos.x ≤ c.pos.x ∧ vp.Pos.y ≤ c.pos.y ∧
  (c.pos.y + c.size.y ≤ cur.currentY ∨
    (c.pos.y = cur.currentY ∧ c.pos.x + c.size.x ≤ cur.currentX ∧
      c.size.y ≤ cur.maxHeightInCurrentRow))

/-- The registry `threePanels` with the panel `B` hidden. -/
def threePanelsHiddenB : WindowManager :=
  threePanels.modifyData 1 (fun d => { d with isVisible := false })

/-- The registry `threePanels` after its tiling in a 1280 by 720 viewport. -/
def threePanelsTiled : WindowManager :=
  (threePanels.TileAndScaleVisibleWindows 3 viewportAtOrigin 20).getD {}

/-! ## The reference tiling, from the words of the specification -/

/-- The sort key of the reference tiling: preferred content height, then
preferred content width, then name. -/
def referenceKey (wm : WindowManager) (w : Window) : ℚ ×ₗ ℚ ×ₗ String :=
  toLex ((wm.data w.imGuiData).preferredContentSize.y,
    toLex ((wm.data w.imGuiData).preferredContentSize.x, (wm.data w.imGuiData).name))

/-- The sizes of the reference tiling at `k`: `preferredWindowSize * 0.95^k`. -/
def referenceSizes (wm : WindowManager) (extraWindowHeight : ℚ) (k : Nat) (ws : List Window) :
    List (Window × ImVec2) :=
  ws.map (fun w =>
    (w, { x := ((wm.data w.imGuiData).preferredWindowSize extraWindowHeight).x * (95 / 100) ^ k
          y := ((wm.data w.imGuiData).preferredWindowSize extraWindowHeight).y * (95 / 100) ^ k }))

/-- The panel after `fourSamplesOnL1` and one flush. -/
def fourSamplesFlushed : PlotWindow :=
  ((PlotWindow.after polyHash true {} (fourSamplesOnL1 ++ [PlotCall.Render {}])).toOption).getD {}

/-! # Theorems -/

/-! ## Projections of the registry operations -/

theorem map_modify_of_preserved {α β : Type} (g : α → β) (f : α → α) (h : ∀ a, g (f a) = g a) :
    ∀ (l : List α) (p : Nat), (l.modify f p).map g = l.map g
  | [], _ => by simp
  | a :: l, 0 => by simp [h]
  | a :: l, p + 1 => by simp [map_modify_of_preserved g f h l p]

@[simp] theorem findOrCreateCategory_windowsData (wm : WindowManager) (c : String) :
    (wm.findOrCreateCategory c).1._windowsData = wm._windowsData := by
  unfold WindowManager.findOrCreateCategory
  split <;> rfl

@[simp] theorem findOrCreateCategory_windows (wm : WindowManager) (c : String) :
    (wm.findOrCreateCategory c).1._windows = wm._windows := by
  unfold WindowManager.findOrCreateCategory
  split <;> rfl

@[simp] theorem findOrCreateCategory_windowsByID (wm : WindowManager) (c : String) :
    (wm.findOrCreateCategory c).1.windowsByID = wm.windowsByID := by
  unfold WindowManager.findOrCreateCategory
  split <;> rfl

@[simp] theorem findOrCreateCategory_menuBarCallbacks (wm : WindowManager) (c : String) :
    (wm.findOrCreateCategory c).1._menuBarCallbacks = wm._menuBarCallbacks := by
  unfold WindowManager.findOrCreateCategory
  split <;> rfl

@[simp] theorem createDataForWindow_windowsData (H : String → ImGuiID) (wm : WindowManager)
    (n c : String) :
    (wm.createDataForWindow H n c).1._windowsData
      = wm._windowsData ++ [{ WindowData.new H n with category := c }] := by
  simp [WindowManager.createDataForWindow]

@[simp] theorem createDataForWindow_snd (H : String → ImGuiID) (wm : WindowManager)
    (n c : String) : (wm.createDataForWindow H n c).2 = wm._windowsData.length := rfl

@[simp] theorem createDataForWindow_windows (H : String → ImGuiID) (wm : WindowManager)
    (n c : String) : (wm.createDataForWindow H n c).1._windows = wm._windows := by
  simp [WindowManager.createDataForWindow]

@[simp] theorem modifyData_windowsData (wm : WindowManager) (p : Nat) (f : WindowData → WindowData) :
    (wm.modifyData p f)._windowsData = wm._windowsData.modify f p := rfl

@[simp] theorem modifyData_windows (wm : WindowManager) (p : Nat) (f : WindowData → WindowData) :
    (wm.modifyData p f)._windows = wm._windows := rfl

@[simp] theorem modifyData_windowsPerCategory (wm : WindowManager) (p : Nat)
    (f : WindowData → WindowData) :
    (wm.modifyData p f)._windowsPerCategory = wm._windowsPerCategory := rfl

@[simp] theorem modifyData_windowsByID (wm : WindowManager) (p : Nat) (f : WindowData → WindowData) :
    (wm.modifyData p f).windowsByID = wm.windowsByID := rfl

theorem keys_modifyData (wm : WindowManager) (p : Nat) (f : WindowData → WindowData)
    (h : ∀ d, (f d).name = d.name ∧ (f d).id = d.id) : (wm.modifyData p f).keys = wm.keys := by
  unfold WindowManager.keys
  rw [modifyData_windowsData]
  exact map_modify_of_preserved _ f (fun a => by simp [h a]) _ _

theorem findDataForWindow_eq_none (wm : WindowManager) (k : ImGuiID) :
    wm.findDataForWindow k = none ↔ ∀ p ∈ wm.keys, p.2 ≠ k := by
  unfold WindowManager.findDataForWindow WindowManager.keys
  rw [List.findIdx?_eq_none_iff]
  simp

/-- `FindOrCreateDataForWindow` leaves the entries alone or appends one whose id is new. -/
theorem keys_FindOrCreateDataForWindow (H : String → ImGuiID) (wm : WindowManager) (n : String) :
    (wm.FindOrCreateDataForWindow H n).1.keys = wm.keys ∨
      ((wm.FindOrCreateDataForWindow H n).1.keys = wm.keys ++ [(n, H n)] ∧
        ∀ p ∈ wm.keys, p.2 ≠ H n) := by
  unfold WindowManager.FindOrCreateDataForWindow
  cases hf : wm.findDataForWindow (H n) with
  | some d => exact Or.inl rfl
  | none =>
    right
    refine ⟨?_, (findDataForWindow_eq_none wm (H n)).1 hf⟩
    simp [WindowManager.keys, WindowData.new]

theorem keys_SetWindowCategory (H : String → ImGuiID) (wm : WindowManager) (n c : String) :
    (wm.SetWindowCategory H n c).1.keys = (wm.FindOrCreateDataForWindow H n).1.keys := by
  unfold WindowManager.SetWindowCategory
  simp only
  split
  · rfl
  · simp only [WindowManager.keys, findOrCreateCategory_windowsData, modifyData_windowsData]
    apply map_modify_of_preserved
    intro a
    rfl

theorem keys_SetWindowPreferredSize (H : String → ImGuiID) (wm : WindowManager) (n : String)
    (s : ImVec2) :
    (wm.SetWindowPreferredSize H n s).1.keys = (wm.FindOrCreateDataForWindow H n).1.keys := by
  unfold WindowManager.SetWindowPreferredSize
  apply keys_modifyData
  intro d
  exact ⟨rfl, rfl⟩

theorem keys_SetWindowHelpString (H : String → ImGuiID) (wm : WindowManager) (n h : String) :
    (wm.SetWindowHelpString H n h).1.keys = (wm.FindOrCreateDataForWindow H n).1.keys := by
  unfold WindowManager.SetWindowHelpString
  apply keys_modifyData
  intro d
  exact ⟨rfl, rfl⟩

theorem keys_AddWindow (H : String → ImGuiID) (wm : WindowManager) (n : String)
    (vp : ImGuiViewport) (e r1 r2 : ℚ) :
    (wm.AddWindow H n vp e r1 r2).1.keys = wm.keys ∨
      ((wm.AddWindow H n vp e r1 r2).1.keys = wm.keys ++ [(n, H n)] ∧
        ∀ p ∈ wm.keys, p.2 ≠ H n) := by
  have h := keys_FindOrCreateDataForWindow H { wm with _windows := wm._windows ++ [{ imGuiData := 0 }] } n
  have e1 : (wm.AddWindow H n vp e r1 r2).1.keys
      = ((WindowManager.FindOrCreateDataForWindow H
          { wm with _windows := wm._windows ++ [{ imGuiData := 0 }] } n).1).keys := by
    unfold WindowManager.AddWindow
    simp only
    rw [keys_modifyData]
    · rfl
    · intro d
      exact ⟨rfl, rfl⟩
  rw [e1]
  exact h

theorem IdInv_of_keys (H : String → ImGuiID) (wm wm1 : WindowManager) (n : String)
    (hinv : wm.IdInv H)
    (h : wm1.keys = wm.keys ∨ (wm1.keys = wm.keys ++ [(n, H n)] ∧ ∀ p ∈ wm.keys, p.2 ≠ H n)) :
    wm1.IdInv H := by
  rcases h with h | ⟨h, hn⟩
  · unfold WindowManager.IdInv; rw [h]; exact hinv
  · unfold WindowManager.IdInv; rw [h]
    refine ⟨?_, ?_⟩
    · intro p hp
      rcases List.mem_append.1 hp with hp | hp
      · exact hinv.1 p hp
      · simp at hp; subst hp; rfl
    · rw [List.map_append, List.nodup_append]
      refine ⟨hinv.2, by simp, ?_⟩
      intro a ha hb
      simp at hb
      obtain ⟨p, hp, hpa⟩ := List.mem_map.1 ha
      exact hn p hp (hpa.trans hb)

theorem IdInv_apply (H : String → ImGuiID) (wm : WindowManager) (op : RegistryOp)
    (hinv : wm.IdInv H) : (op.apply H wm).IdInv H := by
  cases op with
  | FindOrCreateDataForWindow n =>
    exact IdInv_of_keys H wm _ n hinv (keys_FindOrCreateDataForWindow H wm n)
  | AddWindow n vp e r1 r2 =>
    exact IdInv_of_keys H wm _ n hinv (keys_AddWindow H wm n vp e r1 r2)
  | SetWindowCategory n c =>
    refine IdInv_of_keys H wm _ n hinv ?_
    have e : RegistryOp.apply H wm (RegistryOp.SetWindowCategory n c) = (wm.SetWindowCategory H n c).1 := rfl
    rw [e, keys_SetWindowCategory]; exact keys_FindOrCreateDataForWindow H wm n
  | SetWindowPreferredSize n s =>
    refine IdInv_of_keys H wm _ n hinv ?_
    have e : RegistryOp.apply H wm (RegistryOp.SetWindowPreferredSize n s) = (wm.SetWindowPreferredSize H n s).1 := rfl
    rw [e, keys_SetWindowPreferredSize]; exact keys_FindOrCreateDataForWindow H wm n
  | SetWindowHelpString n h =>
    refine IdInv_of_keys H wm _ n hinv ?_
    have e : RegistryOp.apply H wm (RegistryOp.SetWindowHelpString n h) = (wm.SetWindowHelpString H n h).1 := rfl
    rw [e, keys_SetWindowHelpString]; exact keys_FindOrCreateDataForWindow H wm n
  | ReadOpen n =>
    exact IdInv_of_keys H wm _ n hinv (keys_FindOrCreateDataForWindow H wm n)

theorem foldl_invariant {σ α : Type} (P : σ → Prop) (f : σ → α → σ)
    (hstep : ∀ s a, P s → P (f s a)) : ∀ (l : List α) (s : σ), P s → P (l.foldl f s)
  | [], _, h => h
  | a :: l, s, h => foldl_invariant P f hstep l (f s a) (hstep s a h)

theorem IdInv_registryAfter (H : String → ImGuiID) (ops : List RegistryOp) :
    (registryAfter H ops).IdInv H :=
  foldl_invariant (WindowManager.IdInv H) _ (fun s a h => IdInv_apply H s a h) ops {}
    ⟨by simp [WindowManager.keys], by simp [WindowManager.keys]⟩

theorem names_nodup_of_IdInv (H : String → ImGuiID) (wm : WindowManager) (h : wm.IdInv H) :
    (wm._windowsData.map (fun d => d.name)).Nodup := by
  have h2 := h.2
  have e : wm.keys.map Prod.snd = (wm.keys.map Prod.fst).map H := by
    rw [List.map_map]
    apply List.map_congr_left
    intro p hp
    exact h.1 p hp
  rw [e] at h2
  have := List.Nodup.of_map _ h2
  simpa [WindowManager.keys, Function.comp_def] using this

/-- C1. Registry uniqueness: in every registry state reached from the empty
registry by `FindOrCreateDataForWindow`, `AddWindow`, `SetWindowCategory`,
`SetWindowPreferredSize`, `SetWindowHelpString` and settings `ReadOpen` calls, no
two entries have the same name, no two have the same id, and every entry's id is
`ImHashStr` of its name. -/
theorem registry_names_and_ids_unique (ImHashStr : String → ImGuiID) (ops : List RegistryOp) :
    ((registryAfter ImHashStr ops)._windowsData.map (fun d => d.name)).Nodup ∧
    ((registryAfter ImHashStr ops)._windowsData.map (fun d => d.id)).Nodup ∧
    ∀ d ∈ (registryAfter ImHashStr ops)._windowsData, d.id = ImHashStr d.name := by
  have h := IdInv_registryAfter ImHashStr ops
  refine ⟨names_nodup_of_IdInv ImHashStr _ h, ?_, ?_⟩
  · simpa [WindowManager.keys, Function.comp_def] using h.2
  · intro d hd
    exact h.1 (d.name, d.id) (List.mem_map.2 ⟨d, hd, rfl⟩)

theorem cat_index_unique {cats : List WindowCategory}
    (h : (cats.map (fun c => c.name)).Nodup) {c c1 : Nat} {cat cat1 : WindowCategory}
    (hc : cats[c]? = some cat) (hc1 : cats[c1]? = some cat1) (hn : cat.name = cat1.name) :
    c = c1 := by
  have h1 : (cats.map (fun c => c.name))[c]? = some cat.name := by simp [hc]
  have h2 : (cats.map (fun c => c.name))[c1]? = some cat.name := by simp [hc1, hn]
  obtain ⟨hl, e1⟩ := List.getElem?_eq_some_iff.1 h1
  obtain ⟨hl1, e2⟩ := List.getElem?_eq_some_iff.1 h2
  exact (List.Nodup.getElem_inj_iff h).1 (e1.trans e2.symm)

theorem CatOK_append_data {data : List WindowData} {cats : List WindowCategory}
    (h : CatOK data cats none) (d : WindowData) :
    CatOK (data ++ [d]) cats (some data.length) := by
  obtain ⟨h1, h2, h3⟩ := h
  refine ⟨h1, ?_, ?_⟩
  · intro i d1 hi hne
    have hlt : i < data.length := by
      have := (List.getElem?_eq_some_iff.1 hi).1
      simp at this
      have hne1 : i ≠ data.length := fun e => hne (by rw [e])
      omega
    rw [List.getElem?_append_left hlt] at hi
    exact h2 i d1 hi (by simp)
  · intro c cat hc i
    rw [h3 c cat hc i]
    by_cases hlt : i < data.length
    · rw [List.getElem?_append_left hlt]
      have : some i ≠ some data.length := by simp; omega
      simp [this]
    · have hn : data[i]? = none := List.getElem?_eq_none (by omega)
      by_cases he : i = data.length
      · simp [hn, he]
      · have hn1 : (data ++ [d])[i]? = none := List.getElem?_eq_none (by simp; omega)
        simp [hn, hn1]

theorem CatOK_modify_data {data : List WindowData} {cats : List WindowCategory} {x : Option Nat}
    (h : CatOK data cats x) (f : WindowData → WindowData) (p : Nat)
    (hf : (∀ d, (f d).category = d.category) ∨ some p = x) :
    CatOK (data.modify f p) cats x := by
  obtain ⟨h1, h2, h3⟩ := h
  have key : ∀ i, some i ≠ x → ∀ nm : String,
      ((∃ d, (data.modify f p)[i]? = some d ∧ d.category = nm) ↔
        ∃ d, data[i]? = some d ∧ d.category = nm) := by
    intro i hi nm
    rw [List.getElem?_modify]
    by_cases hp : p = i
    · subst hp
      rcases hf with hf | hf
      · cases hd : data[p]? with
        | none => simp
        | some d => simp [hf]
      · exact absurd hf hi
    · cases hd : data[i]? with
      | none => simp
      | some d => simp [hp]
  refine ⟨h1, ?_, ?_⟩
  · intro i d hi hne
    have := (key i hne d.category).1 ⟨d, hi, rfl⟩
    obtain ⟨d0, hd0, hcat⟩ := this
    obtain ⟨c, cat, hc, hnm⟩ := h2 i d0 hd0 hne
    exact ⟨c, cat, hc, hnm.trans hcat⟩
  · intro c cat hc i
    rw [h3 c cat hc i]
    by_cases hne : some i ≠ x
    · simp only [hne, ne_eq, not_false_eq_true, true_and, key i hne cat.name]
    · simp [hne]

theorem findOrCreateCategory_CatOK (wm : WindowManager) (nm : String) (x : Option Nat)
    (h : CatOK wm._windowsData wm._windowsPerCategory x) :
    CatOK wm._windowsData (wm.findOrCreateCategory nm).1._windowsPerCategory x ∧
      ∃ cat, (wm.findOrCreateCategory nm).1._windowsPerCategory[(wm.findOrCreateCategory nm).2]?
        = some cat ∧ cat.name = nm := by
  unfold WindowManager.findOrCreateCategory
  cases hf : wm._windowsPerCategory.findIdx? (fun cat => cat.name == nm) with
  | some c =>
    refine ⟨h, ?_⟩
    obtain ⟨hlt, hp, -⟩ := List.findIdx?_eq_some_iff_getElem.1 hf
    refine ⟨wm._windowsPerCategory[c], ?_, by simpa using hp⟩
    simp [hlt]
  | none =>
    have hnot : ∀ cat ∈ wm._windowsPerCategory, cat.name ≠ nm := by
      intro cat hcat
      have := List.findIdx?_eq_none_iff.1 hf cat hcat
      simpa using this
    obtain ⟨h1, h2, h3⟩ := h
    refine ⟨⟨?_, ?_, ?_⟩, ⟨{ name := nm, windows := [] }, by simp, rfl⟩⟩
    · simp only [List.map_append, List.map_cons, List.map_nil]
      rw [List.nodup_append]
      refine ⟨h1, by simp, ?_⟩
      intro a ha hb
      simp at hb
      obtain ⟨cat, hcat, rfl⟩ := List.mem_map.1 ha
      exact hnot cat hcat hb
    · intro i d hi hne
      obtain ⟨c, cat, hc, hnm⟩ := h2 i d hi hne
      refine ⟨c, cat, ?_, hnm⟩
      have hlt := (List.getElem?_eq_some_iff.1 hc).1
      simp only
      rw [List.getElem?_append_left hlt]
      exact hc
    · intro c cat hc i
      simp only at hc
      by_cases hlt : c < wm._windowsPerCategory.length
      · rw [List.getElem?_append_left hlt] at hc
        exact h3 c cat hc i
      · have hlen := (List.getElem?_eq_some_iff.1 hc).1
        simp at hlen
        have hc0 : c = wm._windowsPerCategory.length := by omega
        subst hc0
        simp at hc
        subst hc
        have : ¬ (some i ≠ x ∧ ∃ d, wm._windowsData[i]? = some d ∧ d.category = nm) := by
          rintro ⟨hne, d, hd, hcat⟩
          obtain ⟨c, cat, hc, hnm⟩ := h2 i d hd hne
          exact hnot cat (List.getElem?_mem hc) (hnm.trans hcat)
        simp [this]

theorem CatOK_push {data : List WindowData} {cats : List WindowCategory} {i0 c : Nat}
    {d0 : WindowData} {cat0 : WindowCategory}
    (h : CatOK data cats (some i0)) (hd : data[i0]? = some d0) (hc : cats[c]? = some cat0)
    (hn : cat0.name = d0.category) :
    CatOK data (cats.modify (fun k => { k with windows := k.windows ++ [i0] }) c) none := by
  obtain ⟨h1, h2, h3⟩ := h
  have hnames : (cats.modify (fun k => { k with windows := k.windows ++ [i0] }) c).map
      (fun k => k.name) = cats.map (fun k => k.name) := by
    apply map_modify_of_preserved
    intro a
    rfl
  refine ⟨by rw [hnames]; exact h1, ?_, ?_⟩
  · intro i d hi _
    have : ∃ (c1 : Nat) (cat : WindowCategory), cats[c1]? = some cat ∧ cat.name = d.category := by
      by_cases he : i = i0
      · subst he
        rw [hd] at hi
        cases hi
        exact ⟨c, cat0, hc, hn⟩
      · exact h2 i d hi (by simpa using he)
    obtain ⟨c1, cat, hc1, hnm⟩ := this
    by_cases hcc : c = c1
    · exact ⟨c1, { cat with windows := cat.windows ++ [i0] },
        by simp [List.getElem?_modify, hc1, hcc], hnm⟩
    · exact ⟨c1, cat, by simp [List.getElem?_modify, hc1, hcc], hnm⟩
  · intro c1 cat hc1 i
    rw [List.getElem?_modify] at hc1
    cases hcat : cats[c1]? with
    | none => simp [hcat] at hc1
    | some cat1 =>
      rw [hcat] at hc1
      simp at hc1
      have h3' := h3 c1 cat1 hcat i
      by_cases hcc : c = c1
      · subst hcc
        rw [hc] at hcat
        cases hcat
        simp at hc1
        subst hc1
        simp only [List.count_append, h3']
        by_cases he : i = i0
        · subst he
          simp [hd, hn]
        · have : ¬ i0 = i := fun e => he e.symm
          simp [he, this]
      · simp [hcc] at hc1
        subst hc1
        rw [h3']
        by_cases he : i = i0
        · subst he
          have : ¬ (d0.category = cat1.name) := by
            intro e
            exact hcc (cat_index_unique h1 hc hcat (hn.trans e))
          simp [hd, this]
        · simp [he]

theorem CatOK_erase {data : List WindowData} {cats : List WindowCategory} {i0 c : Nat}
    {d0 : WindowData} {cat0 : WindowCategory}
    (h : CatOK data cats none) (hd : data[i0]? = some d0) (hc : cats[c]? = some cat0)
    (hn : cat0.name = d0.category) :
    CatOK data (cats.modify (fun k => { k with windows := k.windows.erase i0 }) c) (some i0) := by
  obtain ⟨h1, h2, h3⟩ := h
  have hnames : (cats.modify (fun k => { k with windows := k.windows.erase i0 }) c).map
      (fun k => k.name) = cats.map (fun k => k.name) := by
    apply map_modify_of_preserved
    intro a
    rfl
  refine ⟨by rw [hnames]; exact h1, ?_, ?_⟩
  · intro i d hi _
    obtain ⟨c1, cat, hc1, hnm⟩ := h2 i d hi (by simp)
    by_cases hcc : c = c1
    · exact ⟨c1, { cat with windows := cat.windows.erase i0 },
        by simp [List.getElem?_modify, hc1, hcc], hnm⟩
    · exact ⟨c1, cat, by simp [List.getElem?_modify, hc1, hcc], hnm⟩
  · intro c1 cat hc1 i
    rw [List.getElem?_modify] at hc1
    cases hcat : cats[c1]? with
    | none => simp [hcat] at hc1
    | some cat1 =>
      rw [hcat] at hc1
      simp at hc1
      have h3' := h3 c1 cat1 hcat i
      by_cases hcc : c = c1
      · subst hcc
        rw [hc] at hcat
        cases hcat
        simp at hc1
        subst hc1
        simp only [List.count_erase, h3']
        by_cases he : i = i0
        · subst he
          simp [hd, hn]
        · have : ¬ i0 = i := fun e => he e.symm
          simp [he, this]
      · simp [hcc] at hc1
        subst hc1
        rw [h3']
        by_cases he : i = i0
        · subst he
          have : ¬ (d0.category = cat1.name) := by
            intro e
            exact hcc (cat_index_unique h1 hc hcat (hn.trans e))
          simp [hd, this]
        · simp [he]

theorem createDataForWindow_CatInv (H : String → ImGuiID) (wm : WindowManager) (n cn : String)
    (h : wm.CatInv) : (wm.createDataForWindow H n cn).1.CatInv := by
  have h1 := CatOK_append_data h { WindowData.new H n with category := cn }
  have h2 := findOrCreateCategory_CatOK
    { wm with _windowsData := wm._windowsData ++ [{ WindowData.new H n with category := cn }] }
    cn (some wm._windowsData.length) h1
  obtain ⟨h2, cat, hcat, hnm⟩ := h2
  have hd : (wm._windowsData ++ [{ WindowData.new H n with category := cn }])[wm._windowsData.length]?
      = some { WindowData.new H n with category := cn } := by simp
  have h3 := CatOK_push h2 hd hcat hnm
  unfold WindowManager.CatInv
  simpa [WindowManager.createDataForWindow] using h3

theorem FindOrCreateDataForWindow_CatInv (H : String → ImGuiID) (wm : WindowManager) (n : String)
    (h : wm.CatInv) : (wm.FindOrCreateDataForWindow H n).1.CatInv := by
  unfold WindowManager.FindOrCreateDataForWindow
  cases hf : wm.findDataForWindow (H n) with
  | some d => exact h
  | none => exact createDataForWindow_CatInv H wm n _ h

/-- The pointer returned by `FindOrCreateDataForWindow` is valid and its entry has the id asked for. -/
theorem FindOrCreateDataForWindow_valid (H : String → ImGuiID) (wm : WindowManager) (n : String) :
    ∃ d, (wm.FindOrCreateDataForWindow H n).1._windowsData[(wm.FindOrCreateDataForWindow H n).2]?
      = some d ∧ d.id = H n := by
  unfold WindowManager.FindOrCreateDataForWindow
  cases hf : wm.findDataForWindow (H n) with
  | some d =>
    obtain ⟨hlt, hp, -⟩ := List.findIdx?_eq_some_iff_getElem.1 hf
    exact ⟨wm._windowsData[d], by simp [hlt], by simpa using hp⟩
  | none =>
    exact ⟨{ WindowData.new H n with category := WindowData.defaultCategoryName },
      by simp, rfl⟩

theorem data_eq_of_getElem? {wm : WindowManager} {p : Nat} {d : WindowData}
    (h : wm._windowsData[p]? = some d) : wm.data p = d := by
  simp [WindowManager.data, List.getD, h]

theorem modifyData_CatInv (wm : WindowManager) (p : Nat) (f : WindowData → WindowData)
    (hf : ∀ d, (f d).category = d.category) (h : wm.CatInv) : (wm.modifyData p f).CatInv :=
  CatOK_modify_data h f p (Or.inl hf)

theorem SetWindowCategory_CatInv (H : String → ImGuiID) (wm : WindowManager) (n c : String)
    (h : wm.CatInv) : (wm.SetWindowCategory H n c).1.CatInv := by
  have h1 := FindOrCreateDataForWindow_CatInv H wm n h
  obtain ⟨d, hd, -⟩ := FindOrCreateDataForWindow_valid H wm n
  unfold WindowManager.SetWindowCategory
  simp only
  split
  · exact h1
  · rw [data_eq_of_getElem? hd]
    generalize (wm.FindOrCreateDataForWindow H n).1 = w1 at *
    generalize (wm.FindOrCreateDataForWindow H n).2 = p at *
    obtain ⟨h2, cat, hcat, hnm⟩ := findOrCreateCategory_CatOK w1 d.category none h1
    have h3 := CatOK_erase h2 hd hcat hnm
    have h4 := CatOK_modify_data h3 (fun d => { d with category := c }) p (Or.inr rfl)
    have h5 := findOrCreateCategory_CatOK
      ({ (w1.findOrCreateCategory d.category).1 with
          _windowsPerCategory := (w1.findOrCreateCategory d.category).1._windowsPerCategory.modify
            (fun k => { k with windows := k.windows.erase p }) (w1.findOrCreateCategory d.category).2
          : WindowManager }.modifyData p (fun d => { d with category := c })) c (some p)
      (by simpa using h4)
    obtain ⟨h5, cat5, hcat5, hnm5⟩ := h5
    have h6 := @CatOK_push _ _ _ _ { d with category := c } _ h5
      (by simp [List.getElem?_modify, hd]) hcat5 hnm5
    unfold WindowManager.CatInv
    simpa using h6

theorem CatInv_apply (H : String → ImGuiID) (wm : WindowManager) (op : RegistryOp)
    (h : wm.CatInv) : (op.apply H wm).CatInv := by
  cases op with
  | FindOrCreateDataForWindow n => exact FindOrCreateDataForWindow_CatInv H wm n h
  | AddWindow n vp e r1 r2 =>
    have h1 := FindOrCreateDataForWindow_CatInv H
      { wm with _windows := wm._windows ++ [{ imGuiData := 0 }] } n h
    have e1 : RegistryOp.apply H wm (RegistryOp.AddWindow n vp e r1 r2)
        = (wm.AddWindow H n vp e r1 r2).1 := rfl
    rw [e1]
    unfold WindowManager.AddWindow
    simp only
    apply modifyData_CatInv
    · intro d; rfl
    · exact h1
  | SetWindowCategory n c => exact SetWindowCategory_CatInv H wm n c h
  | SetWindowPreferredSize n s =>
    exact modifyData_CatInv _ _ _ (fun _ => rfl) (FindOrCreateDataForWindow_CatInv H wm n h)
  | SetWindowHelpString n s =>
    exact modifyData_CatInv _ _ _ (fun _ => rfl) (FindOrCreateDataForWindow_CatInv H wm n h)
  | ReadOpen n => exact FindOrCreateDataForWindow_CatInv H wm n h

theorem CatInv_registryAfter (H : String → ImGuiID) (ops : List RegistryOp) :
    (registryAfter H ops).CatInv :=
  foldl_invariant WindowManager.CatInv _ (fun s a h => CatInv_apply H s a h) ops {}
    ⟨by simp, by simp, by simp⟩

/-- What the category invariant says of one entry. -/
theorem CatInv_entry {wm : WindowManager} (h : wm.CatInv) {i : Nat} {d : WindowData}
    (hd : wm._windowsData[i]? = some d) :
    ∃ (c : Nat) (cat : WindowCategory), wm._windowsPerCategory[c]? = some cat ∧
      cat.windows.count i = 1 ∧ cat.name = d.category ∧
      ∀ (c1 : Nat) (cat1 : WindowCategory), wm._windowsPerCategory[c1]? = some cat1 → c1 ≠ c →
        i ∉ cat1.windows := by
  obtain ⟨h1, h2, h3⟩ := h
  obtain ⟨c, cat, hc, hnm⟩ := h2 i d hd (by simp)
  refine ⟨c, cat, hc, ?_, hnm, ?_⟩
  · rw [h3 c cat hc i]
    simp [hd, hnm]
  · intro c1 cat1 hc1 hne hmem
    have hcount := h3 c1 cat1 hc1 i
    have hpos : 0 < cat1.windows.count i := List.count_pos_iff.2 hmem
    by_cases hcond : d.category = cat1.name
    · exact hne (cat_index_unique h1 hc1 hc (hcond.symm.trans hnm.symm))
    · simp [hd, hcond] at hcount
      omega

/-- C2. Category partition: in every registry state reached by the registry
operations (each of which creates entries through `createDataForWindow`) and
`SetWindowCategory`, every entry is in the window list of exactly one category,
exactly once, and that category's name is the entry's `category` field. -/
theorem category_partition (ImHashStr : String → ImGuiID) (ops : List RegistryOp)
    (i : Nat) (d : WindowData) :
    (registryAfter ImHashStr ops)._windowsData[i]? = some d →
    ∃ (c : Nat) (cat : WindowCategory),
      (registryAfter ImHashStr ops)._windowsPerCategory[c]? = some cat ∧
      cat.windows.count i = 1 ∧ cat.name = d.category ∧
      ∀ (c1 : Nat) (cat1 : WindowCategory),
        (registryAfter ImHashStr ops)._windowsPerCategory[c1]? = some cat1 → c1 ≠ c →
          i ∉ cat1.windows :=
  fun hd => CatInv_entry (CatInv_registryAfter ImHashStr ops) hd

theorem formatBoolAsInt_eq (b : Bool) :
    formatBoolAsInt b = if b then "1" else "0" := by
  cases b <;> decide

theorem foldl_append_data {α : Type} (g : α → String) :
    ∀ (l : List α) (buf : String),
      (l.foldl (fun b a => b ++ g a) buf).data = buf.data ++ (l.map (fun a => (g a).data)).flatten
  | [], buf => by simp
  | a :: l, buf => by
    simp [foldl_append_data g l (buf ++ g a), List.append_assoc]

/-- The text that `WriteAll` appends, entry by entry. -/
theorem WriteAll_eq_append_join (wm : WindowManager) (buf : String) :
    CVLogSettingsHandler_WriteAll Init wm buf =
      buf ++ String.join (wm._windowsData.map (fun winData =>
        String.join [
          "[CvLogData][" ++ winData.name ++ "]" ++ "\n",
          (if winData.isVisible then "Visible=1" else "Visible=0") ++ "\n",
          "" ++ "\n"])) := by
  apply String.ext
  have h := foldl_append_data (fun winData : WindowData =>
    (("[" ++ Init.TypeName ++ "][" ++ winData.name ++ "]\n")
      ++ ("Visible=" ++ formatBoolAsInt winData.isVisible ++ "\n")) ++ "\n") wm._windowsData buf
  have e : CVLogSettingsHandler_WriteAll Init wm buf
      = wm._windowsData.foldl (fun b winData => b ++
        ((("[" ++ Init.TypeName ++ "][" ++ winData.name ++ "]\n")
          ++ ("Visible=" ++ formatBoolAsInt winData.isVisible ++ "\n")) ++ "\n")) buf := by
    unfold CVLogSettingsHandler_WriteAll
    congr 1
    funext b winData
    simp [String.append_assoc]
  rw [e, h]
  simp only [String.data_append, String.data_join, List.map_map]
  congr 1
  congr 1
  apply List.map_congr_left
  intro d _
  cases hv : d.isVisible <;>
    simp [Function.comp_def, formatBoolAsInt_eq, hv, Init, String.data_append]

/-- C8. Settings write format: for every registry state, `WriteAll` appends to
the buffer, for each entry in creation order (whether or not it has a panel
instance), exactly the three lines `[CvLogData][<name>]`, `Visible=1` when the
entry is visible and `Visible=0` when it is not, and an empty line; nothing else
is written. -/
theorem WriteAll_writes_three_lines_per_entry (wm : WindowManager) (buf : String) :
    CVLogSettingsHandler_WriteAll Init wm buf =
      buf ++ String.join (wm._windowsData.map (fun winData =>
        String.join [
          "[CvLogData][" ++ winData.name ++ "]" ++ "\n",
          (if winData.isVisible then "Visible=1" else "Visible=0") ++ "\n",
          "" ++ "\n"])) :=
  WriteAll_eq_append_join wm buf









theorem GetVoidPtr_eq_none_of_lt (st : List (Nat × Nat)) (key : Nat)
    (h : ∀ p ∈ st, key < p.1) : ImGuiStorage.GetVoidPtr st key = none := by
  cases st with
  | nil => rfl
  | cons p rest =>
    obtain ⟨k, v⟩ := p
    have hk : key < k := h (k, v) (List.mem_cons_self _ _)
    have h1 : ¬ k < key := by omega
    have h2 : ¬ k = key := by omega
    simp [ImGuiStorage.GetVoidPtr, h1, h2]

theorem SetVoidPtr_keys (st : List (Nat × Nat)) (key : Nat) (val : Nat) :
    ∀ p ∈ ImGuiStorage.SetVoidPtr st key val, p.1 = key ∨ ∃ q ∈ st, q.1 = p.1 := by
  induction st with
  | nil =>
    intro p hp
    simp [ImGuiStorage.SetVoidPtr] at hp
    exact Or.inl (by rw [hp])
  | cons q rest ih =>
    obtain ⟨k, v⟩ := q
    intro p hp
    unfold ImGuiStorage.SetVoidPtr at hp
    split at hp
    · rcases List.mem_cons.1 hp with hp | hp
      · exact Or.inr ⟨(k, v), List.mem_cons_self _ _, by rw [hp]⟩
      · rcases ih p hp with h | ⟨q, hq, hqk⟩
        · exact Or.inl h
        · exact Or.inr ⟨q, List.mem_cons_of_mem _ hq, hqk⟩
    · split at hp
      · rcases List.mem_cons.1 hp with hp | hp
        · exact Or.inl (by rw [hp]; assumption)
        · exact Or.inr ⟨p, List.mem_cons_of_mem _ hp, rfl⟩
      · rcases List.mem_cons.1 hp with hp | hp
        · exact Or.inl (by rw [hp])
        · exact Or.inr ⟨p, hp, rfl⟩

theorem SetVoidPtr_sorted (st : List (Nat × Nat)) (key : Nat) (val : Nat)
    (h : (st.map Prod.fst).Pairwise (fun a b => a < b)) :
    ((ImGuiStorage.SetVoidPtr st key val).map Prod.fst).Pairwise (fun a b => a < b) := by
  induction st with
  | nil => simp [ImGuiStorage.SetVoidPtr]
  | cons q rest ih =>
    obtain ⟨k, v⟩ := q
    simp only [List.map_cons, List.pairwise_cons] at h
    unfold ImGuiStorage.SetVoidPtr
    split
    · rename_i hlt
      simp only [List.map_cons, List.pairwise_cons]
      refine ⟨?_, ih h.2⟩
      intro a ha
      obtain ⟨p, hp, rfl⟩ := List.mem_map.1 ha
      rcases SetVoidPtr_keys rest key val p hp with h1 | ⟨q, hq, hqk⟩
      · rw [h1]; exact hlt
      · rw [← hqk]; exact h.1 q.1 (List.mem_map.2 ⟨q, hq, rfl⟩)
    · split
      · simpa using h
      · rename_i h1 h2
        simp only [List.map_cons, List.pairwise_cons]
        refine ⟨?_, h⟩
        intro a ha
        rcases List.mem_cons.1 ha with ha | ha
        · rw [ha]; (first | omega | (unfold ImGuiID at *; omega))
        · have := h.1 a ha
          (first | omega | (unfold ImGuiID at *; omega))

theorem GetVoidPtr_SetVoidPtr (st : List (Nat × Nat)) (key : Nat) (val : Nat) (k : Nat)
    (h : (st.map Prod.fst).Pairwise (fun a b => a < b)) :
    ImGuiStorage.GetVoidPtr (ImGuiStorage.SetVoidPtr st key val) k
      = if k = key then some val else ImGuiStorage.GetVoidPtr st k := by
  induction st with
  | nil =>
    by_cases hk : k = key
    · simp [ImGuiStorage.SetVoidPtr, ImGuiStorage.GetVoidPtr, hk]
    · have hk' : ¬ key = k := fun e => hk e.symm
      simp [ImGuiStorage.SetVoidPtr, ImGuiStorage.GetVoidPtr, hk, hk']
  | cons q rest ih =>
    obtain ⟨k0, v0⟩ := q
    simp only [List.map_cons, List.pairwise_cons] at h
    unfold ImGuiStorage.SetVoidPtr
    split
    · rename_i hlt
      by_cases h0 : k0 < k
      · simp only [ImGuiStorage.GetVoidPtr, h0, if_true]
        exact ih h.2
      · have hne : ¬ k = key := by (first | omega | (unfold ImGuiID at *; omega))
        simp [ImGuiStorage.GetVoidPtr, h0, hne]
    · split
      · rename_i h1 h2
        subst h2
        by_cases h0 : k0 < k
        · have hne : ¬ k = k0 := by omega
          simp [ImGuiStorage.GetVoidPtr, h0, hne]
        · by_cases h3 : k0 = k
          · simp [ImGuiStorage.GetVoidPtr, h3]
          · have hne : ¬ k = k0 := fun e => h3 e.symm
            simp [ImGuiStorage.GetVoidPtr, h0, h3, hne]
      · rename_i h1 h2
        by_cases hk : k = key
        · subst hk
          simp [ImGuiStorage.GetVoidPtr]
        · by_cases h3 : key < k
          · have hne : ¬ key = k := fun e => hk e.symm
            simp [ImGuiStorage.GetVoidPtr, h3, hk]
          · have hne : ¬ key = k := fun e => hk e.symm
            have h4 : ¬ k0 < k := by (first | omega | (unfold ImGuiID at *; omega))
            have h5 : ¬ k0 = k := by (first | omega | (unfold ImGuiID at *; omega))
            simp [ImGuiStorage.GetVoidPtr, h3, hk, hne, h4, h5]

theorem findDataForWindow_eq_of_keys {wm wm1 : WindowManager} (h : wm1.keys = wm.keys)
    (k : ImGuiID) : wm1.findDataForWindow k = wm.findDataForWindow k := by
  have e : ∀ w : WindowManager,
      w.findDataForWindow k = (w.keys.map Prod.snd).findIdx? (fun a => a == k) := by
    intro w
    simp only [WindowManager.findDataForWindow, WindowManager.keys, List.map_map,
      List.findIdx?_map]
    rfl
  rw [e wm1, e wm, h]

theorem IndexInv_of_eq {wm wm1 : WindowManager} (hk : wm1.keys = wm.keys)
    (hi : wm1.windowsByID = wm.windowsByID) (h : wm.IndexInv) : wm1.IndexInv := by
  unfold WindowManager.IndexInv
  rw [hi]
  refine ⟨h.1, ?_⟩
  intro k
  rw [findDataForWindow_eq_of_keys hk k]
  exact h.2 k

theorem FindOrCreateDataForWindow_IndexInv (H : String → ImGuiID) (wm : WindowManager)
    (n : String) (h : wm.IndexInv) : (wm.FindOrCreateDataForWindow H n).1.IndexInv := by
  unfold WindowManager.FindOrCreateDataForWindow
  cases hf : wm.findDataForWindow (H n) with
  | some d => exact h
  | none =>
    have hnone : ∀ x ∈ wm._windowsData, ¬ (x.id == H n) = true := by
      have := List.findIdx?_eq_none_iff.1 hf
      simpa using this
    refine ⟨?_, ?_⟩
    · simpa [WindowManager.createDataForWindow] using SetVoidPtr_sorted _ _ _ h.1
    · intro k
      have e1 : (wm.createDataForWindow H n WindowData.defaultCategoryName).1.windowsByID
          = ImGuiStorage.SetVoidPtr wm.windowsByID (H n) wm._windowsData.length := by
        simp [WindowManager.createDataForWindow]
      rw [e1, GetVoidPtr_SetVoidPtr _ _ _ _ h.1, h.2 k]
      simp only [WindowManager.findDataForWindow, createDataForWindow_windowsData,
        List.findIdx?_append]
      by_cases hk : k = H n
      · subst hk
        have hf' : List.findIdx? (fun data => data.id == H n) wm._windowsData = none := hf
        simp [hf', WindowData.new]
      · have hk' : ¬ H n = k := fun e => hk e.symm
        simp only [hk, if_false]
        cases hfk : List.findIdx? (fun data => data.id == k) wm._windowsData with
        | some j => simp
        | none => simp [WindowData.new, hk']

theorem windowsByID_SetWindowCategory (H : String → ImGuiID) (wm : WindowManager)
    (n c : String) :
    (wm.SetWindowCategory H n c).1.windowsByID = (wm.FindOrCreateDataForWindow H n).1.windowsByID := by
  unfold WindowManager.SetWindowCategory
  simp only
  split
  · rfl
  · simp

theorem IndexInv_apply (H : String → ImGuiID) (wm : WindowManager) (op : RegistryOp)
    (h : wm.IndexInv) : (op.apply H wm).IndexInv := by
  cases op with
  | FindOrCreateDataForWindow n => exact FindOrCreateDataForWindow_IndexInv H wm n h
  | AddWindow n vp e r1 r2 =>
    have h1 := FindOrCreateDataForWindow_IndexInv H
      { wm with _windows := wm._windows ++ [{ imGuiData := 0 }] } n h
    refine IndexInv_of_eq ?_ ?_ h1
    · have e1 : RegistryOp.apply H wm (RegistryOp.AddWindow n vp e r1 r2)
          = (wm.AddWindow H n vp e r1 r2).1 := rfl
      rw [e1]
      unfold WindowManager.AddWindow
      simp only
      rw [keys_modifyData]
      · rfl
      · intro d
        exact ⟨rfl, rfl⟩
    · rfl
  | SetWindowCategory n c =>
    exact IndexInv_of_eq (keys_SetWindowCategory H wm n c) (windowsByID_SetWindowCategory H wm n c)
      (FindOrCreateDataForWindow_IndexInv H wm n h)
  | SetWindowPreferredSize n s =>
    exact IndexInv_of_eq (keys_SetWindowPreferredSize H wm n s) rfl
      (FindOrCreateDataForWindow_IndexInv H wm n h)
  | SetWindowHelpString n s =>
    exact IndexInv_of_eq (keys_SetWindowHelpString H wm n s) rfl
      (FindOrCreateDataForWindow_IndexInv H wm n h)
  | ReadOpen n => exact FindOrCreateDataForWindow_IndexInv H wm n h

theorem IndexInv_registryAfter (H : String → ImGuiID) (ops : List RegistryOp) :
    (registryAfter H ops).IndexInv :=
  foldl_invariant WindowManager.IndexInv _ (fun s a h => IndexInv_apply H s a h) ops {}
    ⟨by simp, by intro k; rfl⟩

/-- The lookup of `WindowIsVisible` on a registry whose index agrees with its entries. -/
theorem WindowIsVisible_of_IndexInv (H : String → ImGuiID) (wm : WindowManager)
    (hidx : wm.IndexInv) (name : String) (wantsAddress : Bool) :
    (wm.findDataForWindow (H name) = none →
      WindowIsVisible H wm name wantsAddress = Asserted.ok
        { registry := wm, returned := false,
          stored := if wantsAddress then some none else none }) ∧
    (∀ p, wm.findDataForWindow (H name) = some p → (wm.data p).name ≠ name →
      WindowIsVisible H wm name wantsAddress = Asserted.assertionFailed) ∧
    (∀ p, wm.findDataForWindow (H name) = some p → (wm.data p).name = name →
      WindowIsVisible H wm name wantsAddress = Asserted.ok
        { registry := wm, returned := (wm.data p).isVisible,
          stored := if wantsAddress then some (some p) else none }) := by
  refine ⟨?_, ?_, ?_⟩
  · intro hf
    simp [WindowIsVisible, WindowManager.ConcurrentFindWindow,
      WindowManager.ConcurrentFindWindowById, hidx.2, hf]
  · intro p hf hne
    simp [WindowIsVisible, WindowManager.ConcurrentFindWindow,
      WindowManager.ConcurrentFindWindowById, hidx.2, hf, hne]
  · intro p hf he
    simp [WindowIsVisible, WindowManager.ConcurrentFindWindow,
      WindowManager.ConcurrentFindWindowById, hidx.2, hf, he]

/-- A hash into a fixed-width integer sends two different names to one id. -/
theorem exists_hash_collision (H : String → ImGuiID) (hb : ∀ s, H s < 4294967296) :
    ∃ s1 s2 : String, s1 ≠ s2 ∧ H s1 = H s2 := by
  haveI : Infinite String :=
    Infinite.of_injective (fun n : Nat => String.mk (List.replicate n 'a')) (by
      intro a b h
      have := congrArg (fun s => s.data.length) h
      simpa using this)
  obtain ⟨x, y, hne, he⟩ :=
    Finite.exists_ne_map_eq_of_infinite (fun s : String => (⟨H s, hb s⟩ : Fin 4294967296))
  exact ⟨x, y, hne, by simpa using congrArg Fin.val he⟩

/-- C9 (as amended). For every registry state and every name whose id is not the
id of a registered entry, `WindowIsVisible(name, p)` returns false, stores a
null address in `*p` when `p` is given, and leaves the registry unchanged. -/
theorem WindowIsVisible_unknown_id (ImHashStr : String → ImGuiID) (ops : List RegistryOp)
    (name : String) (wantsAddress : Bool)
    (h : ∀ d ∈ (registryAfter ImHashStr ops)._windowsData, d.id ≠ ImHashStr name) :
    WindowIsVisible ImHashStr (registryAfter ImHashStr ops) name wantsAddress
      = Asserted.ok
          { registry := registryAfter ImHashStr ops, returned := false,
            stored := if wantsAddress then some none else none } := by
  apply (WindowIsVisible_of_IndexInv ImHashStr _ (IndexInv_registryAfter ImHashStr ops)
    name wantsAddress).1
  rw [findDataForWindow_eq_none]
  intro p hp
  obtain ⟨d, hd, rfl⟩ := List.mem_map.1 hp
  exact h d hd

/-- C9, witness: the registry holding `A` alone, asked about `B`. -/
theorem WindowIsVisible_unknown_id_witness :
    (∀ d ∈ (registryAfter polyHash [RegistryOp.FindOrCreateDataForWindow "A"])._windowsData,
      d.id ≠ polyHash "B") ∧
    WindowIsVisible polyHash (registryAfter polyHash [RegistryOp.FindOrCreateDataForWindow "A"])
        "B" true
      = Asserted.ok
          { registry := registryAfter polyHash [RegistryOp.FindOrCreateDataForWindow "A"],
            returned := false, stored := if true then some none else none } :=
  ⟨by decide,
   WindowIsVisible_unknown_id polyHash [RegistryOp.FindOrCreateDataForWindow "A"] "B" true
    (by decide)⟩

/-- C9, counterexample: with the registry holding `Aa` alone, the name `BB` has
no registered metadata, yet under the 32-bit hash `polyHash` the lookup fails its
assertion instead of returning false; and no hash into 32 bits makes the claim
true, since each one sends two different names to one id. -/
theorem WindowIsVisible_unknown_name_counterexample :
    ((∀ d ∈ (registryAfter polyHash [RegistryOp.FindOrCreateDataForWindow "Aa"])._windowsData,
        d.name ≠ "BB") ∧
      WindowIsVisible polyHash (registryAfter polyHash [RegistryOp.FindOrCreateDataForWindow "Aa"])
        "BB" true = Asserted.assertionFailed) ∧
    ¬ ∃ ImHashStr : String → ImGuiID, (∀ s, ImHashStr s < 4294967296) ∧
      ∀ (ops : List RegistryOp) (name : String) (wantsAddress : Bool),
        (∀ d ∈ (registryAfter ImHashStr ops)._windowsData, d.name ≠ name) →
        WindowIsVisible ImHashStr (registryAfter ImHashStr ops) name wantsAddress
          = Asserted.ok
              { registry := registryAfter ImHashStr ops, returned := false,
                stored := if wantsAddress then some none else none } := by
  refine ⟨⟨by decide, by decide⟩, ?_⟩
  rintro ⟨H, hb, hall⟩
  obtain ⟨s1, s2, hne, he⟩ := exists_hash_collision H hb
  have h := hall [RegistryOp.FindOrCreateDataForWindow s1] s2 true (by
    intro d hd
    simp [registryAfter, RegistryOp.apply, WindowManager.FindOrCreateDataForWindow,
      WindowManager.findDataForWindow, WindowData.new] at hd
    rw [hd]
    exact hne)
  simp [registryAfter, RegistryOp.apply, WindowManager.FindOrCreateDataForWindow,
    WindowManager.findDataForWindow, WindowManager.createDataForWindow,
    WindowManager.findOrCreateCategory, WindowData.new, WindowIsVisible,
    WindowManager.ConcurrentFindWindow, WindowManager.ConcurrentFindWindowById,
    ImGuiStorage.SetVoidPtr, ImGuiStorage.GetVoidPtr, he, WindowManager.data, hne] at h

/-- C2, witness: after `A` is created, moved to `Images`, and `B` is created,
the entry of `A` is in the list of `Images` once and in no other list. -/
theorem category_partition_witness :
    (registryAfter polyHash
        [RegistryOp.FindOrCreateDataForWindow "A", RegistryOp.SetWindowCategory "A" "Images",
          RegistryOp.FindOrCreateDataForWindow "B"])._windowsData[0]?
      = some { name := "A", id := 65, category := "Images" } ∧
    ∃ (c : Nat) (cat : WindowCategory),
      (registryAfter polyHash
        [RegistryOp.FindOrCreateDataForWindow "A", RegistryOp.SetWindowCategory "A" "Images",
          RegistryOp.FindOrCreateDataForWindow "B"])._windowsPerCategory[c]? = some cat ∧
      cat.windows.count 0 = 1 ∧
      cat.name = ({ name := "A", id := 65, category := "Images" } : WindowData).category ∧
      ∀ (c1 : Nat) (cat1 : WindowCategory),
        (registryAfter polyHash
          [RegistryOp.FindOrCreateDataForWindow "A", RegistryOp.SetWindowCategory "A" "Images",
            RegistryOp.FindOrCreateDataForWindow "B"])._windowsPerCategory[c1]? = some cat1 →
          c1 ≠ c → 0 ∉ cat1.windows :=
  ⟨by decide,
   category_partition polyHash
    [RegistryOp.FindOrCreateDataForWindow "A", RegistryOp.SetWindowCategory "A" "Images",
      RegistryOp.FindOrCreateDataForWindow "B"] 0
    { name := "A", id := 65, category := "Images" } (by decide)⟩

theorem data_modifyData (wm : WindowManager) (p i : Nat) (f : WindowData → WindowData) :
    (wm.modifyData p f).data i
      = if i = p ∧ p < wm._windowsData.length then f (wm.data p) else wm.data i := by
  simp only [WindowManager.data, modifyData_windowsData, List.getD_eq_getElem?_getD,
    List.getElem?_modify]
  by_cases h : i = p
  · subst h
    by_cases hl : i < wm._windowsData.length
    · simp [hl, List.getElem?_eq_getElem hl]
    · simp [hl, List.getElem?_eq_none (Nat.le_of_not_lt hl)]
  · have h' : ¬ p = i := fun e => h e.symm
    simp only [h, false_and, if_false]
    cases wm._windowsData[i]? <;> simp [h']

theorem SameButLayout_refl (wm : WindowManager) : wm.SameButLayout wm := ⟨rfl, fun _ => rfl⟩

theorem SameButLayout_trans {a b c : WindowManager} (h1 : a.SameButLayout b)
    (h2 : b.SameButLayout c) : a.SameButLayout c :=
  ⟨h1.1.trans h2.1, fun i => (h1.2 i).trans (h2.2 i)⟩

theorem SameButLayout_modifyData (wm : WindowManager) (p : Nat) (cur : TileCursor)
    (size : ImVec2) : (wm.modifyData p (tilePlace cur size)).SameButLayout wm := by
  refine ⟨by simp, ?_⟩
  intro i
  rw [data_modifyData]
  split
  · rename_i h
    rw [h.1]
    rfl
  · rfl

theorem SameButLayout_fields {wm1 wm : WindowManager} (h : wm1.SameButLayout wm) (i : Nat) :
    (wm1.data i).isVisible = (wm.data i).isVisible ∧
    (wm1.data i).isDocked = (wm.data i).isDocked ∧
    (wm1.data i).preferredContentSize = (wm.data i).preferredContentSize ∧
    (wm1.data i).name = (wm.data i).name := by
  have := h.2 i
  simp only [WindowData.sansLayout] at this
  injection this with h1 h2 h3 h4 h5 h6 h7 h8 h9 h10
  exact ⟨h3, h4, h7, h1⟩

theorem scaledWinSize_congr {wm1 wm : WindowManager} (h : wm1.SameButLayout wm) (i : Nat)
    (e s : ℚ) : scaledWinSize (wm1.data i) e s = scaledWinSize (wm.data i) e s := by
  simp [scaledWinSize, WindowData.preferredWindowSize, (SameButLayout_fields h i).2.2.1]

theorem tilePass_SameButLayout (vp : ImGuiViewport) (e s : ℚ) :
    ∀ (ws : List Window) (cur : TileCursor) (wm : WindowManager),
      (tilePass vp e s ws cur wm).1.SameButLayout wm
  | [], _, wm => SameButLayout_refl wm
  | w :: ws, cur, wm => by
    unfold tilePass
    split
    · exact tilePass_SameButLayout vp e s ws cur wm
    · split
      · exact tilePass_SameButLayout vp e s ws cur wm
      · split
        · exact SameButLayout_refl wm
        · exact SameButLayout_trans (tilePass_SameButLayout vp e s ws _ _)
            (SameButLayout_modifyData wm _ _ _)

/-- Starting a new row keeps the bottom of the rows placed so far. -/
theorem tileStartNewRow_bottom (vp : ImGuiViewport) (cur : TileCursor) (size : ImVec2)
    (hmax : 0 ≤ cur.maxHeightInCurrentRow) :
    (tileStartNewRow vp cur size).currentY + (tileStartNewRow vp cur size).maxHeightInCurrentRow
        = cur.currentY + cur.maxHeightInCurrentRow ∧
      0 ≤ (tileStartNewRow vp cur size).maxHeightInCurrentRow := by
  unfold tileStartNewRow
  split
  · simp
  · exact ⟨rfl, hmax⟩

/-- A pass fits when the scaled heights of all the windows it arranges, stacked
on the cursor, stay within the viewport. -/
theorem tilePass_fits (vp : ImGuiViewport) (e s : ℚ) (hs : 0 ≤ s) (wm0 : WindowManager) :
    ∀ (ws : List Window) (cur : TileCursor) (wm : WindowManager),
      wm.SameButLayout wm0 → 0 ≤ cur.maxHeightInCurrentRow →
      cur.currentY + cur.maxHeightInCurrentRow + s * tileHeightSum wm0 e ws
        ≤ vp.Pos.y + vp.Size.y →
      (tilePass vp e s ws cur wm).2 = true
  | [], _, _, _, _, _ => rfl
  | w :: ws, cur, wm, hsame, hmax, hsum => by
    obtain ⟨hv, hd, hp, -⟩ := SameButLayout_fields hsame w.imGuiData
    have hsum0 : 0 ≤ tileHeightSum wm0 e ws := by
      unfold tileHeightSum
      apply List.sum_nonneg
      intro x hx
      obtain ⟨w1, -, rfl⟩ := List.mem_map.1 hx
      split
      · exact le_max_left _ _
      · exact le_refl _
    unfold tilePass
    split
    · rename_i hvis
      apply tilePass_fits vp e s hs wm0 ws cur wm hsame hmax
      have : tileHeightSum wm0 e (w :: ws) = tileHeightSum wm0 e ws := by
        simp [tileHeightSum, ← hv, hvis]
      rw [this] at hsum
      exact hsum
    · split
      · rename_i hvis hdock
        apply tilePass_fits vp e s hs wm0 ws cur wm hsame hmax
        have : tileHeightSum wm0 e (w :: ws) = tileHeightSum wm0 e ws := by
          simp [tileHeightSum, ← hd, hdock]
        rw [this] at hsum
        exact hsum
      · rename_i hvis hdock
        have hvis' : (wm0.data w.imGuiData).isVisible = true := by
          rw [← hv]; simpa using hvis
        have hdock' : (wm0.data w.imGuiData).isDocked = false := by
          rw [← hd]; simpa using hdock
        have hcons : tileHeightSum wm0 e (w :: ws)
            = max 0 ((wm0.data w.imGuiData).preferredWindowSize e).y + tileHeightSum wm0 e ws := by
          simp [tileHeightSum, hvis', hdock']
        rw [hcons] at hsum
        have hh : (scaledWinSize (wm.data w.imGuiData) e s).y
            ≤ s * max 0 ((wm0.data w.imGuiData).preferredWindowSize e).y := by
          rw [scaledWinSize_congr hsame]
          simp only [scaledWinSize]
          rw [mul_comm]
          exact mul_le_mul_of_nonneg_left (le_max_right _ _) hs
        have hm0 : 0 ≤ s * max 0 ((wm0.data w.imGuiData).preferredWindowSize e).y :=
          mul_nonneg hs (le_max_left _ _)
        have hrest : 0 ≤ s * tileHeightSum wm0 e ws := mul_nonneg hs hsum0
        obtain ⟨hb, hb0⟩ := tileStartNewRow_bottom vp cur
          (scaledWinSize (wm.data w.imGuiData) e s) hmax
        generalize tileStartNewRow vp cur (scaledWinSize (wm.data w.imGuiData) e s) = cur1 at *
        generalize scaledWinSize (wm.data w.imGuiData) e s = size at *
        split
        · rename_i hover
          exfalso
          linarith
        · apply tilePass_fits vp e s hs wm0 ws _ _
            (SameButLayout_trans (SameButLayout_modifyData wm _ _ _) hsame)
          · exact le_max_of_le_left hb0
          · simp only [tileAdvance]
            rcases max_cases cur1.maxHeightInCurrentRow size.y
              with ⟨h1, -⟩ | ⟨h1, -⟩ <;> rw [h1] <;> linarith

theorem tileLoop_succ (vp : ImGuiViewport) (e : ℚ) (sorted : List Window) :
    ∀ (fuel : Nat) (s : ℚ) (wm r : WindowManager),
      tileLoop vp e sorted fuel s wm = some r → tileLoop vp e sorted (fuel + 1) s wm = some r
  | 0, _, _, _, h => by simp [tileLoop] at h
  | fuel + 1, s, wm, r, h => by
    unfold tileLoop at h ⊢
    split
    · rename_i hfit
      simpa [hfit] using h
    · rename_i hfit
      simp only [hfit, if_false] at h
      exact tileLoop_succ vp e sorted fuel _ _ r h

theorem tileLoop_mono (vp : ImGuiViewport) (e : ℚ) (sorted : List Window) (s : ℚ)
    (wm r : WindowManager) (n : Nat) (h : tileLoop vp e sorted n s wm = some r) :
    ∀ fuel, n ≤ fuel → tileLoop vp e sorted fuel s wm = some r := by
  intro fuel hle
  induction hle with
  | refl => exact h
  | step _ ih => exact tileLoop_succ vp e sorted _ s wm r ih

/-- The loop ends within `k + 1` passes when the pass at the scale reached after
`k` failures fits. -/
theorem tileLoop_of_fit (vp : ImGuiViewport) (e : ℚ) (sorted : List Window)
    (wm0 : WindowManager) :
    ∀ (k : Nat) (s : ℚ) (wm1 : WindowManager), wm1.SameButLayout wm0 →
      (∀ wm2 : WindowManager, wm2.SameButLayout wm0 →
        (tilePass vp e (s * (95 / 100) ^ k) sorted (tileStart vp) wm2).2 = true) →
      ∃ wm', tileLoop vp e sorted (k + 1) s wm1 = some wm'
  | 0, s, wm1, hsame, hfit => by
    have := hfit wm1 hsame
    simp only [pow_zero, mul_one] at this
    exact ⟨(tilePass vp e s sorted (tileStart vp) wm1).1, by simp [tileLoop, this]⟩
  | k + 1, s, wm1, hsame, hfit => by
    unfold tileLoop
    split
    · exact ⟨_, rfl⟩
    · apply tileLoop_of_fit vp e sorted wm0 k
      · exact SameButLayout_trans (tilePass_SameButLayout vp e s sorted _ wm1) hsame
      · intro wm2 h2
        have := hfit wm2 h2
        rw [pow_succ] at this
        rw [mul_assoc, mul_comm (95 / 100 : ℚ)]
        exact this

/-- Some power of 0.95 brings the stacked heights under the viewport height. -/
theorem exists_scale_fits (S V : ℚ) (hS : 0 ≤ S) (hV : 0 < V) :
    ∃ k : Nat, (95 / 100 : ℚ) ^ k * S ≤ V := by
  have hpos : 0 < V / (S + 1) := div_pos hV (by linarith)
  obtain ⟨k, hk⟩ := exists_pow_lt_of_lt_one hpos (by norm_num : (95 / 100 : ℚ) < 1)
  refine ⟨k, ?_⟩
  have h1 : (95 / 100 : ℚ) ^ k * (S + 1) < V := by
    rwa [lt_div_iff₀ (by linarith)] at hk
  have h2 : 0 ≤ (95 / 100 : ℚ) ^ k := pow_nonneg (by norm_num) k
  nlinarith

/-- C6. Tile-and-scale termination: for every registry whose panels have
positive preferred sizes and every viewport with positive width and height, the
retry loop of `TileAndScaleVisibleWindows` (scale multiplied by 0.95 after each
failed pass, no pass cap) makes finitely many passes over exact arithmetic: from
some number of passes on, the call returns, always with the same result. (Only
the positive height is used.) -/
theorem TileAndScaleVisibleWindows_terminates (wm : WindowManager) (vp : ImGuiViewport)
    (extraWindowHeight : ℚ)
    (_hsizes : ∀ d ∈ wm._windowsData,
      0 < d.preferredContentSize.x ∧ 0 < d.preferredContentSize.y)
    (_hwidth : 0 < vp.Size.x) (hheight : 0 < vp.Size.y) :
    ∃ (passes : Nat) (wm' : WindowManager), ∀ fuel, passes ≤ fuel →
      wm.TileAndScaleVisibleWindows fuel vp extraWindowHeight = some wm' := by
  have hS : 0 ≤ tileHeightSum wm extraWindowHeight wm.windowsSortedBySize := by
    unfold tileHeightSum
    apply List.sum_nonneg
    intro x hx
    obtain ⟨w1, -, rfl⟩ := List.mem_map.1 hx
    split
    · exact le_max_left _ _
    · exact le_refl _
  obtain ⟨k, hk⟩ := exists_scale_fits _ _ hS hheight
  obtain ⟨wm', hwm'⟩ := tileLoop_of_fit vp extraWindowHeight wm.windowsSortedBySize wm k 1 wm
    (SameButLayout_refl wm) (by
      intro wm2 h2
      apply tilePass_fits vp extraWindowHeight _ (by positivity) wm _ _ wm2 h2
      · exact le_refl _
      · simp only [tileStart, add_zero, one_mul]
        linarith)
  exact ⟨k + 1, wm', fun fuel hle =>
    tileLoop_mono vp extraWindowHeight _ 1 wm wm' (k + 1) hwm' fuel hle⟩

/-- C6, witness: three panels of which one is 600 by 500, in a 1280 by 720
viewport. -/
theorem TileAndScaleVisibleWindows_terminates_witness :
    (∀ d ∈ (registryAfter polyHash
          [RegistryOp.AddWindow "A" ⟨⟨0, 0⟩, ⟨1280, 720⟩⟩ 20 0 0,
           RegistryOp.AddWindow "B" ⟨⟨0, 0⟩, ⟨1280, 720⟩⟩ 20 0 0,
           RegistryOp.AddWindow "C" ⟨⟨0, 0⟩, ⟨1280, 720⟩⟩ 20 0 0,
           RegistryOp.SetWindowPreferredSize "A" ⟨600, 500⟩])._windowsData,
        0 < d.preferredContentSize.x ∧ 0 < d.preferredContentSize.y) ∧
    (0 : ℚ) < (⟨⟨0, 0⟩, ⟨1280, 720⟩⟩ : ImGuiViewport).Size.x ∧
    (0 : ℚ) < (⟨⟨0, 0⟩, ⟨1280, 720⟩⟩ : ImGuiViewport).Size.y ∧
    ∃ (passes : Nat) (wm' : WindowManager), ∀ fuel, passes ≤ fuel →
      (registryAfter polyHash
          [RegistryOp.AddWindow "A" ⟨⟨0, 0⟩, ⟨1280, 720⟩⟩ 20 0 0,
           RegistryOp.AddWindow "B" ⟨⟨0, 0⟩, ⟨1280, 720⟩⟩ 20 0 0,
           RegistryOp.AddWindow "C" ⟨⟨0, 0⟩, ⟨1280, 720⟩⟩ 20 0 0,
           RegistryOp.SetWindowPreferredSize "A" ⟨600, 500⟩]).TileAndScaleVisibleWindows
        fuel ⟨⟨0, 0⟩, ⟨1280, 720⟩⟩ 20 = some wm' :=
  ⟨by decide!, by norm_num, by norm_num,
   TileAndScaleVisibleWindows_terminates _ ⟨⟨0, 0⟩, ⟨1280, 720⟩⟩ 20 (by decide!)
    (by norm_num) (by norm_num)⟩

theorem isWindowHeightSmaller_iff (wm : WindowManager) (a b : Window) :
    wm.isWindowHeightSmaller a b = true ↔ wm.sizeKey a < wm.sizeKey b := by
  unfold WindowManager.isWindowHeightSmaller WindowManager.sizeKey
  simp only [Prod.Lex.lt_iff, ofLex_toLex, gt_iff_lt]
  rcases lt_trichotomy (wm.data a.imGuiData).preferredContentSize.y
      (wm.data b.imGuiData).preferredContentSize.y with h | h | h
  · simp [h]
  · rcases lt_trichotomy (wm.data a.imGuiData).preferredContentSize.x
        (wm.data b.imGuiData).preferredContentSize.x with h1 | h1 | h1
    · simp [h, h1]
    · simp [h, h1, String.lt_iff_toList_lt]
    · simp [h, h1, lt_asymm h1, ne_of_gt h1]
  · simp [h, lt_asymm h, ne_of_gt h]

theorem stdSetInsert_mem {α : Type} (lt : α → α → Bool) (x : α) :
    ∀ (l : List α) (y : α), y ∈ stdSetInsert lt x l → y = x ∨ y ∈ l
  | [], y, h => by
    simp [stdSetInsert] at h
    exact Or.inl h
  | z :: l, y, h => by
    unfold stdSetInsert at h
    split at h
    · rcases List.mem_cons.1 h with h | h
      · exact Or.inl h
      · exact Or.inr h
    · split at h
      · rcases List.mem_cons.1 h with h | h
        · exact Or.inr (by rw [h]; exact List.mem_cons_self _ _)
        · rcases stdSetInsert_mem lt x l y h with h | h
          · exact Or.inl h
          · exact Or.inr (List.mem_cons_of_mem _ h)
      · exact Or.inr h

theorem stdSetInsert_subset {α : Type} (lt : α → α → Bool) (x : α) :
    ∀ (l : List α) (y : α), y ∈ l → y ∈ stdSetInsert lt x l
  | [], y, h => by simp at h
  | z :: l, y, h => by
    unfold stdSetInsert
    split
    · exact List.mem_cons_of_mem _ h
    · split
      · rcases List.mem_cons.1 h with h | h
        · rw [h]; exact List.mem_cons_self _ _
        · exact List.mem_cons_of_mem _ (stdSetInsert_subset lt x l y h)
      · exact h

/-- After `insert(x)` the set holds `x` or an element equivalent to it. -/
theorem stdSetInsert_covers {α : Type} (lt : α → α → Bool) (x : α) :
    ∀ (l : List α), ∃ y ∈ stdSetInsert lt x l, y = x ∨ (lt x y = false ∧ lt y x = false)
  | [] => ⟨x, by simp [stdSetInsert], Or.inl rfl⟩
  | z :: l => by
    unfold stdSetInsert
    split
    · exact ⟨x, List.mem_cons_self _ _, Or.inl rfl⟩
    · split
      · obtain ⟨y, hy, h⟩ := stdSetInsert_covers lt x l
        exact ⟨y, List.mem_cons_of_mem _ hy, h⟩
      · rename_i h1 h2
        exact ⟨z, List.mem_cons_self _ _, Or.inr ⟨by simpa using h1, by simpa using h2⟩⟩

theorem stdSetInsert_sorted {α : Type} (lt : α → α → Bool)
    (htrans : ∀ a b c, lt a b = true → lt b c = true → lt a c = true) (x : α) :
    ∀ (l : List α), l.Pairwise (fun a b => lt a b = true) →
      (stdSetInsert lt x l).Pairwise (fun a b => lt a b = true)
  | [], _ => by simp [stdSetInsert]
  | z :: l, h => by
    rw [List.pairwise_cons] at h
    unfold stdSetInsert
    split
    · rename_i hxz
      rw [List.pairwise_cons]
      refine ⟨?_, List.pairwise_cons.2 h⟩
      intro a ha
      rcases List.mem_cons.1 ha with ha | ha
      · rw [ha]; exact hxz
      · exact htrans x z a hxz (h.1 a ha)
    · split
      · rename_i hxz hzx
        rw [List.pairwise_cons]
        refine ⟨?_, stdSetInsert_sorted lt htrans x l h.2⟩
        intro a ha
        rcases stdSetInsert_mem lt x l a ha with ha | ha
        · rw [ha]; exact hzx
        · exact h.1 a ha
      · exact List.pairwise_cons.2 h

theorem foldl_stdSetInsert_sorted {α : Type} (lt : α → α → Bool)
    (htrans : ∀ a b c, lt a b = true → lt b c = true → lt a c = true) :
    ∀ (xs acc : List α), acc.Pairwise (fun a b => lt a b = true) →
      (xs.foldl (fun set x => stdSetInsert lt x set) acc).Pairwise (fun a b => lt a b = true)
  | [], _, h => h
  | x :: xs, acc, h =>
    foldl_stdSetInsert_sorted lt htrans xs _ (stdSetInsert_sorted lt htrans x acc h)

theorem foldl_stdSetInsert_mem {α : Type} (lt : α → α → Bool) :
    ∀ (xs acc : List α) (y : α),
      y ∈ xs.foldl (fun set x => stdSetInsert lt x set) acc → y ∈ acc ∨ y ∈ xs
  | [], _, _, h => Or.inl h
  | x :: xs, acc, y, h => by
    rcases foldl_stdSetInsert_mem lt xs _ y h with h | h
    · rcases stdSetInsert_mem lt x acc y h with h | h
      · exact Or.inr (by rw [h]; exact List.mem_cons_self _ _)
      · exact Or.inl h
    · exact Or.inr (List.mem_cons_of_mem _ h)

theorem foldl_stdSetInsert_subset {α : Type} (lt : α → α → Bool) :
    ∀ (xs acc : List α) (y : α), y ∈ acc →
      y ∈ xs.foldl (fun set x => stdSetInsert lt x set) acc
  | [], _, _, h => h
  | x :: xs, acc, y, h =>
    foldl_stdSetInsert_subset lt xs _ y (stdSetInsert_subset lt x acc y h)

theorem foldl_stdSetInsert_covers {α : Type} (lt : α → α → Bool) :
    ∀ (xs acc : List α) (x : α), x ∈ xs →
      ∃ y ∈ xs.foldl (fun set x => stdSetInsert lt x set) acc,
        y = x ∨ (lt x y = false ∧ lt y x = false)
  | [], _, _, h => by simp at h
  | z :: xs, acc, x, h => by
    rcases List.mem_cons.1 h with h | h
    · subst h
      obtain ⟨y, hy, hxy⟩ := stdSetInsert_covers lt x acc
      exact ⟨y, foldl_stdSetInsert_subset lt xs _ y hy, hxy⟩
    · exact foldl_stdSetInsert_covers lt xs _ x h

theorem isWindowHeightSmaller_trans (wm : WindowManager) (a b c : Window)
    (h1 : wm.isWindowHeightSmaller a b = true) (h2 : wm.isWindowHeightSmaller b c = true) :
    wm.isWindowHeightSmaller a c = true := by
  rw [isWindowHeightSmaller_iff] at *
  exact lt_trans h1 h2

theorem isWindowHeightSmaller_ne (wm : WindowManager) (a b : Window)
    (h : wm.isWindowHeightSmaller a b = true) : a.imGuiData ≠ b.imGuiData := by
  intro e
  rw [isWindowHeightSmaller_iff] at h
  have : wm.sizeKey a = wm.sizeKey b := by simp [WindowManager.sizeKey, e]
  rw [this] at h
  exact lt_irrefl _ h

theorem windowsSortedBySize_nodup (wm : WindowManager) :
    (wm.windowsSortedBySize.map (fun w => w.imGuiData)).Nodup := by
  have h := foldl_stdSetInsert_sorted wm.isWindowHeightSmaller
    (isWindowHeightSmaller_trans wm) wm._windows [] List.Pairwise.nil
  unfold List.Nodup
  rw [List.pairwise_map]
  exact List.Pairwise.imp (fun {a b} hab => isWindowHeightSmaller_ne wm a b hab) h

theorem windowsSortedBySize_mem (wm : WindowManager) (w : Window)
    (h : w ∈ wm.windowsSortedBySize) : w ∈ wm._windows := by
  rcases foldl_stdSetInsert_mem wm.isWindowHeightSmaller wm._windows [] w h with h | h
  · simp at h
  · exact h

theorem data_getElem (wm : WindowManager) (i : Nat) (h : i < wm._windowsData.length) :
    wm.data i = wm._windowsData[i] := by
  simp [WindowManager.data, List.getD_eq_getElem?_getD, List.getElem?_eq_getElem h]

/-- With pairwise distinct names, two windows that the comparator does not
separate point at the same entry. -/
theorem windowsSortedBySize_covers (wm : WindowManager)
    (hnames : (wm._windowsData.map (fun d => d.name)).Nodup) (hwin : wm.WindowsInv)
    (w : Window) (hw : w ∈ wm._windows) :
    ∃ y ∈ wm.windowsSortedBySize, y.imGuiData = w.imGuiData := by
  obtain ⟨y, hy, h⟩ := foldl_stdSetInsert_covers wm.isWindowHeightSmaller wm._windows [] w hw
  refine ⟨y, hy, ?_⟩
  rcases h with h | ⟨h1, h2⟩
  · rw [h]
  · have hyw : y ∈ wm._windows := windowsSortedBySize_mem wm y hy
    have hk : wm.sizeKey w = wm.sizeKey y := by
      rcases lt_trichotomy (wm.sizeKey w) (wm.sizeKey y) with h | h | h
      · rw [← isWindowHeightSmaller_iff] at h
        rw [h] at h1
        exact absurd h1 (by simp)
      · exact h
      · rw [← isWindowHeightSmaller_iff] at h
        rw [h] at h2
        exact absurd h2 (by simp)
    have hname : (wm.data w.imGuiData).name = (wm.data y.imGuiData).name := by
      have := congrArg (fun k => (ofLex (ofLex k).2).2) hk
      simpa [WindowManager.sizeKey] using this
    have hlw := hwin w hw
    have hly := hwin y hyw
    rw [data_getElem wm _ hlw, data_getElem wm _ hly] at hname
    have hlw' : w.imGuiData < (wm._windowsData.map (fun d => d.name)).length := by simpa using hlw
    have hly' : y.imGuiData < (wm._windowsData.map (fun d => d.name)).length := by simpa using hly
    exact ((@List.Nodup.getElem_inj_iff _ _ hnames _ hly' _ hlw').1 (by simp [hname]))

theorem tilePass_frame (vp : ImGuiViewport) (e s : ℚ) (i : Nat) :
    ∀ (ws : List Window) (cur : TileCursor) (wm : WindowManager),
      i ∉ ws.map (fun w => w.imGuiData) → (tilePass vp e s ws cur wm).1.data i = wm.data i
  | [], _, _, _ => rfl
  | w :: ws, cur, wm, h => by
    simp only [List.map_cons, List.mem_cons, not_or] at h
    unfold tilePass
    split
    · exact tilePass_frame vp e s i ws cur wm h.2
    · split
      · exact tilePass_frame vp e s i ws cur wm h.2
      · split
        · rfl
        · rw [tilePass_frame vp e s i ws _ _ h.2, data_modifyData]
          simp [h.1]

theorem tileStartNewRow_x (vp : ImGuiViewport) (cur : TileCursor) (size : ImVec2)
    (hcur : WindowManager.windowListWidth + vp.Pos.x ≤ cur.currentX) :
    WindowManager.windowListWidth + vp.Pos.x ≤ (tileStartNewRow vp cur size).currentX ∧
    ((tileStartNewRow vp cur size).currentX = WindowManager.windowListWidth + vp.Pos.x ∨
      (tileStartNewRow vp cur size).currentX + size.x ≤ vp.Pos.x + vp.Size.x) := by
  unfold tileStartNewRow
  split
  · exact ⟨le_refl _, Or.inl rfl⟩
  · rename_i h
    refine ⟨hcur, ?_⟩
    by_cases h1 : cur.currentX > WindowManager.windowListWidth + vp.Pos.x
    · right
      by_contra h2
      exact h ⟨h1, lt_of_not_le h2⟩
    · left
      exact le_antisymm (le_of_not_lt h1) hcur

theorem tilePass_cons_hidden (vp : ImGuiViewport) (e s : ℚ) (w : Window) (ws : List Window)
    (cur : TileCursor) (wm : WindowManager) (h : (wm.data w.imGuiData).isVisible = false) :
    tilePass vp e s (w :: ws) cur wm = tilePass vp e s ws cur wm := by
  rw [tilePass]
  simp [h]

theorem tilePass_cons_docked (vp : ImGuiViewport) (e s : ℚ) (w : Window) (ws : List Window)
    (cur : TileCursor) (wm : WindowManager) (h : (wm.data w.imGuiData).isDocked = true) :
    tilePass vp e s (w :: ws) cur wm = tilePass vp e s ws cur wm := by
  rw [tilePass]
  simp [h]

theorem tilePass_cons_overflow (vp : ImGuiViewport) (e s : ℚ) (w : Window) (ws : List Window)
    (cur : TileCursor) (wm : WindowManager) (hv : (wm.data w.imGuiData).isVisible = true)
    (hd : (wm.data w.imGuiData).isDocked = false)
    (h : (tileStartNewRow vp cur (scaledWinSize (wm.data w.imGuiData) e s)).currentY
        + (scaledWinSize (wm.data w.imGuiData) e s).y > vp.Pos.y + vp.Size.y) :
    tilePass vp e s (w :: ws) cur wm = (wm, false) := by
  rw [tilePass]
  simp [hv, hd, h]

theorem tilePass_cons_place (vp : ImGuiViewport) (e s : ℚ) (w : Window) (ws : List Window)
    (cur : TileCursor) (wm : WindowManager) (hv : (wm.data w.imGuiData).isVisible = true)
    (hd : (wm.data w.imGuiData).isDocked = false)
    (h : ¬ (tileStartNewRow vp cur (scaledWinSize (wm.data w.imGuiData) e s)).currentY
        + (scaledWinSize (wm.data w.imGuiData) e s).y > vp.Pos.y + vp.Size.y) :
    tilePass vp e s (w :: ws) cur wm
      = tilePass vp e s ws
          (tileAdvance (tileStartNewRow vp cur (scaledWinSize (wm.data w.imGuiData) e s))
            (scaledWinSize (wm.data w.imGuiData) e s))
          (wm.modifyData w.imGuiData
            (tilePlace (tileStartNewRow vp cur (scaledWinSize (wm.data w.imGuiData) e s))
              (scaledWinSize (wm.data w.imGuiData) e s))) := by
  rw [tilePass]
  simp only [hv, hd, h, if_false]
  simp

/-- What a fitting pass leaves in the layout command of each window it arranges. -/
theorem tilePass_arranged (vp : ImGuiViewport) (e s : ℚ) (hs : 0 ≤ s) (wm0 : WindowManager) :
    ∀ (ws : List Window) (cur : TileCursor) (wm : WindowManager),
      wm.SameButLayout wm0 → (ws.map (fun w => w.imGuiData)).Nodup →
      (∀ w ∈ ws, w.imGuiData < wm0._windowsData.length) →
      WindowManager.windowListWidth + vp.Pos.x ≤ cur.currentX →
      (∀ w ∈ ws, 0 ≤ (wm0.data w.imGuiData).preferredContentSize.x) →
      (tilePass vp e s ws cur wm).2 = true →
      ∀ w ∈ ws, (wm0.data w.imGuiData).isVisible = true →
        (wm0.data w.imGuiData).isDocked = false →
        ((tilePass vp e s ws cur wm).1.data w.imGuiData).layoutUpdateOnNextFrame.hasData = true ∧
        ((tilePass vp e s ws cur wm).1.data w.imGuiData).layoutUpdateOnNextFrame.pos.y
          + ((tilePass vp e s ws cur wm).1.data w.imGuiData).layoutUpdateOnNextFrame.size.y
          ≤ vp.Pos.y + vp.Size.y ∧
        (((tilePass vp e s ws cur wm).1.data w.imGuiData).layoutUpdateOnNextFrame.pos.x
            = WindowManager.windowListWidth + vp.Pos.x ∨
          ((tilePass vp e s ws cur wm).1.data w.imGuiData).layoutUpdateOnNextFrame.pos.x
            + ((tilePass vp e s ws cur wm).1.data w.imGuiData).layoutUpdateOnNextFrame.size.x
            ≤ vp.Pos.x + vp.Size.x)
  | [], _, _, _, _, _, _, _, _ => by simp
  | w :: ws, cur, wm, hsame, hnd, hvalid, hcur, hx, hfit => by
    obtain ⟨hv, hd, hp, -⟩ := SameButLayout_fields hsame w.imGuiData
    simp only [List.map_cons, List.nodup_cons] at hnd
    have hvalid' : ∀ w1 ∈ ws, w1.imGuiData < wm0._windowsData.length :=
      fun w1 h1 => hvalid w1 (List.mem_cons_of_mem _ h1)
    have hx' : ∀ w1 ∈ ws, 0 ≤ (wm0.data w1.imGuiData).preferredContentSize.x :=
      fun w1 h1 => hx w1 (List.mem_cons_of_mem _ h1)
    by_cases hvis : (wm.data w.imGuiData).isVisible = false
    · rw [tilePass_cons_hidden vp e s w ws cur wm hvis] at hfit ⊢
      intro w1 hw1 hv1 hd1
      rcases List.mem_cons.1 hw1 with h1 | h1
      · subst h1
        rw [← hv, hvis] at hv1
        exact absurd hv1 (by simp)
      · exact tilePass_arranged vp e s hs wm0 ws cur wm hsame hnd.2 hvalid' hcur hx' hfit
          w1 h1 hv1 hd1
    · have hvis1 : (wm.data w.imGuiData).isVisible = true := by simpa using hvis
      by_cases hdock : (wm.data w.imGuiData).isDocked = true
      · rw [tilePass_cons_docked vp e s w ws cur wm hdock] at hfit ⊢
        intro w1 hw1 hv1 hd1
        rcases List.mem_cons.1 hw1 with h1 | h1
        · subst h1
          rw [← hd, hdock] at hd1
          exact absurd hd1 (by simp)
        · exact tilePass_arranged vp e s hs wm0 ws cur wm hsame hnd.2 hvalid' hcur hx' hfit
            w1 h1 hv1 hd1
      · have hdock1 : (wm.data w.imGuiData).isDocked = false := by simpa using hdock
        by_cases hover : (tileStartNewRow vp cur (scaledWinSize (wm.data w.imGuiData) e s)).currentY
            + (scaledWinSize (wm.data w.imGuiData) e s).y > vp.Pos.y + vp.Size.y
        · rw [tilePass_cons_overflow vp e s w ws cur wm hvis1 hdock1 hover] at hfit
          exact absurd hfit (by simp)
        · rw [tilePass_cons_place vp e s w ws cur wm hvis1 hdock1 hover] at hfit ⊢
          obtain ⟨hge, hxb⟩ := tileStartNewRow_x vp cur
            (scaledWinSize (wm.data w.imGuiData) e s) hcur
          have hsx : 0 ≤ (scaledWinSize (wm.data w.imGuiData) e s).x := by
            simp only [scaledWinSize, WindowData.preferredWindowSize, hp]
            exact mul_nonneg (hx w (List.mem_cons_self _ _)) hs
          intro w1 hw1 hv1 hd1
          rcases List.mem_cons.1 hw1 with h1 | h1
          · subst h1
            rw [tilePass_frame vp e s _ ws _ _ hnd.1, data_modifyData]
            have hlen : w1.imGuiData < wm._windowsData.length := by
              rw [hsame.1]; exact hvalid w1 (List.mem_cons_self _ _)
            simp only [hlen, and_self, if_true, tilePlace]
            exact ⟨trivial, le_of_not_lt hover, hxb⟩
          · apply tilePass_arranged vp e s hs wm0 ws _ _
              (SameButLayout_trans (SameButLayout_modifyData wm _ _ _) hsame) hnd.2 hvalid'
              _ hx' hfit w1 h1 hv1 hd1
            simp only [tileAdvance]
            linarith

theorem tileLoop_final_pass (vp : ImGuiViewport) (e : ℚ) (sorted : List Window)
    (wm0 : WindowManager) :
    ∀ (fuel : Nat) (s : ℚ) (wm1 wm' : WindowManager), 0 ≤ s → wm1.SameButLayout wm0 →
      tileLoop vp e sorted fuel s wm1 = some wm' →
      ∃ (s' : ℚ) (wm2 : WindowManager), 0 ≤ s' ∧ wm2.SameButLayout wm0 ∧
        (tilePass vp e s' sorted (tileStart vp) wm2).2 = true ∧
        (tilePass vp e s' sorted (tileStart vp) wm2).1 = wm'
  | 0, _, _, _, _, _, h => by simp [tileLoop] at h
  | fuel + 1, s, wm1, wm', hs, hsame, h => by
    unfold tileLoop at h
    split at h
    · rename_i hfit
      exact ⟨s, wm1, hs, hsame, hfit, by simpa using h⟩
    · exact tileLoop_final_pass vp e sorted wm0 fuel _ _ wm' (by positivity)
        (SameButLayout_trans (tilePass_SameButLayout vp e s sorted _ wm1) hsame) h

/-- C5 (as amended). Tile-and-scale fit: in every registry with pairwise
distinct names whose panels have positive preferred sizes, when
`TileAndScaleVisibleWindows` completes, the layout command of every visible,
undocked panel is set and satisfies `pos.y + size.y <= vp.Pos.y + vp.Size.y`;
it satisfies `pos.x + size.x <= vp.Pos.x + vp.Size.x` unless the panel starts a
row (`pos.x = 200 + vp.Pos.x`). -/
theorem TileAndScaleVisibleWindows_fit (wm : WindowManager) (vp : ImGuiViewport)
    (extraWindowHeight : ℚ) (fuel : Nat) (wm' : WindowManager)
    (hnames : (wm._windowsData.map (fun d => d.name)).Nodup)
    (hwin : wm.WindowsInv)
    (hsizes : ∀ d ∈ wm._windowsData,
      0 < d.preferredContentSize.x ∧ 0 < d.preferredContentSize.y)
    (hrun : wm.TileAndScaleVisibleWindows fuel vp extraWindowHeight = some wm') :
    ∀ w ∈ wm._windows, (wm.data w.imGuiData).isVisible = true →
      (wm.data w.imGuiData).isDocked = false →
      (wm'.data w.imGuiData).layoutUpdateOnNextFrame.hasData = true ∧
      (wm'.data w.imGuiData).layoutUpdateOnNextFrame.pos.y
        + (wm'.data w.imGuiData).layoutUpdateOnNextFrame.size.y ≤ vp.Pos.y + vp.Size.y ∧
      ((wm'.data w.imGuiData).layoutUpdateOnNextFrame.pos.x
          = WindowManager.windowListWidth + vp.Pos.x ∨
        (wm'.data w.imGuiData).layoutUpdateOnNextFrame.pos.x
          + (wm'.data w.imGuiData).layoutUpdateOnNextFrame.size.x ≤ vp.Pos.x + vp.Size.x) := by
  intro w hw hv hd
  obtain ⟨s', wm2, hs', hsame, hfit, hres⟩ := tileLoop_final_pass vp extraWindowHeight
    wm.windowsSortedBySize wm fuel 1 wm wm' (by norm_num) (SameButLayout_refl wm) hrun
  obtain ⟨y, hy, hyw⟩ := windowsSortedBySize_covers wm hnames hwin w hw
  have hx : ∀ w1 ∈ wm.windowsSortedBySize, 0 ≤ (wm.data w1.imGuiData).preferredContentSize.x := by
    intro w1 h1
    have hl := hwin w1 (windowsSortedBySize_mem wm w1 h1)
    rw [data_getElem wm _ hl]
    exact le_of_lt (hsizes _ (List.getElem_mem _)).1
  have h := tilePass_arranged vp extraWindowHeight s' hs' wm wm.windowsSortedBySize
    (tileStart vp) wm2 hsame (windowsSortedBySize_nodup wm)
    (fun w1 h1 => hwin w1 (windowsSortedBySize_mem wm w1 h1)) (le_refl _) hx hfit
    y hy (by rw [hyw]; exact hv) (by rw [hyw]; exact hd)
  rw [hres, hyw] at h
  exact h

/-- C5, witness: the three panels tiled in a 1280 by 720 viewport (three passes). -/
theorem TileAndScaleVisibleWindows_fit_witness :
    (threePanels._windowsData.map (fun d => d.name)).Nodup ∧
    threePanels.WindowsInv ∧
    (∀ d ∈ threePanels._windowsData,
      0 < d.preferredContentSize.x ∧ 0 < d.preferredContentSize.y) ∧
    threePanels.TileAndScaleVisibleWindows 3 ⟨⟨0, 0⟩, ⟨1280, 720⟩⟩ 20
      = some ((threePanels.TileAndScaleVisibleWindows 3 ⟨⟨0, 0⟩, ⟨1280, 720⟩⟩ 20).getD {}) ∧
    ∀ w ∈ threePanels._windows, (threePanels.data w.imGuiData).isVisible = true →
      (threePanels.data w.imGuiData).isDocked = false →
      ((((threePanels.TileAndScaleVisibleWindows 3 ⟨⟨0, 0⟩, ⟨1280, 720⟩⟩ 20).getD {}).data
        w.imGuiData).layoutUpdateOnNextFrame.hasData = true ∧
      (((threePanels.TileAndScaleVisibleWindows 3 ⟨⟨0, 0⟩, ⟨1280, 720⟩⟩ 20).getD {}).data
          w.imGuiData).layoutUpdateOnNextFrame.pos.y
        + (((threePanels.TileAndScaleVisibleWindows 3 ⟨⟨0, 0⟩, ⟨1280, 720⟩⟩ 20).getD {}).data
          w.imGuiData).layoutUpdateOnNextFrame.size.y
        ≤ (⟨⟨0, 0⟩, ⟨1280, 720⟩⟩ : ImGuiViewport).Pos.y
          + (⟨⟨0, 0⟩, ⟨1280, 720⟩⟩ : ImGuiViewport).Size.y ∧
      ((((threePanels.TileAndScaleVisibleWindows 3 ⟨⟨0, 0⟩, ⟨1280, 720⟩⟩ 20).getD {}).data
          w.imGuiData).layoutUpdateOnNextFrame.pos.x
          = WindowManager.windowListWidth + (⟨⟨0, 0⟩, ⟨1280, 720⟩⟩ : ImGuiViewport).Pos.x ∨
        (((threePanels.TileAndScaleVisibleWindows 3 ⟨⟨0, 0⟩, ⟨1280, 720⟩⟩ 20).getD {}).data
          w.imGuiData).layoutUpdateOnNextFrame.pos.x
          + (((threePanels.TileAndScaleVisibleWindows 3 ⟨⟨0, 0⟩, ⟨1280, 720⟩⟩ 20).getD {}).data
            w.imGuiData).layoutUpdateOnNextFrame.size.x
          ≤ (⟨⟨0, 0⟩, ⟨1280, 720⟩⟩ : ImGuiViewport).Pos.x
            + (⟨⟨0, 0⟩, ⟨1280, 720⟩⟩ : ImGuiViewport).Size.x)) :=
  ⟨by decide, by unfold WindowManager.WindowsInv; decide, by decide!, by decide!,
   TileAndScaleVisibleWindows_fit threePanels ⟨⟨0, 0⟩, ⟨1280, 720⟩⟩ 20 3 _
    (by decide) (by unfold WindowManager.WindowsInv; decide) (by decide!) (by decide!)⟩

/-- C5, counterexample: one visible, undocked panel of preferred size 2000 by
100 in a 1280 by 720 viewport at the origin. The first pass fits (the panel
starts the row and 120 is under 720), so the call completes, whatever the number
of passes allowed, with the command pos = (200, 0), size = (2000, 120), and
200 + 2000 is not at most 0 + 1280. -/
theorem TileAndScaleVisibleWindows_fit_counterexample :
    (widePanel.data 0).isVisible = true ∧ (widePanel.data 0).isDocked = false ∧
    (widePanel.data 0).window = some 0 ∧
    0 < (widePanel.data 0).preferredContentSize.x ∧
    0 < (widePanel.data 0).preferredContentSize.y ∧
    (∀ fuel, 1 ≤ fuel →
      (widePanel.TileAndScaleVisibleWindows fuel ⟨⟨0, 0⟩, ⟨1280, 720⟩⟩ 20).map
          (fun wm' => (wm'.data 0).layoutUpdateOnNextFrame)
        = some { hasData := true, pos := ⟨200, 0⟩, size := ⟨2000, 120⟩,
                 imGuiCond := ImGuiCond.Always }) ∧
    ¬ ((200 : ℚ) + 2000 ≤ (⟨⟨0, 0⟩, ⟨1280, 720⟩⟩ : ImGuiViewport).Pos.x
        + (⟨⟨0, 0⟩, ⟨1280, 720⟩⟩ : ImGuiViewport).Size.x) := by
  refine ⟨by decide, by decide, by decide, by decide!, by decide!, ?_, by norm_num⟩
  intro fuel hfuel
  have h1 : widePanel.TileAndScaleVisibleWindows 1 ⟨⟨0, 0⟩, ⟨1280, 720⟩⟩ 20
      = some ((widePanel.TileAndScaleVisibleWindows 1 ⟨⟨0, 0⟩, ⟨1280, 720⟩⟩ 20).getD {}) := by
    decide!
  have h2 := tileLoop_mono _ _ _ _ _ _ 1 h1 fuel hfuel
  have h3 : widePanel.TileAndScaleVisibleWindows fuel ⟨⟨0, 0⟩, ⟨1280, 720⟩⟩ 20
      = some ((widePanel.TileAndScaleVisibleWindows 1 ⟨⟨0, 0⟩, ⟨1280, 720⟩⟩ 20).getD {}) := h2
  rw [h3]
  decide!

theorem Closure.run_tasksToRun (H : String → ImGuiID) :
    ∀ (c : Closure) (ctx : Context), (c.run H ctx).tasksToRun = ctx.tasksToRun
  | Closure.setWindowProperties _ _ _ _ _, _ => rfl
  | Closure.setWindowPreRenderCallback _ _ _, _ => rfl
  | Closure.eraseWindowPreRenderCallback _ _, _ => rfl
  | Closure.addMenuBarCallback _ _, _ => rfl
  | Closure.clearAll, _ => rfl
  | Closure.skip, _ => rfl
  | Closure.seq a b, ctx => by
    simp only [Closure.run]
    rw [Closure.run_tasksToRun H b, Closure.run_tasksToRun H a]
  | Closure.callRunOnceInImGuiThread _, _ => rfl
  | Closure.callClearAll, _ => rfl
  | Closure.callSetWindowProperties _ _ _ _ _, _ => rfl
  | Closure.callSetPerFrameCallback _ _, _ => rfl
  | Closure.callErasePerFrameCallback _, _ => rfl
  | Closure.callSetWindowPreRenderCallback _ _ _, _ => rfl
  | Closure.callAddMenuBarCallback _ _, _ => rfl

theorem Closure.run_tasksForNextFrame (H : String → ImGuiID) :
    ∀ (c : Closure) (ctx : Context), c.submitsNothing = true →
      (c.run H ctx).tasksForNextFrame = ctx.tasksForNextFrame
  | Closure.setWindowProperties _ _ _ _ _, _, _ => rfl
  | Closure.setWindowPreRenderCallback _ _ _, _, _ => rfl
  | Closure.eraseWindowPreRenderCallback _ _, _, _ => rfl
  | Closure.addMenuBarCallback _ _, _, _ => rfl
  | Closure.clearAll, _, _ => rfl
  | Closure.skip, _, _ => rfl
  | Closure.seq a b, ctx, h => by
    simp only [Closure.submitsNothing, Bool.and_eq_true] at h
    simp only [Closure.run]
    rw [Closure.run_tasksForNextFrame H b _ h.2, Closure.run_tasksForNextFrame H a _ h.1]
  | Closure.callRunOnceInImGuiThread _, _, h => by simp [Closure.submitsNothing] at h
  | Closure.callClearAll, _, h => by simp [Closure.submitsNothing] at h
  | Closure.callSetWindowProperties _ _ _ _ _, _, h => by simp [Closure.submitsNothing] at h
  | Closure.callSetPerFrameCallback _ _, _, _ => rfl
  | Closure.callErasePerFrameCallback _, _, _ => rfl
  | Closure.callSetWindowPreRenderCallback _ _ _, _, h => by simp [Closure.submitsNothing] at h
  | Closure.callAddMenuBarCallback _ _, _, h => by simp [Closure.submitsNothing] at h

theorem Quietly_refl (s : RenderState) : s.Quietly s :=
  ⟨rfl, rfl, [], by simp, fun _ => rfl⟩

theorem Quietly_trans {a b c : RenderState} (h1 : a.Quietly b) (h2 : b.Quietly c) :
    a.Quietly c := by
  obtain ⟨t1, u1, e1, he1, q1⟩ := h1
  obtain ⟨t2, u2, e2, he2, q2⟩ := h2
  refine ⟨t2.trans t1, u2.trans u1, e1 ++ e2, by rw [he2, he1, List.append_assoc], ?_⟩
  intro hq
  rw [q2 (fun c hc => hq c (List.mem_append_right _ hc)),
    q1 (fun c hc => hq c (List.mem_append_left _ hc))]

theorem Quietly_withWindowManager (s : RenderState) (wm : WindowManager) :
    s.Quietly (s.withWindowManager wm) :=
  ⟨rfl, rfl, [], by simp [RenderState.withWindowManager], fun _ => rfl⟩

theorem Quietly_invoke (H : String → ImGuiID) (w : Option String) (s : RenderState)
    (it : String × Closure) : s.Quietly (RenderState.invoke H w s it) := by
  refine ⟨rfl, Closure.run_tasksToRun H it.2 s.ctx,
    [{ window := w, key := it.1, callback := it.2 }], rfl, ?_⟩
  intro hq
  exact Closure.run_tasksForNextFrame H it.2 s.ctx (hq _ (List.mem_singleton.2 rfl))

theorem Quietly_foldl {α : Type} (f : RenderState → α → RenderState)
    (hf : ∀ (s : RenderState) (a : α), s.Quietly (f s a)) :
    ∀ (l : List α) (s : RenderState), s.Quietly (l.foldl f s)
  | [], s => Quietly_refl s
  | a :: l, s => Quietly_trans (hf s a) (Quietly_foldl f hf l (f s a))

theorem Quietly_renderWindow (H : String → ImGuiID) (input : FrameInput) (s : RenderState)
    (p : Nat) : s.Quietly (renderWindow H input s p) := by
  unfold renderWindow
  split
  · simp only
    split
    · exact Quietly_trans (Quietly_withWindowManager s _)
        (Quietly_foldl _ (fun (s1 : RenderState) a => Quietly_invoke H _ s1 a) _ _)
    · exact Quietly_withWindowManager s _
  · exact Quietly_refl s

theorem Quietly_runMenuBarCallbacks (H : String → ImGuiID) (s : RenderState) :
    s.Quietly (runMenuBarCallbacks H s) :=
  Quietly_foldl _ (fun (s1 : RenderState) a => Quietly_invoke H none s1 a) _ _

theorem Quietly_menuCVLog (H : String → ImGuiID) (input : FrameInput) (s r : RenderState)
    (hclear : input.clearAllClicked = false) (h : menuCVLog H input s = some r) :
    s.Quietly r := by
  unfold menuCVLog at h
  simp only [hclear, Bool.false_eq_true, if_false, Option.map_eq_some'] at h
  obtain ⟨wm1, -, rfl⟩ := h
  exact Quietly_withWindowManager s _

theorem Quietly_renderMenuBar (H : String → ImGuiID) (input : FrameInput) (s r : RenderState)
    (hclear : ¬ (input.cvlogMenuOpen = true ∧ input.clearAllClicked = true))
    (h : renderMenuBar H input s = some r) : s.Quietly r := by
  unfold renderMenuBar at h
  simp only [Option.map_eq_some'] at h
  obtain ⟨s1, h1, rfl⟩ := h
  refine Quietly_trans ?_ (Quietly_runMenuBarCallbacks H s1)
  by_cases hm : input.cvlogMenuOpen = true
  · simp only [hm, if_true] at h1
    have hc : input.clearAllClicked = false := by
      cases hcc : input.clearAllClicked
      · rfl
      · exact absurd ⟨hm, hcc⟩ hclear
    exact Quietly_menuCVLog H input s s1 hc h1
  · have hm' : input.cvlogMenuOpen = false := by simpa using hm
    simp only [hm', Bool.false_eq_true, if_false, Option.some.injEq] at h1
    rw [← h1]
    exact Quietly_refl s

theorem Quietly_renderWindowList (H : String → ImGuiID) (input : FrameInput)
    (s r : RenderState)
    (hclear : ¬ (input.menuBarBegin = true ∧ input.cvlogMenuOpen = true ∧
      input.clearAllClicked = true))
    (h : renderWindowList H input s = some r) : s.Quietly r := by
  unfold renderWindowList at h
  simp only [Option.map_eq_some'] at h
  obtain ⟨s1, h1, rfl⟩ := h
  refine Quietly_trans ?_ (Quietly_withWindowManager s1 _)
  by_cases hm : input.menuBarBegin = true
  · simp only [hm, if_true] at h1
    exact Quietly_renderMenuBar H input s s1 (fun hc => hclear ⟨hm, hc⟩) h1
  · have hm' : input.menuBarBegin = false := by simpa using hm
    simp only [hm', Bool.false_eq_true, if_false, Option.some.injEq] at h1
    rw [← h1]
    exact Quietly_refl s

theorem Quietly_WindowManagerRender (H : String → ImGuiID) (input : FrameInput)
    (s r : RenderState)
    (hclear : ¬ (input.windowListBegin = true ∧ input.menuBarBegin = true ∧
      input.cvlogMenuOpen = true ∧ input.clearAllClicked = true))
    (h : WindowManagerRender H input s = some r) : s.Quietly r := by
  unfold WindowManagerRender at h
  simp only [Option.map_eq_some'] at h
  obtain ⟨s1, h1, rfl⟩ := h
  refine Quietly_trans ?_
    (Quietly_foldl _ (fun (s2 : RenderState) a => Quietly_renderWindow H input s2 a) _ _)
  by_cases hm : input.windowListBegin = true
  · simp only [hm, if_true] at h1
    exact Quietly_renderWindowList H input s s1 (fun hc => hclear ⟨hm, hc⟩) h1
  · have hm' : input.windowListBegin = false := by simpa using hm
    simp only [hm', Bool.false_eq_true, if_false, Option.some.injEq] at h1
    rw [← h1]
    exact Quietly_refl s

theorem runTasks_foldl_tasksForNextFrame (H : String → ImGuiID) :
    ∀ (l : List Closure) (ctx : Context), (∀ c ∈ l, c.submitsNothing = true) →
      (l.foldl (fun c task => task.run H c) ctx).tasksForNextFrame = ctx.tasksForNextFrame
  | [], _, _ => rfl
  | a :: l, ctx, h => by
    simp only [List.foldl_cons]
    rw [runTasks_foldl_tasksForNextFrame H l _ (fun c hc => h c (List.mem_cons_of_mem _ hc)),
      Closure.run_tasksForNextFrame H a ctx (h a (List.mem_cons_self _ _))]

/-- After the task loop the one-shot list is empty when the tasks submit nothing. -/
theorem renderTasks_tasksForNextFrame (H : String → ImGuiID) (ctx : Context)
    (h : ∀ c ∈ (renderTasks H ctx).tasksRun, c.submitsNothing = true) :
    (renderTasks H ctx).ctx.tasksForNextFrame = [] := by
  simp only [renderTasks, clearTasksToRun, runTasks] at h ⊢
  rw [runTasks_foldl_tasksForNextFrame H _ _ h]
  rfl

/-- When `WindowManager::Render` gets no "Clear All" and the closures of the
frame submit nothing, the one-shot list is empty after `Render`. -/
theorem Render_tasksForNextFrame_of_quiet (H : String → ImGuiID) (input : FrameInput)
    (ctx : Context) (r : RenderState) (hr : Render H input ctx = some r)
    (htasks : ∀ c ∈ r.tasksRun, c.submitsNothing = true)
    (hcallbacks : ∀ c ∈ r.callbacksRun, c.callback.submitsNothing = true)
    (hclear : ¬ (input.windowListBegin = true ∧ input.menuBarBegin = true ∧
      input.cvlogMenuOpen = true ∧ input.clearAllClicked = true)) :
    r.ctx.tasksForNextFrame = [] := by
  obtain ⟨ht, -, extra, he, hq⟩ := Quietly_WindowManagerRender H input _ r hclear hr
  have he' : r.callbacksRun = extra := by
    rw [he]; simp [renderTasks]
  rw [hq (by rw [← he']; exact hcallbacks)]
  exact renderTasks_tasksForNextFrame H ctx (by rw [← ht]; exact htasks)

/-- C3 (as amended). For every state of the task queue, when none of the
closures that `Render()` runs (one-shot closures, repeating callbacks, menu bar
and pre-render callbacks) submits a one-shot closure and the menu item "Clear
All" is not activated, the one-shot list `tasksForNextFrame` is empty after
`Render()` returns. -/
theorem Render_leaves_tasksForNextFrame_empty (ImHashStr : String → ImGuiID)
    (input : FrameInput) (ctx : Context) (r : RenderState)
    (hr : Render ImHashStr input ctx = some r)
    (htasks : ∀ c ∈ r.tasksRun, c.submitsNothing = true)
    (hcallbacks : ∀ c ∈ r.callbacksRun, c.callback.submitsNothing = true)
    (hclear : ¬ (input.windowListBegin = true ∧ input.menuBarBegin = true ∧
      input.cvlogMenuOpen = true ∧ input.clearAllClicked = true)) :
    r.ctx.tasksForNextFrame = [] :=
  Render_tasksForNextFrame_of_quiet ImHashStr input ctx r hr htasks hcallbacks hclear

/-- C3, witness: an idle frame on `quietContext`. -/
theorem Render_leaves_tasksForNextFrame_empty_witness :
    Render polyHash idleFrame quietContext
      = some ((Render polyHash idleFrame quietContext).getD { ctx := {} }) ∧
    (∀ c ∈ ((Render polyHash idleFrame quietContext).getD { ctx := {} }).tasksRun,
      c.submitsNothing = true) ∧
    (∀ c ∈ ((Render polyHash idleFrame quietContext).getD { ctx := {} }).callbacksRun,
      c.callback.submitsNothing = true) ∧
    ¬ (idleFrame.windowListBegin = true ∧ idleFrame.menuBarBegin = true ∧
      idleFrame.cvlogMenuOpen = true ∧ idleFrame.clearAllClicked = true) ∧
    ((Render polyHash idleFrame quietContext).getD { ctx := {} }).ctx.tasksForNextFrame = [] :=
  ⟨by decide!, by decide!, by decide!, by decide,
   Render_leaves_tasksForNextFrame_empty polyHash idleFrame quietContext _
    (by decide!) (by decide!) (by decide!) (by decide)⟩

/-- C3, counterexample: a queued closure that calls `RunOnceInImGuiThread`,
`ClearAll` or `SetWindowProperties` leaves what it submitted in the one-shot
list when `Render()` returns, and so does the menu item "Clear All" on an empty
queue. -/
theorem Render_leaves_tasksForNextFrame_empty_counterexample :
    (Render polyHash idleFrame
        { tasksForNextFrame := [Closure.callRunOnceInImGuiThread Closure.skip] }).map
      (fun r => r.ctx.tasksForNextFrame) = some [Closure.skip] ∧
    (Render polyHash idleFrame { tasksForNextFrame := [Closure.callClearAll] }).map
      (fun r => r.ctx.tasksForNextFrame) = some [Closure.clearAll] ∧
    (Render polyHash idleFrame
        { tasksForNextFrame :=
            [Closure.callSetWindowProperties "A" (some "Images") none 640 480] }).map
      (fun r => r.ctx.tasksForNextFrame)
      = some [Closure.setWindowProperties "A" "Images" "" 640 480] ∧
    (Render polyHash clearAllFrame {}).map (fun r => r.ctx.tasksForNextFrame)
      = some [Closure.clearAll] := by
  refine ⟨by decide, by decide, by decide, by decide⟩

theorem runTasks_foldl_tasksToRun (H : String → ImGuiID) :
    ∀ (l : List Closure) (ctx : Context),
      (l.foldl (fun c task => task.run H c) ctx).tasksToRun = ctx.tasksToRun
  | [], _ => rfl
  | a :: l, ctx => by
    simp only [List.foldl_cons]
    rw [runTasks_foldl_tasksToRun H l, Closure.run_tasksToRun]

theorem data_congr {wm1 wm2 : WindowManager} (h : wm1._windowsData = wm2._windowsData)
    (i : Nat) : wm1.data i = wm2.data i := by
  simp [WindowManager.data, h]

theorem FindOrCreateDataForWindow_lt (H : String → ImGuiID) (wm : WindowManager) (n : String) :
    (wm.FindOrCreateDataForWindow H n).2 < (wm.FindOrCreateDataForWindow H n).1._windowsData.length := by
  obtain ⟨d, hd, -⟩ := FindOrCreateDataForWindow_valid H wm n
  exact (List.getElem?_eq_some_iff.1 hd).1

/-- Looking a name up a second time finds the entry of the first time. -/
theorem FindOrCreateDataForWindow_idem (H : String → ImGuiID) (wm : WindowManager) (n : String) :
    (wm.FindOrCreateDataForWindow H n).1.FindOrCreateDataForWindow H n
      = wm.FindOrCreateDataForWindow H n := by
  cases hf : wm.findDataForWindow (H n) with
  | some p =>
    have e : wm.FindOrCreateDataForWindow H n = (wm, p) := by
      simp [WindowManager.FindOrCreateDataForWindow, hf]
    rw [e]
    exact e
  | none =>
    have e : wm.FindOrCreateDataForWindow H n
        = wm.createDataForWindow H n WindowData.defaultCategoryName := by
      simp [WindowManager.FindOrCreateDataForWindow, hf]
    rw [e]
    have hfind : (wm.createDataForWindow H n WindowData.defaultCategoryName).1.findDataForWindow
        (H n) = some wm._windowsData.length := by
      have hf' : List.findIdx? (fun data => data.id == H n) wm._windowsData = none := hf
      simp [WindowManager.findDataForWindow, List.findIdx?_append, hf', WindowData.new]
    simp only [WindowManager.FindOrCreateDataForWindow, hfind]
    rfl

theorem windowsData_SetWindowCategory (H : String → ImGuiID) (wm : WindowManager)
    (n c : String) :
    (wm.SetWindowCategory H n c).1._windowsData
      = (wm.FindOrCreateDataForWindow H n).1._windowsData.modify
          (fun d => { d with category := c }) (wm.FindOrCreateDataForWindow H n).2 := by
  obtain ⟨d, hd, -⟩ := FindOrCreateDataForWindow_valid H wm n
  unfold WindowManager.SetWindowCategory
  simp only
  split
  · rename_i hsame
    rw [data_eq_of_getElem? hd] at hsame
    apply List.ext_getElem?
    intro i
    rw [List.getElem?_modify]
    by_cases hi : (wm.FindOrCreateDataForWindow H n).2 = i
    · subst hi
      simp only [hd, if_true]
      subst hsame
      rfl
    · cases (wm.FindOrCreateDataForWindow H n).1._windowsData[i]? <;> simp [hi]
  · simp

theorem SetWindowCategory_snd (H : String → ImGuiID) (wm : WindowManager) (n c : String) :
    (wm.SetWindowCategory H n c).2 = (wm.FindOrCreateDataForWindow H n).2 := by
  unfold WindowManager.SetWindowCategory
  simp only
  split <;> rfl

/-- The entries after the body of the lambda of `SetWindowProperties`. -/
theorem windowsData_setWindowPropertiesBody (H : String → ImGuiID) (wm : WindowManager)
    (n : String) (cat help : Option String) (w h : Int) :
    (setWindowPropertiesBody H wm n (cat.getD "") (help.getD "") w h)._windowsData
      = (wm.FindOrCreateDataForWindow H n).1._windowsData.modify
          (fun d => d.withProperties cat help w h) (wm.FindOrCreateDataForWindow H n).2 := by
  have hlt := FindOrCreateDataForWindow_lt H wm n
  obtain ⟨d, hd, -⟩ := FindOrCreateDataForWindow_valid H wm n
  apply List.ext_getElem?
  intro i
  unfold setWindowPropertiesBody
  simp only
  have hcat : ∀ c : String, ((wm.FindOrCreateDataForWindow H n).1.SetWindowCategory H n c).1._windowsData
      = (wm.FindOrCreateDataForWindow H n).1._windowsData.modify
          (fun d => { d with category := c }) (wm.FindOrCreateDataForWindow H n).2 := by
    intro c
    rw [windowsData_SetWindowCategory, FindOrCreateDataForWindow_idem]
  by_cases hi : (wm.FindOrCreateDataForWindow H n).2 = i
  · subst hi
    split_ifs <;>
      simp [List.getElem?_modify, hcat, hd, WindowData.withProperties, *] <;>
      (cases cat <;> cases help <;> simp_all)
  · split_ifs <;>
      simp [List.getElem?_modify, hcat, hi]

theorem ite_modifyData_CatInv (wm : WindowManager) (b : Prop) [Decidable b] (p : Nat)
    (f : WindowData → WindowData) (hf : ∀ d, (f d).category = d.category) (h : wm.CatInv) :
    (if b then wm.modifyData p f else wm).CatInv := by
  split_ifs
  · exact modifyData_CatInv wm p f hf h
  · exact h

theorem setWindowPropertiesBody_CatInv (H : String → ImGuiID) (wm : WindowManager)
    (n c s : String) (w h : Int) (hinv : wm.CatInv) :
    (setWindowPropertiesBody H wm n c s w h).CatInv := by
  have h0 := FindOrCreateDataForWindow_CatInv H wm n hinv
  have h1 := SetWindowCategory_CatInv H (wm.FindOrCreateDataForWindow H n).1 n c h0
  unfold setWindowPropertiesBody
  simp only
  refine ite_modifyData_CatInv _ _ _ _ (fun _ => rfl) ?_
  refine ite_modifyData_CatInv _ _ _ _ (fun _ => rfl) ?_
  refine ite_modifyData_CatInv _ _ _ _ (fun _ => rfl) ?_
  split_ifs
  · exact h1
  · exact h0

theorem keys_setWindowPropertiesBody (H : String → ImGuiID) (wm : WindowManager)
    (n c s : String) (w h : Int) :
    (setWindowPropertiesBody H wm n c s w h).keys = (wm.FindOrCreateDataForWindow H n).1.keys := by
  have hdata := windowsData_setWindowPropertiesBody H wm n (some c) (some s) w h
  simp only [Option.getD_some] at hdata
  unfold WindowManager.keys
  rw [hdata]
  exact map_modify_of_preserved (fun d : WindowData => (d.name, d.id))
    (fun d => d.withProperties (some c) (some s) w h) (fun _ => rfl) _ _

/-- C10 (as amended). `SetWindowProperties` changes no registry and queues one
closure. When that closure runs on a registry in which no entry of another name
carries the id of `name`, the entry of `name` is the registered one, or is
created at the end with the defaults ("Default", "No help specified", 320x240,
visible, no window); it becomes that entry with the properties applied
(`WindowData.withProperties`); no other entry changes; and the category
invariant is kept, so the entry is once in the list of its category and in no
other list. -/
theorem SetWindowProperties_applies_when_run (ImHashStr : String → ImGuiID)
    (ctx now : Context) (name : String) (cat help : Option String) (w h : Int)
    (hname : ∀ d ∈ now.windowManager._windowsData, d.id = ImHashStr name → d.name = name) :
    (SetWindowProperties ctx (some name) cat help w h).windowManager = ctx.windowManager ∧
    (SetWindowProperties ctx (some name) cat help w h).tasksToRun = ctx.tasksToRun ∧
    (SetWindowProperties ctx (some name) cat help w h).tasksToRepeatForEachFrame
      = ctx.tasksToRepeatForEachFrame ∧
    (SetWindowProperties ctx (some name) cat help w h).tasksForNextFrame
      = ctx.tasksForNextFrame
          ++ [Closure.setWindowProperties name (cat.getD "") (help.getD "") w h] ∧
    ∃ (p : Nat) (d0 : WindowData),
      ((now.windowManager.findDataForWindow (ImHashStr name) = some p ∧
          now.windowManager._windowsData[p]? = some d0) ∨
        (now.windowManager.findDataForWindow (ImHashStr name) = none ∧
          p = now.windowManager._windowsData.length ∧
          d0 = { name := name, id := ImHashStr name, isVisible := true, isDocked := false,
                 window := none, category := "Default", preferredContentSize := ⟨320, 240⟩,
                 helpString := "No help specified", layoutUpdateOnNextFrame := {},
                 preRenderCallbacks := [] })) ∧
      d0.name = name ∧
      ((Closure.setWindowProperties name (cat.getD "") (help.getD "") w h).run ImHashStr
          now).windowManager._windowsData[p]? = some (d0.withProperties cat help w h) ∧
      (∀ i : Nat, i ≠ p →
        ((Closure.setWindowProperties name (cat.getD "") (help.getD "") w h).run ImHashStr
          now).windowManager._windowsData[i]? = now.windowManager._windowsData[i]?) ∧
      (now.windowManager.CatInv →
        ((Closure.setWindowProperties name (cat.getD "") (help.getD "") w h).run ImHashStr
          now).windowManager.CatInv ∧
        ∃ (c : Nat) (category : WindowCategory),
          ((Closure.setWindowProperties name (cat.getD "") (help.getD "") w h).run ImHashStr
            now).windowManager._windowsPerCategory[c]? = some category ∧
          category.windows.count p = 1 ∧
          category.name = (d0.withProperties cat help w h).category ∧
          ∀ (c1 : Nat) (category1 : WindowCategory),
            ((Closure.setWindowProperties name (cat.getD "") (help.getD "") w h).run ImHashStr
              now).windowManager._windowsPerCategory[c1]? = some category1 → c1 ≠ c →
            p ∉ category1.windows) := by
  refine ⟨rfl, rfl, rfl, rfl, ?_⟩
  have hrun : ((Closure.setWindowProperties name (cat.getD "") (help.getD "") w h).run ImHashStr
      now).windowManager
      = setWindowPropertiesBody ImHashStr now.windowManager name (cat.getD "") (help.getD "")
          w h := rfl
  rw [hrun]
  have hdata := windowsData_setWindowPropertiesBody ImHashStr now.windowManager name cat help w h
  have hcat : now.windowManager.CatInv → ∀ (p : Nat) (d : WindowData),
      (setWindowPropertiesBody ImHashStr now.windowManager name (cat.getD "") (help.getD "")
        w h)._windowsData[p]? = some d →
      (setWindowPropertiesBody ImHashStr now.windowManager name (cat.getD "") (help.getD "")
          w h).CatInv ∧
        ∃ (c : Nat) (category : WindowCategory),
          (setWindowPropertiesBody ImHashStr now.windowManager name (cat.getD "") (help.getD "")
            w h)._windowsPerCategory[c]? = some category ∧
          category.windows.count p = 1 ∧ category.name = d.category ∧
          ∀ (c1 : Nat) (category1 : WindowCategory),
            (setWindowPropertiesBody ImHashStr now.windowManager name (cat.getD "")
              (help.getD "") w h)._windowsPerCategory[c1]? = some category1 → c1 ≠ c →
            p ∉ category1.windows := by
    intro hinv p d hd
    have hinv1 := setWindowPropertiesBody_CatInv ImHashStr now.windowManager name (cat.getD "")
      (help.getD "") w h hinv
    exact ⟨hinv1, CatInv_entry hinv1 hd⟩
  cases hf : now.windowManager.findDataForWindow (ImHashStr name) with
  | some p =>
    have e : now.windowManager.FindOrCreateDataForWindow ImHashStr name
        = (now.windowManager, p) := by
      simp [WindowManager.FindOrCreateDataForWindow, hf]
    rw [e] at hdata
    obtain ⟨hlt, hp, -⟩ := List.findIdx?_eq_some_iff_getElem.1 hf
    have hget : now.windowManager._windowsData[p]? = some now.windowManager._windowsData[p] := by
      simp [hlt]
    have hafter : (setWindowPropertiesBody ImHashStr now.windowManager name (cat.getD "")
        (help.getD "") w h)._windowsData[p]?
        = some (now.windowManager._windowsData[p].withProperties cat help w h) := by
      rw [hdata, List.getElem?_modify]
      simp [hget]
    refine ⟨p, now.windowManager._windowsData[p], Or.inl ⟨rfl, hget⟩, ?_, hafter, ?_, ?_⟩
    · exact hname _ (List.getElem_mem _) (by simpa using hp)
    · intro i hi
      rw [hdata, List.getElem?_modify]
      have hne : p ≠ i := fun hh => hi hh.symm
      simp [hne]
    · intro hinv
      exact hcat hinv p _ hafter
  | none =>
    have e2 : (now.windowManager.FindOrCreateDataForWindow ImHashStr name).2
        = now.windowManager._windowsData.length := by
      simp [WindowManager.FindOrCreateDataForWindow, hf, WindowManager.createDataForWindow]
    have e1 : (now.windowManager.FindOrCreateDataForWindow ImHashStr name).1._windowsData
        = now.windowManager._windowsData ++ [WindowData.new ImHashStr name] := by
      simp [WindowManager.FindOrCreateDataForWindow, hf, WindowManager.createDataForWindow,
        WindowData.new, WindowData.defaultCategoryName]
    rw [e1, e2] at hdata
    have hafter : (setWindowPropertiesBody ImHashStr now.windowManager name (cat.getD "")
        (help.getD "") w h)._windowsData[now.windowManager._windowsData.length]?
        = some ((WindowData.new ImHashStr name).withProperties cat help w h) := by
      rw [hdata, List.getElem?_modify]
      simp
    refine ⟨now.windowManager._windowsData.length, WindowData.new ImHashStr name,
      Or.inr ⟨rfl, rfl, rfl⟩, rfl, hafter, ?_, ?_⟩
    · intro i hi
      rw [hdata, List.getElem?_modify]
      have hne : now.windowManager._windowsData.length ≠ i := fun hh => hi hh.symm
      simp only [hne, if_false]
      rcases Nat.lt_or_gt_of_ne hi with hlt | hgt
      · simp [List.getElem?_append_left hlt]
      · rw [List.getElem?_eq_none (by simp; omega), List.getElem?_eq_none (by omega)]
        rfl
    · intro hinv
      exact hcat hinv _ _ hafter

/-- C10, witness: properties ("Images", "help", 640, 480) for `A` on an empty
context; the `Render` of an idle frame leaves the one entry `A` with category
Images, preferred content size (640, 480), visible, no window, in the list of
the category `Images`. -/
theorem SetWindowProperties_applies_when_run_witness :
    (∀ d ∈ ({} : Context).windowManager._windowsData, d.id = polyHash "A" → d.name = "A") ∧
    (SetWindowProperties {} (some "A") (some "Images") (some "help") 640 480).tasksForNextFrame
      = [Closure.setWindowProperties "A" "Images" "help" 640 480] ∧
    (Render polyHash idleFrame
        (SetWindowProperties {} (some "A") (some "Images") (some "help") 640 480)).map
      (fun r => (r.ctx.windowManager._windowsData, r.ctx.windowManager._windowsPerCategory))
      = some ([{ name := "A", id := 65, isVisible := true, window := none, category := "Images",
                 preferredContentSize := ⟨640, 480⟩, helpString := "help" }],
              [{ name := "Default", windows := [] }, { name := "Images", windows := [0] }]) :=
  ⟨by simp,
   (SetWindowProperties_applies_when_run polyHash {} {} "A" (some "Images") (some "help") 640 480
      (by simp)).2.2.2.1,
   by decide!⟩

/-- C10, counterexample: the registry holds `Aa` alone and properties are set
for `BB`, whose id under the 32-bit hash `polyHash` is that of `Aa`. After the
`Render` that runs the queued closure there is still no entry named `BB`: the
entry of `Aa` received the category, help string and size. And no hash into 32
bits makes the claim true, since each one sends two different names to one
id. -/
theorem SetWindowProperties_applies_when_run_counterexample :
    (contextWithAa.windowManager._windowsData = [{ name := "Aa", id := 2112 }] ∧
      (Render polyHash idleFrame
          (SetWindowProperties contextWithAa (some "BB") (some "Images") (some "help") 640
            480)).map
        (fun r => r.ctx.windowManager._windowsData)
        = some [{ name := "Aa", id := 2112, isVisible := true, window := none,
                  category := "Images", preferredContentSize := ⟨640, 480⟩,
                  helpString := "help" }]) ∧
    ¬ ∃ ImHashStr : String → ImGuiID, (∀ s, ImHashStr s < 4294967296) ∧
      ∀ (ops : List RegistryOp) (name : String) (cat help : Option String) (w h : Int),
        ∃ d ∈ ((Closure.setWindowProperties name (cat.getD "") (help.getD "") w h).run ImHashStr
            { windowManager := registryAfter ImHashStr ops }).windowManager._windowsData,
          d.name = name := by
  refine ⟨⟨by decide, by decide!⟩, ?_⟩
  rintro ⟨H, hb, hall⟩
  obtain ⟨s1, s2, hne, he⟩ := exists_hash_collision H hb
  obtain ⟨d, hd, hdn⟩ := hall [RegistryOp.FindOrCreateDataForWindow s1] s2 none none (-1) (-1)
  have hmem : (d.name, d.id) ∈ (setWindowPropertiesBody H
      (registryAfter H [RegistryOp.FindOrCreateDataForWindow s1]) s2 "" "" (-1) (-1)).keys :=
    List.mem_map.2 ⟨d, hd, rfl⟩
  rw [keys_setWindowPropertiesBody] at hmem
  simp [registryAfter, RegistryOp.apply, WindowManager.FindOrCreateDataForWindow,
    WindowManager.findDataForWindow, WindowManager.createDataForWindow,
    WindowManager.findOrCreateCategory, WindowData.new, WindowManager.keys, he] at hmem
  exact hne (hmem.1.symm.trans hdn)

/-- C19. What the code does: `setPreferredWindowSize(w)` stores `w` with the
titlebar extra `e` added to the height, not taken off it, so that
`preferredWindowSize()` returns `w + (0, 2e)`; it returns `w` only when `e = 0`.
With `w = (300, 200)` and `e = 20` the stored content size is `(300, 220)` and
the preferred window size `(300, 240)`. -/
theorem setPreferredWindowSize_adds_titlebar (d : WindowData) (w : ImVec2) (e : ℚ) :
    (d.setPreferredWindowSize w e).preferredContentSize = ⟨w.x, w.y + e⟩ ∧
    (d.setPreferredWindowSize w e).preferredWindowSize e = ⟨w.x, w.y + 2 * e⟩ ∧
    ((d.setPreferredWindowSize w e).preferredWindowSize e = w ↔ e = 0) ∧
    (d.setPreferredWindowSize ⟨300, 200⟩ 20).preferredContentSize = ⟨300, 220⟩ ∧
    (d.setPreferredWindowSize ⟨300, 200⟩ 20).preferredWindowSize 20 = ⟨300, 240⟩ := by
  refine ⟨rfl, ?_, ?_, ?_, ?_⟩
  · simp only [WindowData.setPreferredWindowSize, WindowData.preferredWindowSize]
    congr 1
    ring
  · simp only [WindowData.setPreferredWindowSize, WindowData.preferredWindowSize]
    cases w with
    | mk x y =>
      simp only [ImVec2.mk.injEq, true_and]
      constructor
      · intro h
        linarith
      · intro h
        rw [h]
        ring
  · simp only [WindowData.setPreferredWindowSize, ImVec2.mk.injEq, true_and]
    norm_num
  · simp only [WindowData.setPreferredWindowSize, WindowData.preferredWindowSize,
      ImVec2.mk.injEq, true_and]
    norm_num

/-- C20. Aspect-preserving fit: for an image of `rows > 0` by `cols > 0` and a
content region `(w, h)` with `w > 0`, `h > 0`, the size drawn is
`(w, w * rows / cols)` when `rows / cols <= h / w` and `(h * cols / rows, h)`
otherwise; it has the aspect ratio of the image, fits inside `(w, h)`, and
equals `w` in width or `h` in height. -/
theorem imageSize_aspect_fit (rows cols : Int) (wSize : ImVec2)
    (hrows : 0 < rows) (hcols : 0 < cols) (hw : 0 < wSize.x) (hh : 0 < wSize.y) :
    ((rows : ℚ) / cols ≤ wSize.y / wSize.x →
      ImageWindow.imageSize rows cols wSize = ⟨wSize.x, wSize.x * rows / cols⟩) ∧
    (¬ ((rows : ℚ) / cols ≤ wSize.y / wSize.x) →
      ImageWindow.imageSize rows cols wSize = ⟨wSize.y * cols / rows, wSize.y⟩) ∧
    (ImageWindow.imageSize rows cols wSize).y / (ImageWindow.imageSize rows cols wSize).x
      = (rows : ℚ) / cols ∧
    0 < (ImageWindow.imageSize rows cols wSize).x ∧
    (ImageWindow.imageSize rows cols wSize).x ≤ wSize.x ∧
    (ImageWindow.imageSize rows cols wSize).y ≤ wSize.y ∧
    ((ImageWindow.imageSize rows cols wSize).x = wSize.x ∨
      (ImageWindow.imageSize rows cols wSize).y = wSize.y) := by
  have hr : (0 : ℚ) < rows := by exact_mod_cast hrows
  have hc : (0 : ℚ) < cols := by exact_mod_cast hcols
  have hrc : (0 : ℚ) < (rows : ℚ) / cols := div_pos hr hc
  cases wSize with
  | mk w h =>
    simp only at hw hh ⊢
    unfold ImageWindow.imageSize
    simp only
    by_cases hlt : (rows : ℚ) / cols < h / w
    · simp only [if_pos hlt]
      refine ⟨fun _ => ?_, fun hn => absurd (le_of_lt hlt) hn, ?_, hw, le_refl _, ?_, by simp⟩
      · rw [mul_div_assoc]
      · field_simp
        ring
      · have := mul_lt_mul_of_pos_left hlt hw
        rw [mul_div_cancel₀ _ (ne_of_gt hw)] at this
        exact le_of_lt this
    · simp only [if_neg hlt]
      have hge : h / w ≤ (rows : ℚ) / cols := not_lt.1 hlt
      refine ⟨fun hle => ?_, fun _ => ?_, ?_, by positivity, ?_, le_refl _, by simp⟩
      · have heq : (rows : ℚ) / cols = h / w := le_antisymm hle hge
        simp only [ImVec2.mk.injEq]
        constructor
        · rw [heq]
          field_simp
        · rw [mul_div_assoc, heq]
          field_simp
      · simp only [ImVec2.mk.injEq, and_true]
        field_simp
      · field_simp
        ring
      · rw [div_le_iff₀ hrc]
        have := (div_le_iff₀ hw).1 hge
        linarith [this]

/-- C20, witness: an image of 480 rows by 640 columns in a region of 400 by
400 is drawn 400 by 300. -/
theorem imageSize_aspect_fit_witness :
    (0 : Int) < 480 ∧ (0 : Int) < 640 ∧
    ImageWindow.imageSize 480 640 ⟨400, 400⟩ = ⟨400, 300⟩ ∧
    (ImageWindow.imageSize 480 640 ⟨400, 400⟩).y / (ImageWindow.imageSize 480 640 ⟨400, 400⟩).x
      = ((480 : Int) : ℚ) / ((640 : Int) : ℚ) :=
  ⟨by decide, by decide, by decide!,
   (imageSize_aspect_fit 480 640 ⟨400, 400⟩ (by decide) (by decide) (by norm_num)
      (by norm_num)).2.2.1⟩

theorem foldl_UpdateImage_visible (bs : List Mat) :
    ∀ (w : ImageWindow) (hne : bs ≠ []),
      bs.foldl (fun p b => p.UpdateImage true b) w = { w with image := bs.getLast hne } := by
  induction bs with
  | nil => intro w hne; exact absurd rfl hne
  | cons b bs ih =>
    intro w hne
    cases bs with
    | nil => simp [ImageWindow.UpdateImage]
    | cons c cs =>
      rw [List.foldl_cons, ih _ (List.cons_ne_nil c cs)]
      simp [ImageWindow.UpdateImage, List.getLast_cons]

/-- C13. For every image panel that is visible and every sequence of one or more
`UpdateImage` calls with non-empty bitmaps followed by one `Render` of the
panel, the pending bitmap is the last one supplied, and the address recorded as
uploaded to the texture after the render is the data address of that last
bitmap; it is handed to the texture upload in that render unless it was the
address recorded before. -/
theorem Render_shows_last_image (w : ImageWindow) (bs : List Mat) (input : ImageFrameInput)
    (hne : bs ≠ []) (hdata : ∀ b ∈ bs, b.data ≠ 0) :
    (bs.foldl (fun p b => p.UpdateImage true b) w).image = bs.getLast hne ∧
    ((bs.foldl (fun p b => p.UpdateImage true b) w).Render input).1._imageDataUploadedToTexture
      = (bs.getLast hne).data ∧
    ((bs.foldl (fun p b => p.UpdateImage true b) w).Render input).1.image = bs.getLast hne ∧
    ((bs.getLast hne).data ≠ w._imageDataUploadedToTexture →
      (bs.getLast hne).type ≠ MatType.other →
      ((bs.foldl (fun p b => p.UpdateImage true b) w).Render input).2.uploaded
        = some (bs.getLast hne).data) := by
  have hlast := hdata _ (List.getLast_mem hne)
  rw [foldl_UpdateImage_visible bs w hne]
  refine ⟨rfl, ?_, ?_, ?_⟩
  · simp only [ImageWindow.Render, hlast, if_false]
    by_cases ht : w._textureID = 0 <;> by_cases hu : (bs.getLast hne).data = w._imageDataUploadedToTexture <;>
      simp [ht, hu]
  · simp only [ImageWindow.Render, hlast, if_false]
    by_cases ht : w._textureID = 0 <;> by_cases hu : (bs.getLast hne).data = w._imageDataUploadedToTexture <;>
      simp [ht, hu]
  · intro hu hty
    simp only [ImageWindow.Render, hlast, if_false]
    by_cases ht : w._textureID = 0 <;> simp [ht, hu, hty]

/-- C13, witness: two bitmaps at the addresses 5 and 7 given to a new visible
panel; after the render the address recorded is 7. -/
theorem Render_shows_last_image_witness :
    twoBitmaps ≠ [] ∧
    (∀ b ∈ twoBitmaps, b.data ≠ 0) ∧
    (twoBitmaps.foldl (fun (p : ImageWindow) b => p.UpdateImage true b) {}).Render {}
      = ({ image := { data := 7, rows := 4, cols := 8 }, _textureID := 1,
           _imageDataUploadedToTexture := 7 },
         { uploaded := some 7,
           drawn := some (ImageWindow.imageSize 4 8 ⟨0, 0⟩) }) ∧
    ((twoBitmaps.foldl (fun (p : ImageWindow) b => p.UpdateImage true b) {}).Render
        {}).1._imageDataUploadedToTexture
      = (twoBitmaps.getLast (by decide)).data :=
  ⟨by decide, by decide, by decide!,
   (Render_shows_last_image {} twoBitmaps {} (by decide) (by decide)).2.1⟩

/-- C14. What the code does: `Clear()` goes through `UpdateImage`, whose
visibility gate drops the call on a panel that is not visible. On a visible
panel the pending bitmap becomes the empty one and the next `Render` draws
nothing; on a hidden panel the panel is left as it was, so a hidden panel with
the pending bitmap at address 7 still holds it after `Clear()` and the next
`Render` draws it. -/
theorem ImageWindow_Clear_dropped_when_hidden (w : ImageWindow) (input : ImageFrameInput) :
    (w.Clear true).image = {} ∧
    ((w.Clear true).Render input).2 = {} ∧
    w.Clear false = w ∧
    (ImageWindow.Clear { image := { data := 7, rows := 4, cols := 8 } } false).image
      = { data := 7, rows := 4, cols := 8 } ∧
    ((ImageWindow.Clear { image := { data := 7, rows := 4, cols := 8 } } false).Render
        { contentRegionAvail := ⟨400, 400⟩ }).2
      = { uploaded := some 7, drawn := some ⟨400, 200⟩ } := by
  refine ⟨rfl, rfl, rfl, rfl, ?_⟩
  decide!

theorem hexDigitValue_lt (c : Char) (v : Nat) (h : hexDigitValue c = some v) : v < 16 := by
  unfold hexDigitValue at h
  split_ifs at h <;> simp at h <;> omega

theorem hexDigit_toNat (c : Char) (h : (hexDigitValue c).isSome) :
    (48 ≤ c.toNat ∧ c.toNat ≤ 57) ∨ (97 ≤ c.toNat ∧ c.toNat ≤ 102) ∨
      (65 ≤ c.toNat ∧ c.toNat ≤ 70) := by
  unfold hexDigitValue at h
  split_ifs at h with h1 h2 h3
  · exact Or.inl h1
  · exact Or.inr (Or.inl h2)
  · exact Or.inr (Or.inr h3)
  · simp at h

theorem hexDigit_not_space (c : Char) (h : (hexDigitValue c).isSome) : isspace c = false := by
  have ht := hexDigit_toNat c h
  by_contra hs
  simp only [isspace, Bool.not_eq_false, Bool.or_eq_true, decide_eq_true_eq] at hs
  rcases hs with ((((rfl | rfl) | rfl) | rfl) | rfl) | rfl <;> revert ht <;> decide

theorem hexDigit_not_sign (c : Char) (h : (hexDigitValue c).isSome) : ¬ (c = '+' ∨ c = '-') := by
  have ht := hexDigit_toNat c h
  rintro (rfl | rfl) <;> revert ht <;> decide

theorem scanHex2_two_digits (a b : Char) (rest : List Char)
    (ha : (hexDigitValue a).isSome) (hb : (hexDigitValue b).isSome) :
    scanHex2 (a :: b :: rest) = some (((hexPairValue a b : Nat) : Int), rest) := by
  obtain ⟨va, hva⟩ := Option.isSome_iff_exists.1 ha
  obtain ⟨vb, hvb⟩ := Option.isSome_iff_exists.1 hb
  unfold scanHex2
  rw [List.dropWhile_cons_of_neg (by simp [hexDigit_not_space a ha])]
  simp only [if_neg (hexDigit_not_sign a ha), hva, hvb, hexPairValue, Option.getD_some]
  congr 2
  ring_nf

theorem scanHex2_one_digit (a : Char) (rest : List Char) (ha : (hexDigitValue a).isSome)
    (hrest : ∀ t ∈ rest.head?, plainChar t = true) :
    scanHex2 (a :: rest) = some ((((hexDigitValue a).getD 0 : Nat) : Int), rest) := by
  obtain ⟨va, hva⟩ := Option.isSome_iff_exists.1 ha
  unfold scanHex2
  rw [List.dropWhile_cons_of_neg (by simp [hexDigit_not_space a ha])]
  simp only [if_neg (hexDigit_not_sign a ha), hva, Option.getD_some]
  cases rest with
  | nil => rfl
  | cons d ds =>
    have hd := hrest d (by simp)
    simp only [plainChar, Bool.and_eq_true, Option.isNone_iff_eq_none, Bool.not_eq_true',
      decide_eq_true_eq, ne_eq, decide_not, Bool.not_eq_true', decide_eq_false_iff_not] at hd
    obtain ⟨⟨⟨⟨⟨h1, -⟩, -⟩, -⟩, h5⟩, h6⟩ := hd
    simp [h1, h5, h6]

theorem scanHex2_plain (rest : List Char) (hrest : ∀ t ∈ rest.head?, plainChar t = true) :
    scanHex2 rest = none := by
  cases rest with
  | nil => rfl
  | cons d ds =>
    have hd := hrest d (by simp)
    simp only [plainChar, Bool.and_eq_true, Option.isNone_iff_eq_none, Bool.not_eq_true',
      decide_eq_true_eq, ne_eq, decide_not, Bool.not_eq_true', decide_eq_false_iff_not] at hd
    obtain ⟨⟨⟨⟨⟨h1, h2⟩, h3⟩, h4⟩, -⟩, -⟩ := hd
    unfold scanHex2
    rw [List.dropWhile_cons_of_neg (by simp [h2])]
    simp [h1, h3, h4]

theorem afterLiteral_hash (l : List Char) : afterLiteral ['#'] ('#' :: l) = some l := by
  simp [afterLiteral]

theorem sscanfStyle_hash (l : List Char) :
    sscanfStyle (String.mk ('#' :: l)) =
      (scanHex2 l).bind (fun p1 => (scanHex2 p1.2).bind (fun p2 => (scanHex2 p2.2).bind
        (fun p3 => (scanHex2 p3.2).map (fun p4 => (p1.1, p2.1, p3.1, p4.1))))) := by
  unfold sscanfStyle
  have e : afterLiteral "#".data (String.mk ('#' :: l)).data = some l := afterLiteral_hash l
  rw [e]
  simp only
  cases h1 : scanHex2 l with
  | none => rfl
  | some p1 =>
    obtain ⟨v1, r1⟩ := p1
    simp only [Option.some_bind]
    cases h2 : scanHex2 r1 with
    | none => rfl
    | some p2 =>
      obtain ⟨v2, r2⟩ := p2
      simp only [Option.some_bind]
      cases h3 : scanHex2 r2 with
      | none => rfl
      | some p3 =>
        obtain ⟨v3, r3⟩ := p3
        simp only [Option.some_bind]
        cases h4 : scanHex2 r3 with
        | none => rfl
        | some p4 =>
          obtain ⟨v4, r4⟩ := p4
          rfl

/-- Eight hexadecimal digits after `#` are read as four pairs, whatever follows. -/
theorem sscanfStyle_eight_digits (r1 r2 g1 g2 b1 b2 a1 a2 : Char) (rest : List Char)
    (h : ∀ c ∈ [r1, r2, g1, g2, b1, b2, a1, a2], (hexDigitValue c).isSome) :
    sscanfStyle (String.mk ('#' :: r1 :: r2 :: g1 :: g2 :: b1 :: b2 :: a1 :: a2 :: rest))
      = some (((hexPairValue r1 r2 : Nat) : Int), ((hexPairValue g1 g2 : Nat) : Int),
          ((hexPairValue b1 b2 : Nat) : Int), ((hexPairValue a1 a2 : Nat) : Int)) := by
  rw [sscanfStyle_hash, scanHex2_two_digits r1 r2 _ (h _ (by simp)) (h _ (by simp))]
  simp only [Option.some_bind]
  rw [scanHex2_two_digits g1 g2 _ (h _ (by simp)) (h _ (by simp))]
  simp only [Option.some_bind]
  rw [scanHex2_two_digits b1 b2 _ (h _ (by simp)) (h _ (by simp))]
  simp only [Option.some_bind]
  rw [scanHex2_two_digits a1 a2 _ (h _ (by simp)) (h _ (by simp))]
  rfl

/-- At most six hexadecimal digits after `#`, followed by the end of the string
or by a plain character, do not make four items. -/
theorem sscanfStyle_short (ds tail : List Char) (hhex : ∀ c ∈ ds, (hexDigitValue c).isSome)
    (hlen : ds.length ≤ 6) (htail : ∀ t ∈ tail.head?, plainChar t = true) :
    sscanfStyle (String.mk ('#' :: (ds ++ tail))) = none := by
  rw [sscanfStyle_hash]
  have two : ∀ (a b : Char) (l : List Char), a ∈ ds → b ∈ ds →
      scanHex2 (a :: b :: l) = some (((hexPairValue a b : Nat) : Int), l) :=
    fun a b l ha hb => scanHex2_two_digits a b l (hhex a ha) (hhex b hb)
  have one : ∀ (a : Char), a ∈ ds →
      scanHex2 (a :: tail) = some ((((hexDigitValue a).getD 0 : Nat) : Int), tail) :=
    fun a ha => scanHex2_one_digit a tail (hhex a ha) htail
  have zero := scanHex2_plain tail htail
  match ds, hlen, two, one with
  | [], _, _, _ => simp [zero]
  | [a], _, _, one => simp [one, zero]
  | [a, b], _, two, _ => simp [two, zero]
  | [a, b, c], _, two, one => simp [two, one, zero]
  | [a, b, c, d], _, two, _ => simp [two, zero]
  | [a, b, c, d, e], _, two, one => simp [two, one, zero]
  | [a, b, c, d, e, f], _, two, _ => simp [two, zero]
  | _ :: _ :: _ :: _ :: _ :: _ :: _ :: _, hlen, _, _ => simp at hlen

theorem hexPairValue_le (a b : Char) : hexPairValue a b ≤ 255 := by
  unfold hexPairValue
  have ha : (hexDigitValue a).getD 0 < 16 := by
    cases h : hexDigitValue a with
    | none => simp
    | some v => simpa using hexDigitValue_lt a v h
  have hb : (hexDigitValue b).getD 0 < 16 := by
    cases h : hexDigitValue b with
    | none => simp
    | some v => simpa using hexDigitValue_lt b v h
  omega

theorem parseAndFillStyle_eight_digits (r1 r2 g1 g2 b1 b2 a1 a2 : Char) (rest : List Char)
    (group : GroupData)
    (h : ∀ c ∈ [r1, r2, g1, g2, b1, b2, a1, a2], (hexDigitValue c).isSome) :
    parseAndFillStyle (String.mk ('#' :: r1 :: r2 :: g1 :: g2 :: b1 :: b2 :: a1 :: a2 :: rest))
        group
      = Asserted.ok
          { group with
            lineColor := ⟨(hexPairValue r1 r2 : ℚ), (hexPairValue g1 g2 : ℚ),
              (hexPairValue b1 b2 : ℚ), (hexPairValue a1 a2 : ℚ)⟩
            hasCustomLineColor := true } := by
  unfold parseAndFillStyle
  rw [sscanfStyle_eight_digits r1 r2 g1 g2 b1 b2 a1 a2 rest h]
  simp

theorem GroupMap.get_update (m : GroupMap) (key : ImGuiID) (f : GroupData → GroupData)
    (k : ImGuiID) :
    (m.update key f).get k = if key = k then f (m.get key) else m.get k := by
  induction m with
  | nil =>
    by_cases h : key = k
    · simp [GroupMap.update, GroupMap.get, h]
    · simp [GroupMap.update, GroupMap.get, h]
  | cons p m ih =>
    obtain ⟨k0, v⟩ := p
    by_cases h0 : k0 = key
    · by_cases h : key = k
      · simp [GroupMap.update, GroupMap.get, h0, h]
      · have h1 : ¬ key = k := h
        simp only [GroupMap.update, h0, if_true, GroupMap.get, h, if_false]
    · by_cases h : key = k
      · subst h
        simp only [GroupMap.update, h0, if_false, GroupMap.get, if_true]
        rw [ih]
        simp
      · by_cases h2 : k0 = k
        · subst h2
          simp [GroupMap.update, GroupMap.get, h0, h]
        · simp only [GroupMap.update, h0, if_false, GroupMap.get, h2, h]
          rw [ih]
          simp [h]

/-- C17. Style parsing, valid input: for every style of `#` followed by exactly
eight hexadecimal digits (upper or lower case), `parseAndFillStyle` sets
`hasCustomLineColor` and sets `lineColor` to the four values, each from 0 to
255, of the digit pairs, as they are. An empty style (what a null style is
stored as) is not parsed: installing the group leaves `hasCustomLineColor` as
it was, which is `false` for a group that was not in the map. -/
theorem parseAndFillStyle_valid (r1 r2 g1 g2 b1 b2 a1 a2 : Char) (group : GroupData)
    (ImHashStr : String → ImGuiID) (w : PlotWindow) (name : String)
    (h : ∀ c ∈ [r1, r2, g1, g2, b1, b2, a1, a2], (hexDigitValue c).isSome) :
    parseAndFillStyle (String.mk ['#', r1, r2, g1, g2, b1, b2, a1, a2]) group
      = Asserted.ok
          { group with
            lineColor := ⟨(hexPairValue r1 r2 : ℚ), (hexPairValue g1 g2 : ℚ),
              (hexPairValue b1 b2 : ℚ), (hexPairValue a1 a2 : ℚ)⟩
            hasCustomLineColor := true } ∧
    (hexPairValue r1 r2 ≤ 255 ∧ hexPairValue g1 g2 ≤ 255 ∧ hexPairValue b1 b2 ≤ 255 ∧
      hexPairValue a1 a2 ≤ 255) ∧
    (∀ style : Option String, style.getD "" = "" →
      (w.AddPlotValue ImHashStr true name 0 0 style).addedGroupsSinceLastFrame
          = w.addedGroupsSinceLastFrame ∨
        (w.AddPlotValue ImHashStr true name 0 0 style).addedGroupsSinceLastFrame
          = w.addedGroupsSinceLastFrame ++ [{ name := name, style := "" }]) ∧
    (∃ w1, w.installGroup ImHashStr { name := name, style := "" } = Asserted.ok w1 ∧
      (w1._groupData.get (ImHashStr name)).hasCustomLineColor
        = (w._groupData.get (ImHashStr name)).hasCustomLineColor) ∧
    (GroupMap.get [] (ImHashStr name)).hasCustomLineColor = false := by
  refine ⟨parseAndFillStyle_eight_digits r1 r2 g1 g2 b1 b2 a1 a2 [] group h,
    ⟨hexPairValue_le _ _, hexPairValue_le _ _, hexPairValue_le _ _, hexPairValue_le _ _⟩,
    ?_, ?_, rfl⟩
  · intro style hstyle
    unfold PlotWindow.AddPlotValue
    simp only [Bool.not_true, Bool.false_eq_true, if_false, hstyle]
    split
    · exact Or.inr rfl
    · exact Or.inl rfl
  · refine ⟨_, rfl, ?_⟩
    simp [GroupMap.get_update]

/-- C17, witness: `#ff000000` gives the colour (255, 0, 0, 0). -/
theorem parseAndFillStyle_valid_witness :
    (∀ c ∈ ['f', 'f', '0', '0', '0', '0', '0', '0'], (hexDigitValue c).isSome) ∧
    parseAndFillStyle "#ff000000" {}
      = Asserted.ok
          { lineColor := ⟨(hexPairValue 'f' 'f' : ℚ), (hexPairValue '0' '0' : ℚ),
              (hexPairValue '0' '0' : ℚ), (hexPairValue '0' '0' : ℚ)⟩
            hasCustomLineColor := true } ∧
    parseAndFillStyle "#ff000000" {}
      = Asserted.ok { lineColor := ⟨255, 0, 0, 0⟩, hasCustomLineColor := true } ∧
    parseAndFillStyle "#FF8000a0" {}
      = Asserted.ok { lineColor := ⟨255, 128, 0, 160⟩, hasCustomLineColor := true } :=
  ⟨by decide,
   (parseAndFillStyle_valid 'f' 'f' '0' '0' '0' '0' '0' '0' {} polyHash {} "L1" (by decide)).1,
   by decide!, by decide!⟩

/-- C18 (as amended). Style parsing, invalid input: `parseAndFillStyle` fails
its assertion, and records no line colour, for every style that does not start
with `#`, and for every style of `#` followed by at most six hexadecimal digits
and then the end of the string or a character that is not a hexadecimal digit,
white space, a sign or `x`. Whatever follows eight hexadecimal digits is not
read: such a style is parsed as the eight digits are. -/
theorem parseAndFillStyle_invalid (style : String) (ds tail : List Char) (group : GroupData)
    (hhex : ∀ c ∈ ds, (hexDigitValue c).isSome)
    (htail : ∀ t ∈ tail.head?, plainChar t = true) :
    (style.data.head? ≠ some '#' → parseAndFillStyle style group = Asserted.assertionFailed) ∧
    (ds.length ≤ 6 →
      parseAndFillStyle (String.mk ('#' :: (ds ++ tail))) group = Asserted.assertionFailed) ∧
    (∀ (r1 r2 g1 g2 b1 b2 a1 a2 : Char) (rest : List Char),
      (∀ c ∈ [r1, r2, g1, g2, b1, b2, a1, a2], (hexDigitValue c).isSome) →
      parseAndFillStyle (String.mk ('#' :: r1 :: r2 :: g1 :: g2 :: b1 :: b2 :: a1 :: a2 :: rest))
          group
        = Asserted.ok
            { group with
              lineColor := ⟨(hexPairValue r1 r2 : ℚ), (hexPairValue g1 g2 : ℚ),
                (hexPairValue b1 b2 : ℚ), (hexPairValue a1 a2 : ℚ)⟩
              hasCustomLineColor := true }) := by
  refine ⟨?_, ?_, ?_⟩
  · intro h
    unfold parseAndFillStyle
    rw [if_pos h]
  · intro hlen
    unfold parseAndFillStyle
    rw [sscanfStyle_short ds tail hhex hlen htail]
    simp
  · intro r1 r2 g1 g2 b1 b2 a1 a2 rest h
    exact parseAndFillStyle_eight_digits r1 r2 g1 g2 b1 b2 a1 a2 rest group h

/-- C18, witness: `red` and `#ff0000` (six digits) fail the assertion. -/
theorem parseAndFillStyle_invalid_witness :
    (∀ c ∈ "ff0000".data, (hexDigitValue c).isSome) ∧
    (∀ t ∈ ([] : List Char).head?, plainChar t = true) ∧
    parseAndFillStyle "red" {} = Asserted.assertionFailed ∧
    parseAndFillStyle (String.mk ('#' :: ("ff0000".data ++ []))) {} = Asserted.assertionFailed ∧
    parseAndFillStyle "#ff0000" {} = Asserted.assertionFailed :=
  ⟨by decide, by simp,
   (parseAndFillStyle_invalid "red" "ff0000".data [] {} (by decide) (by simp)).1 (by decide),
   (parseAndFillStyle_invalid "red" "ff0000".data [] {} (by decide) (by simp)).2.1 (by decide),
   by decide⟩

/-- C18, counterexample: four styles that are not `#` followed by exactly eight
hexadecimal digits, none of which fails the assertion, and each of which
records a line colour: trailing characters, seven digits, white space before
the items, signs. -/
theorem parseAndFillStyle_invalid_counterexample :
    ("#ff000000zz".length = 11 ∧
      parseAndFillStyle "#ff000000zz" {}
        = Asserted.ok { lineColor := ⟨255, 0, 0, 0⟩, hasCustomLineColor := true }) ∧
    ("#fffffff".length = 8 ∧
      parseAndFillStyle "#fffffff" {}
        = Asserted.ok { lineColor := ⟨255, 255, 255, 15⟩, hasCustomLineColor := true }) ∧
    parseAndFillStyle "# 1 2 3 4" {}
      = Asserted.ok { lineColor := ⟨1, 2, 3, 4⟩, hasCustomLineColor := true } ∧
    parseAndFillStyle "#+1+2+3+4" {}
      = Asserted.ok { lineColor := ⟨1, 2, 3, 4⟩, hasCustomLineColor := true } := by
  refine ⟨⟨by decide, by decide!⟩, ⟨by decide, by decide!⟩, by decide!, by decide!⟩

theorem sscanfStyle_head (style : String) (h : (sscanfStyle style).isSome) :
    style.data.head? = some '#' := by
  unfold sscanfStyle at h
  have e : "#".data = ['#'] := rfl
  rw [e] at h
  cases hd : style.data with
  | nil => rw [hd] at h; simp [afterLiteral] at h
  | cons c cs =>
    rw [hd] at h
    by_cases hc : '#' = c
    · subst hc
      simp
    · simp [afterLiteral, hc] at h

theorem parseAndFillStyle_ok_of_accepted (style : String) (g : GroupData)
    (h : (sscanfStyle style).isSome) :
    ∃ c : ImVec4, parseAndFillStyle style g
      = Asserted.ok { g with lineColor := c, hasCustomLineColor := true } := by
  unfold parseAndFillStyle
  rw [if_neg (by simp [sscanfStyle_head style h])]
  obtain ⟨v, hv⟩ := Option.isSome_iff_exists.1 h
  obtain ⟨r, g1, b, a⟩ := v
  rw [hv]
  exact ⟨_, rfl⟩

/-- What installing a group leaves alone, and that it does not fail on an
accepted style. -/
theorem installGroup_of_accepted (H : String → ImGuiID) (w : PlotWindow) (group : GroupToAdd)
    (h : styleAccepted group.style = true) :
    ∃ w1, w.installGroup H group = Asserted.ok w1 ∧
      w1._cacheOfDataToAppend = w._cacheOfDataToAppend ∧
      w1.dataSinceLastFrame = w.dataSinceLastFrame ∧
      w1.addedGroupsSinceLastFrame = w.addedGroupsSinceLastFrame ∧
      w1._dataBounds = w._dataBounds ∧
      ∀ k, (w1._groupData.get k).xData = (w._groupData.get k).xData ∧
        (w1._groupData.get k).yData = (w._groupData.get k).yData := by
  unfold PlotWindow.installGroup
  simp only
  by_cases hs : group.style = ""
  · simp only [hs, ne_eq, not_true_eq_false, if_false]
    refine ⟨_, rfl, rfl, rfl, rfl, rfl, ?_⟩
    intro k
    rw [GroupMap.get_update]
    split_ifs with hk
    · subst hk; exact ⟨rfl, rfl⟩
    · exact ⟨rfl, rfl⟩
  · have hacc : (sscanfStyle group.style).isSome := by
      simpa [styleAccepted, hs] using h
    obtain ⟨c, hc⟩ := parseAndFillStyle_ok_of_accepted group.style
      ((w._groupData.update (H group.name) (fun g => { g with name := group.name })).get
        (H group.name)) hacc
    simp only [ne_eq, hs, not_false_eq_true, if_true, hc]
    refine ⟨_, rfl, rfl, rfl, rfl, rfl, ?_⟩
    intro k
    simp only [GroupMap.get_update]
    split_ifs with hk
    · subst hk; exact ⟨rfl, rfl⟩
    · exact ⟨rfl, rfl⟩

theorem installGroups_of_accepted (H : String → ImGuiID) (groups : List GroupToAdd) :
    ∀ (w : PlotWindow), (∀ g ∈ groups, styleAccepted g.style = true) →
    ∃ w1, PlotWindow.installGroups H w groups = Asserted.ok w1 ∧
      w1._cacheOfDataToAppend = w._cacheOfDataToAppend ∧
      w1.dataSinceLastFrame = w.dataSinceLastFrame ∧
      w1.addedGroupsSinceLastFrame = w.addedGroupsSinceLastFrame ∧
      w1._dataBounds = w._dataBounds ∧
      ∀ k, (w1._groupData.get k).xData = (w._groupData.get k).xData ∧
        (w1._groupData.get k).yData = (w._groupData.get k).yData := by
  induction groups with
  | nil => intro w _; exact ⟨w, rfl, rfl, rfl, rfl, rfl, fun _ => ⟨rfl, rfl⟩⟩
  | cons g groups ih =>
    intro w h
    obtain ⟨w1, h1, c1, d1, a1, b1, g1⟩ := installGroup_of_accepted H w g (h g (by simp))
    obtain ⟨w2, h2, c2, d2, a2, b2, g2⟩ := ih w1 (fun g0 hg0 => h g0 (by simp [hg0]))
    refine ⟨w2, ?_, c2.trans c1, d2.trans d1, a2.trans a1, b2.trans b1, ?_⟩
    · simp only [PlotWindow.installGroups, h1, h2]
    · intro k
      exact ⟨(g2 k).1.trans (g1 k).1, (g2 k).2.trans (g1 k).2⟩

theorem appendSample_fields (w : PlotWindow) (it : DataToAppend) :
    (w.appendSample it)._cacheOfDataToAppend = w._cacheOfDataToAppend ∧
    (w.appendSample it).dataSinceLastFrame = w.dataSinceLastFrame ∧
    (w.appendSample it).addedGroupsSinceLastFrame = w.addedGroupsSinceLastFrame ∧
    ∀ k, ((w.appendSample it)._groupData.get k).xData
        = (w._groupData.get k).xData ++ (if it.group = k then [it.xValue] else []) ∧
      ((w.appendSample it)._groupData.get k).yData
        = (w._groupData.get k).yData ++ (if it.group = k then [it.yValue] else []) := by
  refine ⟨rfl, rfl, rfl, ?_⟩
  intro k
  simp only [PlotWindow.appendSample, GroupMap.get_update]
  by_cases hk : it.group = k
  · subst hk
    simp only [if_true]
    split_ifs <;> exact ⟨rfl, rfl⟩
  · simp [hk]

theorem foldl_appendSample_fields (its : List DataToAppend) :
    ∀ (w : PlotWindow),
    (its.foldl PlotWindow.appendSample w)._cacheOfDataToAppend = w._cacheOfDataToAppend ∧
    (its.foldl PlotWindow.appendSample w).dataSinceLastFrame = w.dataSinceLastFrame ∧
    (its.foldl PlotWindow.appendSample w).addedGroupsSinceLastFrame
      = w.addedGroupsSinceLastFrame ∧
    ∀ k, ((its.foldl PlotWindow.appendSample w)._groupData.get k).xData
        = (w._groupData.get k).xData
          ++ (its.filter (fun it => it.group = k)).map (fun it => it.xValue) ∧
      ((its.foldl PlotWindow.appendSample w)._groupData.get k).yData
        = (w._groupData.get k).yData
          ++ (its.filter (fun it => it.group = k)).map (fun it => it.yValue) := by
  induction its with
  | nil => intro w; simp
  | cons it its ih =>
    intro w
    obtain ⟨c1, d1, a1, g1⟩ := appendSample_fields w it
    obtain ⟨c2, d2, a2, g2⟩ := ih (w.appendSample it)
    refine ⟨c2.trans c1, d2.trans d1, a2.trans a1, ?_⟩
    intro k
    rw [List.foldl_cons, (g2 k).1, (g2 k).2, (g1 k).1, (g1 k).2]
    by_cases hk : it.group = k
    · simp [List.filter_cons, hk]
    · simp [List.filter_cons, hk]

theorem draw_fields (w : PlotWindow) (input : PlotFrameInput) :
    (w.draw input).1._groupData = w._groupData ∧
    (w.draw input).1._cacheOfDataToAppend = w._cacheOfDataToAppend ∧
    (w.draw input).1.dataSinceLastFrame = w.dataSinceLastFrame ∧
    (w.draw input).1.addedGroupsSinceLastFrame = w.addedGroupsSinceLastFrame ∧
    (w.draw input).1._dataBounds = w._dataBounds := by
  unfold PlotWindow.draw
  split_ifs <;> exact ⟨rfl, rfl, rfl, rfl, rfl⟩

/-- A flush with an empty cache and accepted pending styles: nothing fails, the
pending samples move to their groups in order, and the pending list and the
cache are left empty. -/
theorem Render_of_accepted (H : String → ImGuiID) (w : PlotWindow) (input : PlotFrameInput)
    (hcache : w._cacheOfDataToAppend = [])
    (hstyles : ∀ g ∈ w.addedGroupsSinceLastFrame, styleAccepted g.style = true) :
    ∃ result, w.Render H input = Asserted.ok result ∧
      result.1._cacheOfDataToAppend = [] ∧
      result.1.dataSinceLastFrame = [] ∧
      result.1.addedGroupsSinceLastFrame = w.addedGroupsSinceLastFrame ∧
      ∀ k, (result.1._groupData.get k).xData = w.heldX k ∧
        (result.1._groupData.get k).yData = w.heldY k := by
  obtain ⟨w2, h2, c2, d2, a2, -, g2⟩ := installGroups_of_accepted H w.addedGroupsSinceLastFrame
    { w with
      _cacheOfDataToAppend := w.dataSinceLastFrame
      dataSinceLastFrame := w._cacheOfDataToAppend } hstyles
  simp only at c2 d2 a2 g2
  obtain ⟨c3, d3, a3, g3⟩ := foldl_appendSample_fields w2._cacheOfDataToAppend w2
  obtain ⟨gd, cd, dd, ad, -⟩ := draw_fields
    { (w2._cacheOfDataToAppend.foldl PlotWindow.appendSample w2) with
      _cacheOfDataToAppend := [] } input
  simp only at gd cd dd ad
  refine ⟨_, ?_, cd, ?_, ?_, ?_⟩
  · unfold PlotWindow.Render
    simp only [h2]
  · rw [dd, d3, d2, hcache]
  · rw [ad, a3, a2]
  · intro k
    rw [gd, (g3 k).1, (g3 k).2, (g2 k).1, (g2 k).2, c2]
    exact ⟨rfl, rfl⟩

theorem AddPlotValue_visible_fields (H : String → ImGuiID) (w : PlotWindow) (g : String)
    (y x : ℚ) (style : Option String) :
    (w.AddPlotValue H true g y x style)._cacheOfDataToAppend = w._cacheOfDataToAppend ∧
    (w.AddPlotValue H true g y x style)._groupData = w._groupData ∧
    (w.AddPlotValue H true g y x style).dataSinceLastFrame
      = w.dataSinceLastFrame ++ [{ group := H g, xValue := x, yValue := y }] ∧
    ((w.AddPlotValue H true g y x style).addedGroupsSinceLastFrame = w.addedGroupsSinceLastFrame ∨
      (w.AddPlotValue H true g y x style).addedGroupsSinceLastFrame
        = w.addedGroupsSinceLastFrame ++ [{ name := g, style := style.getD "" }]) := by
  unfold PlotWindow.AddPlotValue
  simp only [Bool.not_true, Bool.false_eq_true, if_false]
  split
  · exact ⟨rfl, rfl, rfl, Or.inr rfl⟩
  · exact ⟨rfl, rfl, rfl, Or.inl rfl⟩

theorem after_of_accepted (H : String → ImGuiID) (input : PlotFrameInput) (calls : List PlotCall) :
    ∀ (w : PlotWindow), w._cacheOfDataToAppend = [] →
    (∀ g ∈ w.addedGroupsSinceLastFrame, styleAccepted g.style = true) →
    (∀ c ∈ calls, c.styleAccepted = true) →
    ∃ w1, PlotWindow.after H true w (calls ++ [PlotCall.Render input]) = Asserted.ok w1 ∧
      ∀ k, (w1._groupData.get k).xData = w.heldX k ++ (samplesOfId H calls k).map Prod.fst ∧
        (w1._groupData.get k).yData = w.heldY k ++ (samplesOfId H calls k).map Prod.snd := by
  induction calls with
  | nil =>
    intro w hcache hpending _
    obtain ⟨result, hr, -, -, -, hg⟩ := Render_of_accepted H w input hcache hpending
    refine ⟨result.1, ?_, ?_⟩
    · simp [PlotWindow.after, hr]
    · intro k
      simp [samplesOfId, hg k]
  | cons c calls ih =>
    intro w hcache hpending hcalls
    cases c with
    | AddPlotValue g y x style =>
      obtain ⟨hc, hgd, hd, ha⟩ := AddPlotValue_visible_fields H w g y x style
      have hacc : styleAccepted (style.getD "") = true :=
        hcalls (PlotCall.AddPlotValue g y x style) (by simp)
      obtain ⟨w1, h1, hg1⟩ := ih (w.AddPlotValue H true g y x style) (hc.trans hcache)
        (by
          intro g0 hg0
          rcases ha with ha | ha
          · rw [ha] at hg0; exact hpending g0 hg0
          · rw [ha] at hg0
            rcases List.mem_append.1 hg0 with hm | hm
            · exact hpending g0 hm
            · simp only [List.mem_singleton] at hm
              rw [hm]
              exact hacc)
        (fun c0 hc0 => hcalls c0 (by simp [hc0]))
      refine ⟨w1, ?_, ?_⟩
      · simpa [PlotWindow.after] using h1
      · intro k
        rw [(hg1 k).1, (hg1 k).2]
        simp only [PlotWindow.heldX, PlotWindow.heldY, hgd, hd, samplesOfId, List.filterMap_cons]
        by_cases hk : H g = k
        · simp [List.filter_append, List.filter_cons, hk]
        · simp [List.filter_append, List.filter_cons, hk]
    | Render input0 =>
      obtain ⟨result, hr, hc, hd, ha, hg⟩ := Render_of_accepted H w input0 hcache hpending
      obtain ⟨w1, h1, hg1⟩ := ih result.1 hc (by rw [ha]; exact hpending)
        (fun c0 hc0 => hcalls c0 (by simp [hc0]))
      refine ⟨w1, ?_, ?_⟩
      · simpa [PlotWindow.after, hr] using h1
      · intro k
        rw [(hg1 k).1, (hg1 k).2]
        simp only [PlotWindow.heldX, PlotWindow.heldY, hd, (hg k).1, (hg k).2, samplesOfId,
          List.filterMap_cons]
        simp [PlotWindow.heldX, PlotWindow.heldY]

theorem samplesOfId_eq_samplesOfGroup (H : String → ImGuiID) (calls : List PlotCall)
    (groupName : String)
    (h : ∀ (g : String) (y x : ℚ) (s : Option String),
      PlotCall.AddPlotValue g y x s ∈ calls → H g = H groupName → g = groupName) :
    samplesOfId H calls (H groupName) = samplesOfGroup calls groupName := by
  unfold samplesOfId samplesOfGroup
  apply List.filterMap_congr
  intro c hc
  cases c with
  | AddPlotValue g y x s =>
    by_cases hg : g = groupName
    · simp [hg]
    · have hne : H g ≠ H groupName := fun he => hg (h g y x s hc he)
      simp [hg, hne]
  | Render input0 => rfl

theorem appendSample_dataBounds (w : PlotWindow) (it : DataToAppend) :
    (w.appendSample it)._dataBounds.xMin ≤ w._dataBounds.xMin ∧
    w._dataBounds.xMax ≤ (w.appendSample it)._dataBounds.xMax ∧
    (w.appendSample it)._dataBounds.yMin ≤ w._dataBounds.yMin ∧
    w._dataBounds.yMax ≤ (w.appendSample it)._dataBounds.yMax := by
  simp only [PlotWindow.appendSample]
  exact ⟨min_le_left _ _, le_max_left _ _, min_le_left _ _, le_max_left _ _⟩

/-- C16. What the code does: the global bounds start at x in [0, 1], y in
[0, 1] and the flush only ever widens them, so they are the bounds of the
samples together with that initial range. For the samples (0,1), (1,2), (2,3),
(3,4) on a new panel the bounds after the flush are x in [0, 3] and y in
[0, 4]: `yMin` is 0, not 1. -/
theorem dataBounds_keep_initial_range (w : PlotWindow) (its : List DataToAppend) :
    ((its.foldl PlotWindow.appendSample w)._dataBounds.xMin ≤ w._dataBounds.xMin ∧
      w._dataBounds.xMax ≤ (its.foldl PlotWindow.appendSample w)._dataBounds.xMax ∧
      (its.foldl PlotWindow.appendSample w)._dataBounds.yMin ≤ w._dataBounds.yMin ∧
      w._dataBounds.yMax ≤ (its.foldl PlotWindow.appendSample w)._dataBounds.yMax) ∧
    (({} : PlotWindow)._dataBounds = { xMin := 0, xMax := 1, yMin := 0, yMax := 1 }) ∧
    (PlotWindow.after polyHash true {}
        (fourSamplesOnL1 ++ [PlotCall.Render {}])).toOption.map (fun w1 => w1._dataBounds)
      = some { xMin := 0, xMax := 3, yMin := 0, yMax := 4 } := by
  refine ⟨?_, rfl, by decide!⟩
  induction its generalizing w with
  | nil => simp
  | cons it its ih =>
    obtain ⟨h1, h2, h3, h4⟩ := appendSample_dataBounds w it
    obtain ⟨i1, i2, i3, i4⟩ := ih (w.appendSample it)
    rw [List.foldl_cons]
    exact ⟨le_trans i1 h1, le_trans h2 i2, le_trans i3 h3, le_trans h4 i4⟩

/-- C12. Visibility gate: for every image panel and plot panel whose metadata
has `isVisible = false`, `UpdateImage` and `AddPlotValue` return with the panel
as it was: the pending bitmap, the pending samples, the pending groups and the
map of existing groups are unchanged. -/
theorem hidden_panel_drops_update (ImHashStr : String → ImGuiID) (wm : WindowManager)
    (window : Window) (image : ImageWindow) (plot : PlotWindow) (bitmap : Mat)
    (groupName : String) (y x : ℚ) (style : Option String)
    (hhidden : (wm.data window.imGuiData).isVisible = false) :
    image.UpdateImage (window.isVisible wm) bitmap = image ∧
    (image.UpdateImage (window.isVisible wm) bitmap).image = image.image ∧
    plot.AddPlotValue ImHashStr (window.isVisible wm) groupName y x style = plot ∧
    (plot.AddPlotValue ImHashStr (window.isVisible wm) groupName y x style).dataSinceLastFrame
      = plot.dataSinceLastFrame ∧
    (plot.AddPlotValue ImHashStr (window.isVisible wm) groupName y x
        style).addedGroupsSinceLastFrame = plot.addedGroupsSinceLastFrame ∧
    (plot.AddPlotValue ImHashStr (window.isVisible wm) groupName y x style).existingGroups
      = plot.existingGroups := by
  have hv : window.isVisible wm = false := hhidden
  have hi : image.UpdateImage (window.isVisible wm) bitmap = image := by
    rw [hv]; rfl
  have hp : plot.AddPlotValue ImHashStr (window.isVisible wm) groupName y x style = plot := by
    rw [hv]; rfl
  rw [hi, hp]
  exact ⟨rfl, rfl, rfl, rfl, rfl, rfl⟩

/-- C12, witness: the hidden window `A`, a panel holding the bitmap at address 5
and a plot panel with one pending sample. -/
theorem hidden_panel_drops_update_witness :
    (hiddenPanelRegistry.data (Window.mk 0).imGuiData).isVisible = false ∧
    ImageWindow.UpdateImage { image := { data := 5, rows := 2, cols := 2 } }
        ((Window.mk 0).isVisible hiddenPanelRegistry) { data := 7, rows := 4, cols := 8 }
      = { image := { data := 5, rows := 2, cols := 2 } } ∧
    PlotWindow.AddPlotValue polyHash
        { dataSinceLastFrame := [{ group := 1, xValue := 0, yValue := 1 }] }
        ((Window.mk 0).isVisible hiddenPanelRegistry) "L1" 2 1 (some "#ff000000")
      = { dataSinceLastFrame := [{ group := 1, xValue := 0, yValue := 1 }] } :=
  ⟨by decide!,
   (hidden_panel_drops_update polyHash hiddenPanelRegistry (Window.mk 0)
      { image := { data := 5, rows := 2, cols := 2 } } {} { data := 7, rows := 4, cols := 8 }
      "L1" 2 1 none (by decide!)).1,
   (hidden_panel_drops_update polyHash hiddenPanelRegistry (Window.mk 0) {}
      { dataSinceLastFrame := [{ group := 1, xValue := 0, yValue := 1 }] } {}
      "L1" 2 1 (some "#ff000000") (by decide!)).2.2.1⟩

/-- `FindOrCreateDataForWindow` does not read or write `_windows`. -/
theorem FindOrCreateDataForWindow_with_windows (H : String → ImGuiID) (wm : WindowManager)
    (ws : List Window) (n : String) :
    WindowManager.FindOrCreateDataForWindow H { wm with _windows := ws } n
      = ({ (wm.FindOrCreateDataForWindow H n).1 with _windows := ws },
          (wm.FindOrCreateDataForWindow H n).2) := by
  unfold WindowManager.FindOrCreateDataForWindow
  have e : WindowManager.findDataForWindow { wm with _windows := ws } (H n)
      = wm.findDataForWindow (H n) := rfl
  rw [e]
  cases hf : wm.findDataForWindow (H n) with
  | some p => rfl
  | none =>
    simp only [WindowManager.createDataForWindow, WindowManager.findOrCreateCategory]
    split <;> rfl

theorem modify_append_singleton {α : Type} (l : List α) (a : α) (f : α → α) :
    (l ++ [a]).modify f l.length = l ++ [f a] := by
  induction l with
  | nil => rfl
  | cons x l ih => simp [ih]

/-- The registry that `AddWindow` leaves, in terms of `FindOrCreateDataForWindow`. -/
theorem AddWindow_eq (H : String → ImGuiID) (wm : WindowManager) (n : String)
    (vp : ImGuiViewport) (e r1 r2 : ℚ) :
    ∃ layout : LayoutUpdate,
      (wm.AddWindow H n vp e r1 r2).1
        = { (wm.FindOrCreateDataForWindow H n).1 with
            _windows := wm._windows ++ [{ imGuiData := (wm.FindOrCreateDataForWindow H n).2 }]
            _windowsData := (wm.FindOrCreateDataForWindow H n).1._windowsData.modify
              (fun d => { d with window := some wm._windows.length,
                                 layoutUpdateOnNextFrame := layout })
              (wm.FindOrCreateDataForWindow H n).2 } := by
  unfold WindowManager.AddWindow
  simp only [FindOrCreateDataForWindow_with_windows, WindowManager.modifyData,
    modify_append_singleton]
  exact ⟨_, rfl⟩

theorem ConcurrentFindWindow_of_IndexInv (H : String → ImGuiID) (wm : WindowManager)
    (name : String) (hidx : wm.IndexInv)
    (hname : ∀ d ∈ wm._windowsData, d.id = H name → d.name = name) :
    wm.ConcurrentFindWindow H name = Asserted.ok (wm.findDataForWindow (H name)) := by
  unfold WindowManager.ConcurrentFindWindow WindowManager.ConcurrentFindWindowById
  rw [hidx.2]
  cases hf : wm.findDataForWindow (H name) with
  | none => rfl
  | some p =>
    obtain ⟨hlt, hp, -⟩ := List.findIdx?_eq_some_iff_getElem.1 hf
    have hd : wm.data p = wm._windowsData[p] := data_eq_of_getElem? (by simp [hlt])
    have hn : (wm.data p).name = name := by
      rw [hd]
      exact hname _ (List.getElem_mem _) (by simpa using hp)
    simp only [hn, if_true]

theorem window_of_found (H : String → ImGuiID) (wm : WindowManager) (name : String)
    (hname : ∀ d ∈ wm._windowsData, d.id = H name → d.window = none) :
    (wm.findDataForWindow (H name)).bind (fun p => (wm.data p).window) = none := by
  cases hf : wm.findDataForWindow (H name) with
  | none => rfl
  | some p =>
    obtain ⟨hlt, hp, -⟩ := List.findIdx?_eq_some_iff_getElem.1 hf
    have hd : wm.data p = wm._windowsData[p] := data_eq_of_getElem? (by simp [hlt])
    simp only [Option.some_bind, hd]
    exact hname _ (List.getElem_mem _) (by simpa using hp)

theorem FindWindow_without_panel (H : String → ImGuiID) (wm : WindowManager) (name : String)
    (hidx : wm.IndexInv)
    (hname : ∀ d ∈ wm._windowsData, d.id = H name → d.name = name ∧ d.window = none) :
    FindWindow H wm name = Asserted.ok none := by
  unfold FindWindow
  rw [ConcurrentFindWindow_of_IndexInv H wm name hidx (fun d hd hid => (hname d hd hid).1)]
  have hw := window_of_found H wm name (fun d hd hid => (hname d hd hid).2)
  cases hf : wm.findDataForWindow (H name) with
  | none => rfl
  | some p =>
    rw [hf] at hw
    simp only [Option.some_bind] at hw
    simp only [hw]

theorem FindOrCreateWindow_without_panel (H : String → ImGuiID) (r : PanelRegistry)
    (name : String) (create : Panel) (vp : ImGuiViewport) (e r1 r2 : ℚ)
    (hidx : r.windowManager.IndexInv)
    (hname : ∀ d ∈ r.windowManager._windowsData, d.id = H name → d.name = name ∧ d.window = none) :
    FindOrCreateWindow H r name create vp e r1 r2
      = Asserted.ok
          ({ windowManager := (r.windowManager.AddWindow H name vp e r1 r2).1
             panels := r.panels ++ [create] },
           r.windowManager._windows.length) := by
  unfold FindOrCreateWindow
  rw [ConcurrentFindWindow_of_IndexInv H _ name hidx (fun d hd hid => (hname d hd hid).1)]
  simp only [window_of_found H _ name (fun d hd hid => (hname d hd hid).2)]

theorem set_append_singleton {α : Type} (l : List α) (a b : α) :
    (l ++ [a]).set l.length b = l ++ [b] := by
  induction l with
  | nil => rfl
  | cons x l ih => simp [ih]

theorem AddWindow_windows (H : String → ImGuiID) (wm : WindowManager) (n : String)
    (vp : ImGuiViewport) (e r1 r2 : ℚ) :
    (wm.AddWindow H n vp e r1 r2).1._windows
      = wm._windows ++ [{ imGuiData := (wm.FindOrCreateDataForWindow H n).2 }] := by
  obtain ⟨layout, h⟩ := AddWindow_eq H wm n vp e r1 r2
  rw [h]

theorem AddWindow_data (H : String → ImGuiID) (wm : WindowManager) (n : String)
    (vp : ImGuiViewport) (e r1 r2 : ℚ) :
    (wm.AddWindow H n vp e r1 r2).1._windowsData.length
      = (wm.FindOrCreateDataForWindow H n).1._windowsData.length ∧
    (∃ layout : LayoutUpdate,
      (wm.AddWindow H n vp e r1 r2).1.data (wm.FindOrCreateDataForWindow H n).2
        = { (wm.FindOrCreateDataForWindow H n).1.data (wm.FindOrCreateDataForWindow H n).2 with
            window := some wm._windows.length, layoutUpdateOnNextFrame := layout }) ∧
    ∀ i, i ≠ (wm.FindOrCreateDataForWindow H n).2 →
      (wm.AddWindow H n vp e r1 r2).1._windowsData[i]?
        = (wm.FindOrCreateDataForWindow H n).1._windowsData[i]? := by
  obtain ⟨layout, h⟩ := AddWindow_eq H wm n vp e r1 r2
  have hlt := FindOrCreateDataForWindow_lt H wm n
  rw [h]
  refine ⟨by simp, ⟨layout, ?_⟩, ?_⟩
  · simp only [WindowManager.data, List.getD_eq_getElem?_getD, List.getElem?_modify]
    simp [List.getElem?_eq_getElem hlt]
  · intro i hi
    have hne : (wm.FindOrCreateDataForWindow H n).2 ≠ i := fun hh => hi hh.symm
    simp [List.getElem?_modify, hne]

theorem FindOrCreateDataForWindow_cases (H : String → ImGuiID) (wm : WindowManager) (n : String) :
    (∀ q, wm.findDataForWindow (H n) = some q → wm.FindOrCreateDataForWindow H n = (wm, q)) ∧
    (wm.findDataForWindow (H n) = none →
      (wm.FindOrCreateDataForWindow H n).2 = wm._windowsData.length ∧
      (wm.FindOrCreateDataForWindow H n).1._windowsData
        = wm._windowsData ++ [WindowData.new H n]) := by
  constructor
  · intro q hq
    simp [WindowManager.FindOrCreateDataForWindow, hq]
  · intro hf
    constructor
    · simp [WindowManager.FindOrCreateDataForWindow, hf, WindowManager.createDataForWindow]
    · simp [WindowManager.FindOrCreateDataForWindow, hf, WindowManager.createDataForWindow,
        WindowData.new, WindowData.defaultCategoryName]

theorem FindOrCreateWindowAs_without_panel {α : Type} (H : String → ImGuiID) (r : PanelRegistry)
    (name : String) (create : Panel) (cast : Panel → Option α) (a : α)
    (vp : ImGuiViewport) (e r1 r2 : ℚ)
    (hcast : cast create = some a)
    (hidx : r.windowManager.IndexInv)
    (halign : r.panels.length = r.windowManager._windows.length)
    (hname : ∀ d ∈ r.windowManager._windowsData, d.id = H name → d.name = name ∧ d.window = none) :
    FindOrCreateWindowAs H r create cast name vp e r1 r2
      = Asserted.ok
          ({ windowManager := (r.windowManager.AddWindow H name vp e r1 r2).1
             panels := r.panels ++ [create] },
           r.panels.length, a) := by
  unfold FindOrCreateWindowAs
  rw [FindOrCreateWindow_without_panel H r name create vp e r1 r2 hidx hname]
  simp only [← halign]
  simp [hcast]

theorem isVisible_of_new_window (H : String → ImGuiID) (r : PanelRegistry) (name : String)
    (create : Panel) (vp : ImGuiViewport) (e r1 r2 : ℚ)
    (halign : r.panels.length = r.windowManager._windows.length) :
    PanelRegistry.isVisible
        { windowManager := (r.windowManager.AddWindow H name vp e r1 r2).1
          panels := r.panels ++ [create] } r.panels.length
      = ((r.windowManager.AddWindow H name vp e r1 r2).1.data
          (r.windowManager.FindOrCreateDataForWindow H name).2).isVisible := by
  unfold PanelRegistry.isVisible Window.isVisible
  simp only [AddWindow_windows, halign]
  simp

theorem run_updateImage_without_panel (H : String → ImGuiID) (r : PanelRegistry) (name : String)
    (vp : ImGuiViewport) (e r1 r2 : ℚ) (image : Mat)
    (hidx : r.windowManager.IndexInv)
    (halign : r.panels.length = r.windowManager._windows.length)
    (hname : ∀ d ∈ r.windowManager._windowsData, d.id = H name → d.name = name ∧ d.window = none) :
    PublisherTask.run H r vp e r1 r2 (PublisherTask.updateImage name image)
      = Asserted.ok
          { windowManager := (r.windowManager.AddWindow H name vp e r1 r2).1
            panels := r.panels ++
              [Panel.image (ImageWindow.UpdateImage {}
                ((r.windowManager.AddWindow H name vp e r1 r2).1.data
                  (r.windowManager.FindOrCreateDataForWindow H name).2).isVisible image)] } := by
  simp only [PublisherTask.run]
  rw [FindOrCreateWindowAs_without_panel H r name (Panel.image {}) Panel.asImage {} vp e r1 r2 rfl
    hidx halign hname]
  simp only [isVisible_of_new_window H r name _ vp e r1 r2 halign, set_append_singleton]

theorem run_addPlotValue_without_panel (H : String → ImGuiID) (r : PanelRegistry)
    (name : String) (vp : ImGuiViewport) (e r1 r2 : ℚ) (groupName : String) (x y : ℚ)
    (styleCopy : String)
    (hidx : r.windowManager.IndexInv)
    (halign : r.panels.length = r.windowManager._windows.length)
    (hname : ∀ d ∈ r.windowManager._windowsData, d.id = H name → d.name = name ∧ d.window = none) :
    PublisherTask.run H r vp e r1 r2 (PublisherTask.addPlotValue name groupName x y styleCopy)
      = Asserted.ok
          { windowManager := (r.windowManager.AddWindow H name vp e r1 r2).1
            panels := r.panels ++
              [Panel.plot (PlotWindow.AddPlotValue H {}
                ((r.windowManager.AddWindow H name vp e r1 r2).1.data
                  (r.windowManager.FindOrCreateDataForWindow H name).2).isVisible groupName y x
                (if styleCopy = "" then none else some styleCopy))] } := by
  simp only [PublisherTask.run]
  rw [FindOrCreateWindowAs_without_panel H r name (Panel.plot {}) Panel.asPlot {} vp e r1 r2 rfl
    hidx halign hname]
  simp only [isVisible_of_new_window H r name _ vp e r1 r2 halign, set_append_singleton]

theorem run_addValue_without_panel (H : String → ImGuiID) (r : PanelRegistry)
    (name : String) (vp : ImGuiViewport) (e r1 r2 : ℚ) (valueName value : String)
    (hidx : r.windowManager.IndexInv)
    (halign : r.panels.length = r.windowManager._windows.length)
    (hname : ∀ d ∈ r.windowManager._windowsData, d.id = H name → d.name = name ∧ d.window = none) :
    PublisherTask.run H r vp e r1 r2 (PublisherTask.addValue name valueName value)
      = Asserted.ok
          { windowManager := (r.windowManager.AddWindow H name vp e r1 r2).1
            panels := r.panels ++
              [Panel.values (ValueListWindow.AddValue {} valueName value)] } := by
  simp only [PublisherTask.run]
  rw [FindOrCreateWindowAs_without_panel H r name (Panel.values {}) Panel.asValues {} vp e r1 r2
    rfl hidx halign hname]
  simp only [set_append_singleton]

/-- What `AddWindow` does to the metadata of a name: it binds the new window to
the entry of the name, which is the existing one with its name, category, help
string, preferred size and visibility as they were, or a new one at the end;
no other entry changes. -/
theorem AddWindow_binds (H : String → ImGuiID) (wm : WindowManager) (name : String)
    (vp : ImGuiViewport) (e r1 r2 : ℚ)
    (hname : ∀ d ∈ wm._windowsData, d.id = H name → d.name = name) :
    (wm.AddWindow H name vp e r1 r2).1._windows
      = wm._windows ++ [{ imGuiData := (wm.FindOrCreateDataForWindow H name).2 }] ∧
    ((wm.AddWindow H name vp e r1 r2).1.data (wm.FindOrCreateDataForWindow H name).2).window
      = some wm._windows.length ∧
    ((wm.AddWindow H name vp e r1 r2).1.data (wm.FindOrCreateDataForWindow H name).2).name
      = name ∧
    (∀ (q : Nat) (d : WindowData), wm.findDataForWindow (H name) = some q →
      wm._windowsData[q]? = some d →
      (wm.FindOrCreateDataForWindow H name).2 = q ∧
      (wm.AddWindow H name vp e r1 r2).1._windowsData.length = wm._windowsData.length ∧
      ((wm.AddWindow H name vp e r1 r2).1.data q).category = d.category ∧
      ((wm.AddWindow H name vp e r1 r2).1.data q).helpString = d.helpString ∧
      ((wm.AddWindow H name vp e r1 r2).1.data q).preferredContentSize
        = d.preferredContentSize ∧
      ((wm.AddWindow H name vp e r1 r2).1.data q).isVisible = d.isVisible) ∧
    (wm.findDataForWindow (H name) = none →
      (wm.FindOrCreateDataForWindow H name).2 = wm._windowsData.length ∧
      (wm.AddWindow H name vp e r1 r2).1._windowsData.length = wm._windowsData.length + 1 ∧
      ((wm.AddWindow H name vp e r1 r2).1.data wm._windowsData.length).category = "Default" ∧
      ((wm.AddWindow H name vp e r1 r2).1.data wm._windowsData.length).helpString
        = "No help specified" ∧
      ((wm.AddWindow H name vp e r1 r2).1.data wm._windowsData.length).preferredContentSize
        = ⟨320, 240⟩ ∧
      ((wm.AddWindow H name vp e r1 r2).1.data wm._windowsData.length).isVisible = true) ∧
    (∀ i, i ≠ (wm.FindOrCreateDataForWindow H name).2 →
      (wm.AddWindow H name vp e r1 r2).1._windowsData[i]? = wm._windowsData[i]?) := by
  obtain ⟨hlen, ⟨layout, hdata⟩, hother⟩ := AddWindow_data H wm name vp e r1 r2
  obtain ⟨hfound, hnew⟩ := FindOrCreateDataForWindow_cases H wm name
  refine ⟨AddWindow_windows H wm name vp e r1 r2, by rw [hdata], ?_, ?_, ?_, ?_⟩
  · rw [hdata]
    simp only
    cases hf : wm.findDataForWindow (H name) with
    | some q =>
      rw [hfound q hf]
      obtain ⟨hlt, hp, -⟩ := List.findIdx?_eq_some_iff_getElem.1 hf
      have hd : wm.data q = wm._windowsData[q] := data_eq_of_getElem? (by simp [hlt])
      simp only [hd]
      exact hname _ (List.getElem_mem _) (by simpa using hp)
    | none =>
      obtain ⟨h2, h1⟩ := hnew hf
      have hd : (wm.FindOrCreateDataForWindow H name).1.data
          (wm.FindOrCreateDataForWindow H name).2 = WindowData.new H name :=
        data_eq_of_getElem? (by rw [h1, h2]; simp)
      rw [hd]
      rfl
  · intro q d hf hd
    have e1 := hfound q hf
    rw [e1] at hdata hlen
    simp only at hdata hlen
    rw [e1, hdata, data_eq_of_getElem? hd]
    exact ⟨rfl, hlen, rfl, rfl, rfl, rfl⟩
  · intro hf
    obtain ⟨h2, h1⟩ := hnew hf
    have hd : (wm.FindOrCreateDataForWindow H name).1.data
        (wm.FindOrCreateDataForWindow H name).2 = WindowData.new H name :=
      data_eq_of_getElem? (by rw [h1, h2]; simp)
    rw [h2] at hdata
    rw [h2] at hd
    rw [hdata, hd, hlen, h1]
    exact ⟨h2, by simp, rfl, rfl, rfl, rfl⟩
  · intro i hi
    rw [hother i hi]
    cases hf : wm.findDataForWindow (H name) with
    | some q => rw [hfound q hf]
    | none =>
      obtain ⟨h2, h1⟩ := hnew hf
      rw [h2] at hi
      rw [h1]
      rcases Nat.lt_or_gt_of_ne hi with hlt | hgt
      · simp [List.getElem?_append_left hlt]
      · rw [List.getElem?_eq_none (by simp; omega), List.getElem?_eq_none (by omega)]

/-- C11 (as amended). Publishing to a name that has no panel instance, on a
registry in which no entry of another name has the id of the name: `UpdateImage`,
`AddPlotValue` and `AddValue` only hand one lambda to `RunOnceInImGuiThread`.
When that lambda runs on such a registry, a new panel of the requested type is
added, its window is bound to the metadata of the name - the existing entry,
with no second entry added and its category, help string, preferred size and
visibility as they were, or a new entry with the defaults - no other entry
changes, and the first update is handed to that panel. -/
theorem publish_without_panel (ImHashStr : String → ImGuiID) (r : PanelRegistry)
    (name : String) (vp : ImGuiViewport) (e r1 r2 : ℚ) (image : Mat)
    (groupName : String) (y x : ℚ) (style : Option String) (valueName value : String)
    (hidx : r.windowManager.IndexInv)
    (halign : r.panels.length = r.windowManager._windows.length)
    (hname : ∀ d ∈ r.windowManager._windowsData,
      d.id = ImHashStr name → d.name = name ∧ d.window = none) :
    (UpdateImage ImHashStr r name image
        = Asserted.ok (Published.enqueued (PublisherTask.updateImage name image)) ∧
      AddPlotValue ImHashStr r name groupName y x style
        = Asserted.ok (Published.enqueued
            (PublisherTask.addPlotValue name groupName x y (style.getD ""))) ∧
      AddValue ImHashStr r name valueName value
        = Asserted.ok (Published.enqueued (PublisherTask.addValue name valueName value))) ∧
    (PublisherTask.run ImHashStr r vp e r1 r2 (PublisherTask.updateImage name image)
        = Asserted.ok
            { windowManager := (r.windowManager.AddWindow ImHashStr name vp e r1 r2).1
              panels := r.panels ++
                [Panel.image (ImageWindow.UpdateImage {}
                  ((r.windowManager.AddWindow ImHashStr name vp e r1 r2).1.data
                    (r.windowManager.FindOrCreateDataForWindow ImHashStr name).2).isVisible
                  image)] } ∧
      PublisherTask.run ImHashStr r vp e r1 r2
          (PublisherTask.addPlotValue name groupName x y (style.getD ""))
        = Asserted.ok
            { windowManager := (r.windowManager.AddWindow ImHashStr name vp e r1 r2).1
              panels := r.panels ++
                [Panel.plot (PlotWindow.AddPlotValue ImHashStr {}
                  ((r.windowManager.AddWindow ImHashStr name vp e r1 r2).1.data
                    (r.windowManager.FindOrCreateDataForWindow ImHashStr name).2).isVisible
                  groupName y x
                  (if style.getD "" = "" then none else some (style.getD "")))] } ∧
      PublisherTask.run ImHashStr r vp e r1 r2 (PublisherTask.addValue name valueName value)
        = Asserted.ok
            { windowManager := (r.windowManager.AddWindow ImHashStr name vp e r1 r2).1
              panels := r.panels ++
                [Panel.values (ValueListWindow.AddValue {} valueName value)] }) ∧
    ((r.windowManager.AddWindow ImHashStr name vp e r1 r2).1._windows
        = r.windowManager._windows ++
          [{ imGuiData := (r.windowManager.FindOrCreateDataForWindow ImHashStr name).2 }] ∧
      ((r.windowManager.AddWindow ImHashStr name vp e r1 r2).1.data
          (r.windowManager.FindOrCreateDataForWindow ImHashStr name).2).window
        = some r.windowManager._windows.length ∧
      ((r.windowManager.AddWindow ImHashStr name vp e r1 r2).1.data
          (r.windowManager.FindOrCreateDataForWindow ImHashStr name).2).name = name ∧
      (∀ (q : Nat) (d : WindowData),
        r.windowManager.findDataForWindow (ImHashStr name) = some q →
        r.windowManager._windowsData[q]? = some d →
        (r.windowManager.FindOrCreateDataForWindow ImHashStr name).2 = q ∧
        (r.windowManager.AddWindow ImHashStr name vp e r1 r2).1._windowsData.length
          = r.windowManager._windowsData.length ∧
        ((r.windowManager.AddWindow ImHashStr name vp e r1 r2).1.data q).category
          = d.category ∧
        ((r.windowManager.AddWindow ImHashStr name vp e r1 r2).1.data q).helpString
          = d.helpString ∧
        ((r.windowManager.AddWindow ImHashStr name vp e r1 r2).1.data q).preferredContentSize
          = d.preferredContentSize ∧
        ((r.windowManager.AddWindow ImHashStr name vp e r1 r2).1.data q).isVisible
          = d.isVisible) ∧
      (r.windowManager.findDataForWindow (ImHashStr name) = none →
        (r.windowManager.FindOrCreateDataForWindow ImHashStr name).2
          = r.windowManager._windowsData.length ∧
        (r.windowManager.AddWindow ImHashStr name vp e r1 r2).1._windowsData.length
          = r.windowManager._windowsData.length + 1 ∧
        ((r.windowManager.AddWindow ImHashStr name vp e r1 r2).1.data
            r.windowManager._windowsData.length).category = "Default" ∧
        ((r.windowManager.AddWindow ImHashStr name vp e r1 r2).1.data
            r.windowManager._windowsData.length).helpString = "No help specified" ∧
        ((r.windowManager.AddWindow ImHashStr name vp e r1 r2).1.data
            r.windowManager._windowsData.length).preferredContentSize = ⟨320, 240⟩ ∧
        ((r.windowManager.AddWindow ImHashStr name vp e r1 r2).1.data
            r.windowManager._windowsData.length).isVisible = true) ∧
      (∀ i, i ≠ (r.windowManager.FindOrCreateDataForWindow ImHashStr name).2 →
        (r.windowManager.AddWindow ImHashStr name vp e r1 r2).1._windowsData[i]?
          = r.windowManager._windowsData[i]?)) := by
  have hfind := FindWindow_without_panel ImHashStr r.windowManager name hidx hname
  refine ⟨⟨?_, ?_, ?_⟩, ⟨?_, ?_, ?_⟩, ?_⟩
  · simp only [UpdateImage, FindWindowAs, hfind]
  · simp only [AddPlotValue, FindWindowAs, hfind]
  · simp only [AddValue, FindWindowAs, hfind]
  · exact run_updateImage_without_panel ImHashStr r name vp e r1 r2 image hidx halign hname
  · exact run_addPlotValue_without_panel ImHashStr r name vp e r1 r2 groupName x y _ hidx halign
      hname
  · exact run_addValue_without_panel ImHashStr r name vp e r1 r2 valueName value hidx halign
      hname
  · exact AddWindow_binds ImHashStr r.windowManager name vp e r1 r2
      (fun d hd hid => (hname d hd hid).1)

/-- C11, witness: `UpdateImage` on the name `A`, whose metadata holds the
category `Images` and the preferred size 640 by 480 and has no window. The
publisher enqueues; the task adds an image panel holding the bitmap, bound to
the one entry, whose category and size are as before. -/
theorem publish_without_panel_witness :
    metadataOfA.windowManager.IndexInv ∧
    metadataOfA.panels.length = metadataOfA.windowManager._windows.length ∧
    (∀ d ∈ metadataOfA.windowManager._windowsData,
      d.id = polyHash "A" → d.name = "A" ∧ d.window = none) ∧
    UpdateImage polyHash metadataOfA "A" bitmapAt7
      = Asserted.ok (Published.enqueued (PublisherTask.updateImage "A" bitmapAt7)) ∧
    (PublisherTask.run polyHash metadataOfA viewport1280x720 20 0 0
        (PublisherTask.updateImage "A" bitmapAt7)).toOption.map
      (fun r => (r.panels, r.windowManager._windows))
      = some ([Panel.image { image := bitmapAt7 }], [{ imGuiData := 0 }]) ∧
    (PublisherTask.run polyHash metadataOfA viewport1280x720 20 0 0
        (PublisherTask.updateImage "A" bitmapAt7)).toOption.map
      (fun r => r.windowManager._windowsData.map WindowData.sansLayout)
      = some [{ name := "A", id := 65, isVisible := true, window := some 0,
                category := "Images", preferredContentSize := ⟨640, 480⟩ }] :=
  ⟨IndexInv_registryAfter polyHash _, by decide, by decide,
   (publish_without_panel polyHash metadataOfA "A" viewport1280x720 20 0 0 bitmapAt7 "L1" 1 0
      none "v" "1" (IndexInv_registryAfter polyHash _) (by decide) (by decide)).1.1,
   by decide!, by decide!⟩

/-- C11, counterexample. First, the registry holds the metadata of `Aa` alone
and no window, so that `BB` has no panel instance; under the 32-bit hash
`polyHash` the name `BB` has the id of `Aa`, and `UpdateImage`, `AddPlotValue`
and `AddValue` on `BB` fail the assertion of the lookup instead of enqueueing.
Second, on the empty registry `UpdateImage` and then `AddPlotValue` publish to
`A`: both enqueue, the first task adds an image panel, and the second task fails
the assertion of `FindOrCreateWindow<PlotWindow>`. Third, no hash into 32 bits
makes the claim true, since each one sends two different names to one id. -/
theorem publish_without_panel_counterexample :
    (metadataOfAa.windowManager._windows = [] ∧
      (∀ d ∈ metadataOfAa.windowManager._windowsData, d.name ≠ "BB") ∧
      UpdateImage polyHash metadataOfAa "BB" bitmapAt7 = Asserted.assertionFailed ∧
      AddPlotValue polyHash metadataOfAa "BB" "L1" 1 0 none = Asserted.assertionFailed ∧
      AddValue polyHash metadataOfAa "BB" "v" "1" = Asserted.assertionFailed) ∧
    (UpdateImage polyHash {} "A" bitmapAt7
        = Asserted.ok (Published.enqueued (PublisherTask.updateImage "A" bitmapAt7)) ∧
      AddPlotValue polyHash {} "A" "L1" 1 0 none
        = Asserted.ok (Published.enqueued (PublisherTask.addPlotValue "A" "L1" 0 1 "")) ∧
      (PublisherTask.run polyHash {} viewport1280x720 20 0 0
          (PublisherTask.updateImage "A" bitmapAt7)).toOption.map (fun r => r.panels)
        = some [Panel.image { image := bitmapAt7 }] ∧
      (match PublisherTask.run polyHash {} viewport1280x720 20 0 0
          (PublisherTask.updateImage "A" bitmapAt7) with
        | Asserted.ok r =>
          PublisherTask.run polyHash r viewport1280x720 20 0 0
            (PublisherTask.addPlotValue "A" "L1" 0 1 "")
        | Asserted.assertionFailed => Asserted.assertionFailed)
        = Asserted.assertionFailed) ∧
    ¬ ∃ ImHashStr : String → ImGuiID, (∀ s, ImHashStr s < 4294967296) ∧
      ∀ (ops : List RegistryOp) (name : String) (image : Mat),
        (∀ d ∈ (registryAfter ImHashStr ops)._windowsData, d.window = none) →
        UpdateImage ImHashStr { windowManager := registryAfter ImHashStr ops } name image
          = Asserted.ok (Published.enqueued (PublisherTask.updateImage name image)) := by
  refine ⟨⟨by decide, by decide, by decide, by decide, by decide⟩,
    ⟨by decide, by decide, by decide!, by decide!⟩, ?_⟩
  rintro ⟨H, hb, hall⟩
  obtain ⟨s1, s2, hne, he⟩ := exists_hash_collision H hb
  have h := hall [RegistryOp.FindOrCreateDataForWindow s1] s2 {} (by
    intro d hd
    simp [registryAfter, RegistryOp.apply, WindowManager.FindOrCreateDataForWindow,
      WindowManager.findDataForWindow, WindowData.new] at hd
    rw [hd])
  simp [registryAfter, RegistryOp.apply, WindowManager.FindOrCreateDataForWindow,
    WindowManager.findDataForWindow, WindowManager.createDataForWindow,
    WindowManager.findOrCreateCategory, WindowData.new, UpdateImage, FindWindowAs, FindWindow,
    WindowManager.ConcurrentFindWindow, WindowManager.ConcurrentFindWindowById,
    ImGuiStorage.SetVoidPtr, ImGuiStorage.GetVoidPtr, he, WindowManager.data, hne] at h

theorem lookup_UnorderedMap_assign (m : List (String × String)) (k v n : String) :
    List.lookup n (UnorderedMap.assign m k v)
      = if n = k then some v else List.lookup n m := by
  induction m with
  | nil =>
    by_cases h : n = k
    · simp [UnorderedMap.assign, List.lookup, h]
    · have hb : (n == k) = false := by simpa using h
      simp [UnorderedMap.assign, List.lookup, h, hb]
  | cons p m ih =>
    obtain ⟨k0, v0⟩ := p
    by_cases h0 : k0 = k
    · subst h0
      by_cases h : n = k0
      · simp [UnorderedMap.assign, List.lookup, h]
      · have hb : (n == k0) = false := by simpa using h
        simp [UnorderedMap.assign, List.lookup, h, hb]
    · by_cases h : n = k0
      · subst h
        simp [UnorderedMap.assign, List.lookup, h0]
      · have hb : (n == k0) = false := by simpa using h
        simp only [UnorderedMap.assign, h0, if_false, List.lookup, hb, ih]

theorem lookup_foldl_UnorderedMap_assign (its : List ValueToUpdate) (n : String) :
    ∀ (m : List (String × String)),
      List.lookup n (its.foldl (fun values it => UnorderedMap.assign values it.valueName it.value) m)
        = match List.lookup n (its.map (fun it => (it.valueName, it.value))).reverse with
          | some v => some v
          | none => List.lookup n m := by
  induction its using List.reverseRecOn with
  | nil => intro m; simp [List.lookup]
  | append_singleton its it ih =>
    intro m
    rw [List.foldl_append]
    simp only [List.foldl_cons, List.foldl_nil, lookup_UnorderedMap_assign, List.map_append,
      List.map_cons, List.map_nil, List.reverse_append, List.reverse_cons, List.reverse_nil,
      List.nil_append, List.singleton_append]
    by_cases h : n = it.valueName
    · subst h
      simp [List.lookup]
    · have h1 : (n == it.valueName) = false := by simpa using h
      simp only [h, if_false, List.lookup, h1]
      exact ih m

theorem foldl_AddValue_fields (posts : List (String × String)) :
    ∀ (w : ValueListWindow),
      (posts.foldl (fun w post => w.AddValue post.1 post.2) w).valuesToUpdate
        = w.valuesToUpdate ++ posts.map (fun post => { valueName := post.1, value := post.2 }) ∧
      (posts.foldl (fun w post => w.AddValue post.1 post.2) w)._cacheOfValuesToUpdate
        = w._cacheOfValuesToUpdate ∧
      (posts.foldl (fun w post => w.AddValue post.1 post.2) w)._values = w._values := by
  induction posts with
  | nil => intro w; simp
  | cons post posts ih =>
    intro w
    obtain ⟨h1, h2, h3⟩ := ih (w.AddValue post.1 post.2)
    rw [List.foldl_cons, h1, h2, h3]
    simp [ValueListWindow.AddValue]

theorem afterPosts_fields (values : List (String × String)) (existingGroups : ImGuiStorage)
    (pending : List ValueToUpdate) (posts : List (String × String)) :
    (ValueListWindow.afterPosts values existingGroups pending posts).valuesToUpdate
      = pending ++ posts.map (fun post => { valueName := post.1, value := post.2 }) ∧
    (ValueListWindow.afterPosts values existingGroups pending posts)._cacheOfValuesToUpdate = [] ∧
    (ValueListWindow.afterPosts values existingGroups pending posts)._values = values :=
  foldl_AddValue_fields posts _

/-- C21. Initial placement: for every registry, name, viewport, style value and
pair of random fractions, `AddWindow` leaves in the layout command of the entry
it returns `hasData = true`, the condition `FirstUseEver`, the size
`preferredWindowSize = (pw, ph)` of that entry, and the position
`(Pos.x + 200 + rx * max 0 (Size.x - 200 - pw), Pos.y + ry * max 0 (Size.y - ph))`;
when `rx` and `ry` are in [0, 1], `pw <= Size.x - 200` and `ph <= Size.y`, that
position is in `[Pos.x + 200, Pos.x + Size.x - pw] x [Pos.y, Pos.y + Size.y - ph]`. -/
theorem AddWindow_initial_placement (ImHashStr : String → ImGuiID) (wm : WindowManager)
    (windowName : String) (vp : ImGuiViewport) (extraWindowHeight rx ry : ℚ) :
    let added := wm.AddWindow ImHashStr windowName vp extraWindowHeight rx ry
    let data := added.1.data added.2
    let pw := (data.preferredWindowSize extraWindowHeight).x
    let ph := (data.preferredWindowSize extraWindowHeight).y
    data.layoutUpdateOnNextFrame
        = { hasData := true
            pos := { x := vp.Pos.x + 200 + rx * max 0 (vp.Size.x - 200 - pw)
                     y := vp.Pos.y + ry * max 0 (vp.Size.y - ph) }
            size := { x := pw, y := ph }
            imGuiCond := ImGuiCond.FirstUseEver } ∧
      (0 ≤ rx → rx ≤ 1 → 0 ≤ ry → ry ≤ 1 → pw ≤ vp.Size.x - 200 → ph ≤ vp.Size.y →
        vp.Pos.x + 200 ≤ data.layoutUpdateOnNextFrame.pos.x ∧
        data.layoutUpdateOnNextFrame.pos.x ≤ vp.Pos.x + vp.Size.x - pw ∧
        vp.Pos.y ≤ data.layoutUpdateOnNextFrame.pos.y ∧
        data.layoutUpdateOnNextFrame.pos.y ≤ vp.Pos.y + vp.Size.y - ph) := by
  intro added data pw ph
  have hlt := FindOrCreateDataForWindow_lt ImHashStr
    { wm with _windows := wm._windows ++ [{ imGuiData := 0 }] } windowName
  have hdata : data.layoutUpdateOnNextFrame
      = { hasData := true
          pos := { x := vp.Pos.x + 200 + rx * max 0 (vp.Size.x - 200 - pw)
                   y := vp.Pos.y + ry * max 0 (vp.Size.y - ph) }
          size := { x := pw, y := ph }
          imGuiCond := ImGuiCond.FirstUseEver } := by
    simp only [data, pw, ph, added, WindowManager.AddWindow, data_modifyData, hlt, and_self,
      if_true, WindowData.preferredWindowSize, WindowManager.windowListWidth]
  refine ⟨hdata, ?_⟩
  intro hrx0 hrx1 hry0 hry1 hpw hph
  rw [hdata]
  simp only
  have hw : max 0 (vp.Size.x - 200 - pw) = vp.Size.x - 200 - pw := max_eq_right (by linarith)
  have hh : max 0 (vp.Size.y - ph) = vp.Size.y - ph := max_eq_right (by linarith)
  rw [hw, hh]
  have h1 : 0 ≤ vp.Size.x - 200 - pw := by linarith
  have h2 : 0 ≤ vp.Size.y - ph := by linarith
  refine ⟨?_, ?_, ?_, ?_⟩
  · nlinarith [mul_nonneg hrx0 h1]
  · nlinarith [mul_le_mul_of_nonneg_right hrx1 h1]
  · nlinarith [mul_nonneg hry0 h2]
  · nlinarith [mul_le_mul_of_nonneg_right hry1 h2]

/-- C21, witness: a first panel "A" (content 320 by 240, title bar 20) added in
a 1280 by 720 viewport with fractions 1/2 and 1/4 is placed at (580, 115),
inside [200, 960] x [0, 460]. -/
theorem AddWindow_initial_placement_witness :
    ((0 : ℚ) ≤ 1 / 2 ∧ (1 / 2 : ℚ) ≤ 1 ∧ (0 : ℚ) ≤ 1 / 4 ∧ (1 / 4 : ℚ) ≤ 1) ∧
    ((({} : WindowManager).AddWindow polyHash "A" viewportAtOrigin 20 (1 / 2) (1 / 4)).1.data
        (({} : WindowManager).AddWindow polyHash "A" viewportAtOrigin 20 (1 / 2) (1 / 4)).2
      ).preferredWindowSize 20 = ⟨320, 260⟩ ∧
    ((({} : WindowManager).AddWindow polyHash "A" viewportAtOrigin 20 (1 / 2) (1 / 4)).1.data
        (({} : WindowManager).AddWindow polyHash "A" viewportAtOrigin 20 (1 / 2) (1 / 4)).2
      ).layoutUpdateOnNextFrame.pos = ⟨580, 115⟩ ∧
    viewportAtOrigin.Pos.x + 200
      ≤ ((({} : WindowManager).AddWindow polyHash "A" viewportAtOrigin 20 (1 / 2) (1 / 4)).1.data
        (({} : WindowManager).AddWindow polyHash "A" viewportAtOrigin 20 (1 / 2) (1 / 4)).2
        ).layoutUpdateOnNextFrame.pos.x :=
  ⟨by norm_num, by decide!, by decide!,
    ((AddWindow_initial_placement polyHash {} "A" viewportAtOrigin 20 (1 / 2) (1 / 4)).2
      (by norm_num) (by norm_num) (by norm_num) (by norm_num) (by decide!) (by decide!)).1⟩

/-- C22. Latest-value semantics of the value list panel: for every map, every
pending list left by earlier calls and every sequence of `AddValue(name, value)`
calls followed by one `Render`, after the render the pending list and the cache
are empty, and looking a name up in the map gives the last value pending or
posted for it, or else what the old map held (or did not hold) for it. -/
theorem ValueListWindow_latest_value (values : List (String × String))
    (existingGroups : ImGuiStorage) (pending : List ValueToUpdate)
    (posts : List (String × String)) (name : String) :
    ((ValueListWindow.afterPosts values existingGroups pending posts).Render).1.valuesToUpdate = [] ∧
    ((ValueListWindow.afterPosts values existingGroups pending
        posts).Render).1._cacheOfValuesToUpdate = [] ∧
    List.lookup name ((ValueListWindow.afterPosts values existingGroups pending posts).Render).1._values
      = match List.lookup name
          (pending.map (fun it => (it.valueName, it.value)) ++ posts).reverse with
        | some value => some value
        | none => List.lookup name values := by
  obtain ⟨h1, h2, h3⟩ := afterPosts_fields values existingGroups pending posts
  refine ⟨?_, rfl, ?_⟩
  · simp only [ValueListWindow.Render, h2]
  · have e : (posts.map (fun post => ({ valueName := post.1, value := post.2 } : ValueToUpdate))).map
        (fun it => (it.valueName, it.value)) = posts := by
      simp [List.map_map, Function.comp_def]
    simp only [ValueListWindow.Render, h1, h3, lookup_foldl_UnorderedMap_assign, List.map_append, e]

/-- C23. For every plot panel state, after `Clear` the group map is empty,
`_previousLimits` is the default-constructed value and `_autoFitEnabled` is
true. -/
theorem PlotWindow_Clear_resets (w : PlotWindow) :
    w.Clear._groupData = [] ∧ w.Clear._previousLimits = {} ∧ w.Clear._autoFitEnabled = true :=
  ⟨rfl, rfl, rfl⟩

theorem GroupMap.mem_update (m : GroupMap) (key : ImGuiID) (f : GroupData → GroupData)
    (p : ImGuiID × GroupData) (h : p ∈ m.update key f) :
    p ∈ m ∨ p = (key, f (m.get key)) := by
  induction m with
  | nil =>
    simp only [GroupMap.update, List.mem_singleton] at h
    exact Or.inr (by simpa [GroupMap.get] using h)
  | cons q m ih =>
    obtain ⟨k0, v⟩ := q
    by_cases h0 : k0 = key
    · simp only [GroupMap.update, h0, if_true, List.mem_cons] at h
      rcases h with h | h
      · exact Or.inr (by simpa [GroupMap.get, h0] using h)
      · exact Or.inl (List.mem_cons_of_mem _ h)
    · simp only [GroupMap.update, h0, if_false, List.mem_cons] at h
      rcases h with h | h
      · exact Or.inl (by rw [h]; exact List.mem_cons_self _ _)
      · rcases ih h with h | h
        · exact Or.inl (List.mem_cons_of_mem _ h)
        · exact Or.inr (by simpa [GroupMap.get, h0] using h)

theorem GroupMap.get_default_or_mem (m : GroupMap) (key : ImGuiID) :
    m.get key = {} ∨ (key, m.get key) ∈ m := by
  induction m with
  | nil => exact Or.inl rfl
  | cons q m ih =>
    obtain ⟨k0, v⟩ := q
    by_cases h0 : k0 = key
    · right
      simp [GroupMap.get, h0]
    · rcases ih with h | h
      · left
        simpa [GroupMap.get, h0] using h
      · right
        simp only [GroupMap.get, h0, if_false]
        exact List.mem_cons_of_mem _ h

theorem GroupMap.get_forall (Q : GroupData → Prop) (m : GroupMap) (key : ImGuiID)
    (hm : ∀ p ∈ m, Q p.2) (h0 : Q {}) : Q (m.get key) := by
  rcases GroupMap.get_default_or_mem m key with h | h
  · rw [h]; exact h0
  · exact hm _ h

theorem GroupMap.update_forall (Q : GroupData → Prop) (m : GroupMap) (key : ImGuiID)
    (f : GroupData → GroupData) (hm : ∀ p ∈ m, Q p.2) (hf : Q (f (m.get key))) :
    ∀ p ∈ m.update key f, Q p.2 := by
  intro p hp
  rcases GroupMap.mem_update m key f p hp with h | h
  · exact hm p h
  · rw [h]; exact hf

theorem parseAndFillStyle_data (style : String) (g0 g : GroupData)
    (h : parseAndFillStyle style g0 = Asserted.ok g) :
    g.xData = g0.xData ∧ g.yData = g0.yData := by
  unfold parseAndFillStyle at h
  split at h
  · exact absurd h (by simp)
  · split at h
    · injection h with h
      rw [← h]
      exact ⟨rfl, rfl⟩
    · exact absurd h (by simp)

/-- What installing a group leaves alone, whatever the style. -/
theorem installGroup_fields (H : String → ImGuiID) (w w1 : PlotWindow) (group : GroupToAdd)
    (h : w.installGroup H group = Asserted.ok w1) :
    w1._cacheOfDataToAppend = w._cacheOfDataToAppend ∧
    w1.dataSinceLastFrame = w.dataSinceLastFrame ∧
    w1.addedGroupsSinceLastFrame = w.addedGroupsSinceLastFrame ∧
    w1._dataBounds = w._dataBounds ∧
    ∀ P : List ℚ → List ℚ → Prop, P [] [] →
      (∀ p ∈ w._groupData, P p.2.xData p.2.yData) →
      ∀ p ∈ w1._groupData, P p.2.xData p.2.yData := by
  unfold PlotWindow.installGroup at h
  simp only at h
  have hname : ∀ P : List ℚ → List ℚ → Prop, P [] [] →
      (∀ p ∈ w._groupData, P p.2.xData p.2.yData) →
      ∀ p ∈ w._groupData.update (H group.name) (fun g => { g with name := group.name }),
        P p.2.xData p.2.yData := by
    intro P h0 hm
    exact GroupMap.update_forall (fun g => P g.xData g.yData) _ _ _ hm
      (GroupMap.get_forall (fun g => P g.xData g.yData) _ _ hm h0)
  by_cases hs : group.style = ""
  · simp only [hs, ne_eq, not_true_eq_false, if_false] at h
    injection h with h
    subst h
    exact ⟨rfl, rfl, rfl, rfl, hname⟩
  · simp only [ne_eq, hs, not_false_eq_true, if_true] at h
    cases hp : parseAndFillStyle group.style
        ((w._groupData.update (H group.name) (fun g => { g with name := group.name })).get
          (H group.name)) with
    | assertionFailed => rw [hp] at h; exact absurd h (by simp)
    | ok g =>
      rw [hp] at h
      injection h with h
      subst h
      refine ⟨rfl, rfl, rfl, rfl, ?_⟩
      intro P h0 hm
      obtain ⟨ex, ey⟩ := parseAndFillStyle_data _ _ _ hp
      apply GroupMap.update_forall (fun g => P g.xData g.yData) _ _ _ (hname P h0 hm)
      simp only [ex, ey]
      exact GroupMap.get_forall (fun g => P g.xData g.yData) _ _ (hname P h0 hm) h0

theorem installGroups_fields (H : String → ImGuiID) (groups : List GroupToAdd) :
    ∀ (w w1 : PlotWindow), PlotWindow.installGroups H w groups = Asserted.ok w1 →
    w1._cacheOfDataToAppend = w._cacheOfDataToAppend ∧
    w1.dataSinceLastFrame = w.dataSinceLastFrame ∧
    w1.addedGroupsSinceLastFrame = w.addedGroupsSinceLastFrame ∧
    w1._dataBounds = w._dataBounds ∧
    ∀ P : List ℚ → List ℚ → Prop, P [] [] →
      (∀ p ∈ w._groupData, P p.2.xData p.2.yData) →
      ∀ p ∈ w1._groupData, P p.2.xData p.2.yData := by
  induction groups with
  | nil =>
    intro w w1 h
    simp only [PlotWindow.installGroups] at h
    injection h with h
    subst h
    exact ⟨rfl, rfl, rfl, rfl, fun _ _ hm => hm⟩
  | cons g groups ih =>
    intro w w1 h
    simp only [PlotWindow.installGroups] at h
    cases hg : w.installGroup H g with
    | assertionFailed => rw [hg] at h; exact absurd h (by simp)
    | ok w2 =>
      rw [hg] at h
      obtain ⟨a1, a2, a3, a4, a5⟩ := installGroup_fields H w w2 g hg
      obtain ⟨b1, b2, b3, b4, b5⟩ := ih w2 w1 h
      exact ⟨b1.trans a1, b2.trans a2, b3.trans a3, b4.trans a4,
        fun P h0 hm => b5 P h0 (a5 P h0 hm)⟩

/-- What `Render` returns when no assertion fails. -/
theorem Render_ok (H : String → ImGuiID) (w : PlotWindow) (input : PlotFrameInput)
    (result : PlotWindow × PlotFrameOutput) (h : w.Render H input = Asserted.ok result) :
    ∃ w2, PlotWindow.installGroups H
        { w with _cacheOfDataToAppend := w.dataSinceLastFrame,
                 dataSinceLastFrame := w._cacheOfDataToAppend }
        w.addedGroupsSinceLastFrame = Asserted.ok w2 ∧
      result = PlotWindow.draw
        { w2._cacheOfDataToAppend.foldl PlotWindow.appendSample w2 with
          _cacheOfDataToAppend := [] } input := by
  unfold PlotWindow.Render at h
  simp only at h
  cases hi : PlotWindow.installGroups H
        { w with _cacheOfDataToAppend := w.dataSinceLastFrame,
                 dataSinceLastFrame := w._cacheOfDataToAppend }
        w.addedGroupsSinceLastFrame with
  | assertionFailed => rw [hi] at h; exact absurd h (by simp)
  | ok w2 =>
    rw [hi] at h
    injection h with h
    exact ⟨w2, rfl, h.symm⟩

theorem Render_addedGroups (H : String → ImGuiID) (w : PlotWindow) (input : PlotFrameInput)
    (result : PlotWindow × PlotFrameOutput) (h : w.Render H input = Asserted.ok result) :
    result.1.addedGroupsSinceLastFrame = w.addedGroupsSinceLastFrame := by
  obtain ⟨w2, hi, hr⟩ := Render_ok H w input result h
  obtain ⟨-, -, a3, -, -⟩ := installGroups_fields H _ _ w2 hi
  rw [hr, (draw_fields _ input).2.2.2.1]
  simp only
  rw [(foldl_appendSample_fields _ w2).2.2.1, a3]

theorem appendSample_BoundsInv (w : PlotWindow) (it : DataToAppend) (h : w.BoundsInv) :
    (w.appendSample it).BoundsInv := by
  obtain ⟨h1, h2, h3, h4, h5⟩ := h
  obtain ⟨b1, b2, b3, b4⟩ := appendSample_dataBounds w it
  refine ⟨le_trans b1 h1, le_trans h2 b2, le_trans b3 h3, le_trans h4 b4, ?_⟩
  intro p hp
  have hold : ∀ q ∈ w._groupData,
      (∀ x ∈ q.2.xData, (w.appendSample it)._dataBounds.xMin ≤ x
        ∧ x ≤ (w.appendSample it)._dataBounds.xMax) ∧
      (∀ y ∈ q.2.yData, (w.appendSample it)._dataBounds.yMin ≤ y
        ∧ y ≤ (w.appendSample it)._dataBounds.yMax) := by
    intro q hq
    refine ⟨fun x hx => ?_, fun y hy => ?_⟩
    · exact ⟨le_trans b1 ((h5 q hq).1 x hx).1, le_trans ((h5 q hq).1 x hx).2 b2⟩
    · exact ⟨le_trans b3 ((h5 q hq).2 y hy).1, le_trans ((h5 q hq).2 y hy).2 b4⟩
  have hget := GroupMap.get_forall (fun g =>
      (∀ x ∈ g.xData, (w.appendSample it)._dataBounds.xMin ≤ x
        ∧ x ≤ (w.appendSample it)._dataBounds.xMax) ∧
      (∀ y ∈ g.yData, (w.appendSample it)._dataBounds.yMin ≤ y
        ∧ y ≤ (w.appendSample it)._dataBounds.yMax)) w._groupData it.group hold
    (by simp)
  have hp1 : p ∈ w._groupData.update it.group _ := hp
  rcases GroupMap.mem_update _ _ _ p hp1 with hm | hm
  · exact hold p hm
  · rw [hm]
    simp only [PlotWindow.appendSample, GroupMap.get_update, if_true]
    split_ifs with hlen
    · simp only [List.mem_append, List.mem_singleton]
      refine ⟨fun x hx => ?_, fun y hy => ?_⟩
      · rcases hx with hx | hx
        · have := (hget.1 x hx)
          simp only [PlotWindow.appendSample, GroupMap.get_update, if_true, hlen] at this
          exact this
        · subst hx
          exact ⟨min_le_right _ _, le_max_right _ _⟩
      · rcases hy with hy | hy
        · have := (hget.2 y hy)
          simp only [PlotWindow.appendSample, GroupMap.get_update, if_true, hlen] at this
          exact this
        · subst hy
          exact ⟨min_le_right _ _, le_max_right _ _⟩
    · simp only [List.mem_append, List.mem_singleton]
      refine ⟨fun x hx => ?_, fun y hy => ?_⟩
      · rcases hx with hx | hx
        · have := (hget.1 x hx)
          simp only [PlotWindow.appendSample, GroupMap.get_update, if_true, hlen] at this
          exact this
        · subst hx
          exact ⟨le_trans (min_le_right _ _) (min_le_right _ _),
            le_trans (le_max_right _ _) (le_max_right _ _)⟩
      · rcases hy with hy | hy
        · have := (hget.2 y hy)
          simp only [PlotWindow.appendSample, GroupMap.get_update, if_true, hlen] at this
          exact this
        · subst hy
          exact ⟨le_trans (min_le_right _ _) (min_le_right _ _),
            le_trans (le_max_right _ _) (le_max_right _ _)⟩

theorem foldl_appendSample_BoundsInv (its : List DataToAppend) :
    ∀ (w : PlotWindow), w.BoundsInv → (its.foldl PlotWindow.appendSample w).BoundsInv := by
  induction its with
  | nil => intro w h; exact h
  | cons it its ih => intro w h; exact ih _ (appendSample_BoundsInv w it h)

theorem Render_BoundsInv (H : String → ImGuiID) (w : PlotWindow) (input : PlotFrameInput)
    (result : PlotWindow × PlotFrameOutput) (h : w.Render H input = Asserted.ok result)
    (hinv : w.BoundsInv) : result.1.BoundsInv := by
  obtain ⟨w2, hi, hr⟩ := Render_ok H w input result h
  obtain ⟨-, -, -, a4, a5⟩ := installGroups_fields H _ _ w2 hi
  have h2 : w2.BoundsInv := by
    obtain ⟨h1, h2, h3, h4, h5⟩ := hinv
    refine ⟨by rw [a4]; exact h1, by rw [a4]; exact h2, by rw [a4]; exact h3,
      by rw [a4]; exact h4, ?_⟩
    rw [a4]
    exact a5 (fun xs ys => (∀ x ∈ xs, w._dataBounds.xMin ≤ x ∧ x ≤ w._dataBounds.xMax) ∧
      (∀ y ∈ ys, w._dataBounds.yMin ≤ y ∧ y ≤ w._dataBounds.yMax)) (by simp) h5
  have h3 := foldl_appendSample_BoundsInv w2._cacheOfDataToAppend w2 h2
  obtain ⟨d1, -, -, -, d5⟩ := draw_fields
    { w2._cacheOfDataToAppend.foldl PlotWindow.appendSample w2 with
      _cacheOfDataToAppend := [] } input
  rw [hr]
  unfold PlotWindow.BoundsInv
  rw [d1, d5]
  exact h3

theorem AddPlotValue_groupData_bounds (H : String → ImGuiID) (w : PlotWindow)
    (isVisible : Bool) (g : String) (y x : ℚ) (style : Option String) :
    (w.AddPlotValue H isVisible g y x style)._groupData = w._groupData ∧
    (w.AddPlotValue H isVisible g y x style)._dataBounds = w._dataBounds := by
  unfold PlotWindow.AddPlotValue
  dsimp only
  split_ifs <;> exact ⟨rfl, rfl⟩

theorem afterOps_BoundsInv (H : String → ImGuiID) (ops : List PlotOp) :
    ∀ (w w1 : PlotWindow), w.BoundsInv → PlotWindow.afterOps H w ops = Asserted.ok w1 →
      w1.BoundsInv := by
  induction ops with
  | nil =>
    intro w w1 hinv h
    simp only [PlotWindow.afterOps] at h
    injection h with h
    rw [← h]; exact hinv
  | cons op ops ih =>
    intro w w1 hinv h
    cases op with
    | AddPlotValue isVisible g y x style =>
      simp only [PlotWindow.afterOps] at h
      refine ih _ w1 ?_ h
      obtain ⟨e1, e2⟩ := AddPlotValue_groupData_bounds H w isVisible g y x style
      unfold PlotWindow.BoundsInv
      rw [e1, e2]
      exact hinv
    | Render input =>
      simp only [PlotWindow.afterOps] at h
      cases hr : w.Render H input with
      | assertionFailed => rw [hr] at h; exact absurd h (by simp)
      | ok result =>
        rw [hr] at h
        exact ih _ w1 (Render_BoundsInv H w input result hr hinv) h
    | Clear =>
      simp only [PlotWindow.afterOps] at h
      refine ih _ w1 ?_ h
      obtain ⟨h1, h2, h3, h4, -⟩ := hinv
      exact ⟨h1, h2, h3, h4, by simp [PlotWindow.Clear]⟩

theorem draw_nextPlotLimits (w : PlotWindow) (input : PlotFrameInput) (limits : ℚ × ℚ × ℚ × ℚ)
    (h : (w.draw input).2.nextPlotLimits = some limits) : limits = paddedLimits w._dataBounds := by
  have e : (w._dataBounds.xMin, w._dataBounds.xMax * (3 / 2),
      if w._dataBounds.yMin < 0 then w._dataBounds.yMin * (6 / 5)
      else w._dataBounds.yMin * (4 / 5), w._dataBounds.yMax * (6 / 5))
      = paddedLimits w._dataBounds := rfl
  unfold PlotWindow.draw at h
  simp only [e] at h
  split_ifs at h <;> (simp only [Option.some.injEq] at h; exact h.symm)

theorem paddedLimits_contain_x (b : DataBounds) (h1 : 1 ≤ b.xMax) (x : ℚ)
    (hx : b.xMin ≤ x ∧ x ≤ b.xMax) :
    (paddedLimits b).1 ≤ x ∧ x ≤ (paddedLimits b).2.1 := by
  simp only [paddedLimits]
  exact ⟨hx.1, by linarith [hx.2]⟩

theorem paddedLimits_contain_y (b : DataBounds) (h3 : b.yMin ≤ 0) (h4 : 1 ≤ b.yMax) (y : ℚ)
    (hy : b.yMin ≤ y ∧ y ≤ b.yMax) :
    (paddedLimits b).2.2.1 ≤ y ∧ y ≤ (paddedLimits b).2.2.2 := by
  simp only [paddedLimits]
  refine ⟨?_, by linarith [hy.2]⟩
  split_ifs with hneg
  · linarith [hy.1]
  · have : b.yMin = 0 := le_antisymm h3 (le_of_not_lt hneg)
    rw [this]; linarith [hy.1]

theorem BoundsInv_new : ({} : PlotWindow).BoundsInv := by
  refine ⟨le_refl _, le_refl _, le_refl _, le_refl _, ?_⟩
  intro p hp
  exact absurd hp (List.not_mem_nil p)

/-- C28. Auto-fit limits contain the data: in every plot panel state reached
from a new panel by `AddPlotValue`, `Render` and `Clear` calls, when `Render`
hands limits to `SetNextPlotLimits` they are x in [xMin, 1.5 * xMax] and y in
[1.2 * yMin if yMin < 0 else 0.8 * yMin, 1.2 * yMax] for the global data bounds
after that flush, and every x and every y held by any group is inside them. -/
theorem autofit_limits_contain_data (ImHashStr : String → ImGuiID) (ops : List PlotOp)
    (w : PlotWindow) (input : PlotFrameInput) (result : PlotWindow × PlotFrameOutput)
    (limits : ℚ × ℚ × ℚ × ℚ)
    (hreach : PlotWindow.afterOps ImHashStr {} ops = Asserted.ok w)
    (hrender : w.Render ImHashStr input = Asserted.ok result)
    (hlimits : result.2.nextPlotLimits = some limits) :
    limits = (result.1._dataBounds.xMin, result.1._dataBounds.xMax * (3 / 2),
      if result.1._dataBounds.yMin < 0 then result.1._dataBounds.yMin * (6 / 5)
      else result.1._dataBounds.yMin * (4 / 5),
      result.1._dataBounds.yMax * (6 / 5)) ∧
    ∀ p ∈ result.1._groupData,
      (∀ x ∈ p.2.xData, limits.1 ≤ x ∧ x ≤ limits.2.1) ∧
      (∀ y ∈ p.2.yData, limits.2.2.1 ≤ y ∧ y ≤ limits.2.2.2) := by
  have hinv := Render_BoundsInv ImHashStr w input result hrender
    (afterOps_BoundsInv ImHashStr ops {} w BoundsInv_new hreach)
  obtain ⟨w2, -, hr⟩ := Render_ok ImHashStr w input result hrender
  have hl : limits = paddedLimits result.1._dataBounds := by
    have h := draw_nextPlotLimits _ input limits (by rw [← hr]; exact hlimits)
    rw [h, hr, (draw_fields _ input).2.2.2.2]
  refine ⟨hl, ?_⟩
  obtain ⟨-, h2, h3, h4, h5⟩ := hinv
  intro p hp
  rw [hl]
  exact ⟨fun x hx => paddedLimits_contain_x _ h2 x ((h5 p hp).1 x hx),
    fun y hy => paddedLimits_contain_y _ h3 h4 y ((h5 p hp).2 y hy)⟩

/-- C28, witness: a new visible panel given the samples (3, 5) and (4, -2) on
"L1"; the flush emits the limits x in [0, 6], y in [-12/5, 6]. -/
theorem autofit_limits_contain_data_witness :
    PlotWindow.afterOps polyHash {} twoSamplesOnL1 = Asserted.ok twoSamplesPending ∧
    twoSamplesPending.Render polyHash {} = Asserted.ok twoSamplesFlushed ∧
    twoSamplesFlushed.2.nextPlotLimits = some (0, 6, -12 / 5, 6) ∧
    twoSamplesFlushed.1._groupData.map (fun p => (p.2.xData, p.2.yData)) = [([3, 4], [5, -2])] ∧
    ∀ p ∈ twoSamplesFlushed.1._groupData,
      (∀ x ∈ p.2.xData, (0 : ℚ) ≤ x ∧ x ≤ 6) ∧ (∀ y ∈ p.2.yData, (-12 / 5 : ℚ) ≤ y ∧ y ≤ 6) :=
  ⟨by decide!, by decide!, by decide!, by decide!,
    (autofit_limits_contain_data polyHash twoSamplesOnL1 twoSamplesPending {} twoSamplesFlushed
      (0, 6, -12 / 5, 6) (by decide!) (by decide!) (by decide!)).2⟩

/-- C29. What the code does: `Render` leaves the pending-group list as it found
it, so an entry appended by `AddPlotValue` is installed again by every later
`Render`. For a new visible panel after `AddPlotValue("L1", 1, 0, "#ff000000")`,
`Render` and `Clear`, the entry is still pending and the panel has no group; the
next `Render`, with no new sample, installs the group "L1" and parses its style
again. -/
theorem Render_keeps_pending_groups (ImHashStr : String → ImGuiID) (w : PlotWindow)
    (input : PlotFrameInput) :
    (match w.Render ImHashStr input with
      | Asserted.ok result =>
        result.1.addedGroupsSinceLastFrame = w.addedGroupsSinceLastFrame
      | Asserted.assertionFailed => True) ∧
    ((PlotWindow.afterOps polyHash {} styledSampleFlushedAndCleared).toOption.map
        (fun cleared => (cleared.addedGroupsSinceLastFrame, cleared.dataSinceLastFrame,
          cleared._groupData.map (fun p => p.2.name)))
      = some ([{ name := "L1", style := "#ff000000" }], [], [])) ∧
    ((PlotWindow.afterOps polyHash {}
          (styledSampleFlushedAndCleared ++ [PlotOp.Render {}])).toOption.map
        (fun again => (again.addedGroupsSinceLastFrame,
          again._groupData.map (fun p => (p.2.name, p.2.hasCustomLineColor))))
      = some ([{ name := "L1", style := "#ff000000" }], [("L1", true)])) := by
  refine ⟨?_, by decide!, by decide!⟩
  cases h : w.Render ImHashStr input with
  | assertionFailed => trivial
  | ok result => exact Render_addedGroups ImHashStr w input result h

theorem StdMap.mem_assign {α : Type} (m : StdMap α) (key : String) (value : α)
    (p : String × α) (h : p ∈ StdMap.assign m key value) : p = (key, value) ∨ p ∈ m := by
  induction m with
  | nil => simpa [StdMap.assign] using h
  | cons q m ih =>
    obtain ⟨k0, v0⟩ := q
    unfold StdMap.assign at h
    split_ifs at h with h1 h2
    · rcases List.mem_cons.1 h with h | h
      · exact Or.inr (by rw [h]; exact List.mem_cons_self _ _)
      · rcases ih h with h | h
        · exact Or.inl h
        · exact Or.inr (List.mem_cons_of_mem _ h)
    · rcases List.mem_cons.1 h with h | h
      · exact Or.inl (by rw [h, h2])
      · exact Or.inr (List.mem_cons_of_mem _ h)
    · rcases List.mem_cons.1 h with h | h
      · exact Or.inl h
      · exact Or.inr h

theorem StdMap.assign_sorted {α : Type} (m : StdMap α) (key : String) (value : α)
    (h : m.Pairwise (fun a b => a.1 < b.1)) :
    (StdMap.assign m key value).Pairwise (fun a b => a.1 < b.1) := by
  induction m with
  | nil => simp [StdMap.assign]
  | cons q m ih =>
    obtain ⟨k0, v0⟩ := q
    rw [List.pairwise_cons] at h
    unfold StdMap.assign
    split_ifs with h1 h2
    · rw [List.pairwise_cons]
      refine ⟨?_, ih h.2⟩
      intro a ha
      rcases StdMap.mem_assign m key value a ha with ha | ha
      · rw [ha]; exact h1
      · exact h.1 a ha
    · rw [List.pairwise_cons]
      exact ⟨h.1, h.2⟩
    · have hlt : key < k0 := lt_of_le_of_ne (le_of_not_lt h1) (fun e => h2 e.symm)
      rw [List.pairwise_cons]
      refine ⟨?_, List.pairwise_cons.2 h⟩
      intro a ha
      rcases List.mem_cons.1 ha with ha | ha
      · rw [ha]; exact hlt
      · exact lt_trans hlt (h.1 a ha)

theorem StdMap.assign_perm {α : Type} (m : StdMap α) (key : String) (value : α)
    (h : key ∉ m.map Prod.fst) : (StdMap.assign m key value).Perm ((key, value) :: m) := by
  induction m with
  | nil => simp [StdMap.assign]
  | cons q m ih =>
    obtain ⟨k0, v0⟩ := q
    simp only [List.map_cons, List.mem_cons, not_or] at h
    unfold StdMap.assign
    split_ifs with h1 h2
    · exact ((ih h.2).cons _).trans (List.Perm.swap _ _ _)
    · exact absurd h2.symm h.1
    · exact List.Perm.refl _

theorem foldl_StdMap_assign {α : Type} (hooks : List (String × α))
    (h : (hooks.map Prod.fst).Nodup) :
    (hooks.foldl (fun m hook => StdMap.assign m hook.1 hook.2) []).Perm hooks ∧
    (hooks.foldl (fun m hook => StdMap.assign m hook.1 hook.2) []).Pairwise
      (fun a b => a.1 < b.1) := by
  induction hooks using List.reverseRecOn with
  | nil => simp
  | append_singleton hooks hook ih =>
    rw [List.map_append, List.nodup_append] at h
    obtain ⟨h1, -, h3⟩ := h
    obtain ⟨ih1, ih2⟩ := ih h1
    rw [List.foldl_append]
    simp only [List.foldl_cons, List.foldl_nil]
    refine ⟨?_, StdMap.assign_sorted _ _ _ ih2⟩
    have hnot : hook.1 ∉ (hooks.foldl (fun m hook => StdMap.assign m hook.1 hook.2) []).map
        Prod.fst := by
      intro hmem
      have : hook.1 ∈ hooks.map Prod.fst := (ih1.map Prod.fst).subset hmem
      exact h3 this (by simp)
    exact (StdMap.assign_perm _ _ _ hnot).trans
      (((ih1.cons _)).trans (List.perm_append_singleton _ _).symm)

theorem findDataForWindow_FindOrCreateDataForWindow (H : String → ImGuiID) (wm : WindowManager)
    (n : String) :
    (wm.FindOrCreateDataForWindow H n).1.findDataForWindow (H n)
      = some (wm.FindOrCreateDataForWindow H n).2 := by
  have h := FindOrCreateDataForWindow_idem H wm n
  cases hf : (wm.FindOrCreateDataForWindow H n).1.findDataForWindow (H n) with
  | some q =>
    have e := (FindOrCreateDataForWindow_cases H (wm.FindOrCreateDataForWindow H n).1 n).1 q hf
    rw [h] at e
    exact congrArg some (congrArg Prod.snd e).symm
  | none =>
    have e := (FindOrCreateDataForWindow_cases H (wm.FindOrCreateDataForWindow H n).1 n).2 hf
    rw [h] at e
    have := FindOrCreateDataForWindow_lt H wm n
    omega

theorem setWindowPreRenderCallbackBody_of_found (H : String → ImGuiID) (n : String)
    (wm : WindowManager) (hook : String × Closure) (p : Nat)
    (h : wm.findDataForWindow (H n) = some p) :
    (setWindowPreRenderCallbackBody H n wm hook).findDataForWindow (H n) = some p ∧
    ((setWindowPreRenderCallbackBody H n wm hook).data p).preRenderCallbacks
      = StdMap.assign (wm.data p).preRenderCallbacks hook.1 hook.2 := by
  have e := (FindOrCreateDataForWindow_cases H wm n).1 p h
  unfold setWindowPreRenderCallbackBody
  rw [e]
  have hlt : p < wm._windowsData.length :=
    (List.findIdx?_eq_some_iff_getElem.1 h).1
  constructor
  · exact (findDataForWindow_eq_of_keys (keys_modifyData wm p
      (fun d => { d with preRenderCallbacks := StdMap.assign d.preRenderCallbacks hook.1 hook.2 })
      (fun d => ⟨rfl, rfl⟩)) _).trans h
  · rw [data_modifyData]
    simp [hlt]

theorem foldl_setWindowPreRenderCallbackBody (H : String → ImGuiID) (n : String)
    (hooks : List (String × Closure)) :
    ∀ (wm : WindowManager) (p : Nat), wm.findDataForWindow (H n) = some p →
      ((hooks.foldl (setWindowPreRenderCallbackBody H n) wm).data p).preRenderCallbacks
        = hooks.foldl (fun m hook => StdMap.assign m hook.1 hook.2)
            (wm.data p).preRenderCallbacks := by
  induction hooks with
  | nil => intro wm p _; rfl
  | cons hook hooks ih =>
    intro wm p h
    obtain ⟨h1, h2⟩ := setWindowPreRenderCallbackBody_of_found H n wm hook p h
    rw [List.foldl_cons, ih _ p h1, h2]
    rfl

theorem beginWindow_fields (input : FrameInput) (d : WindowData) :
    (beginWindow input d).preRenderCallbacks = d.preRenderCallbacks ∧
    (beginWindow input d).name = d.name := by
  unfold beginWindow
  simp only [WindowData.setPreferredWindowSize]
  split_ifs <;> exact ⟨rfl, rfl⟩

theorem foldl_invoke_callbacksRun (H : String → ImGuiID) (window : Option String)
    (its : List (String × Closure)) :
    ∀ (s : RenderState),
      (its.foldl (RenderState.invoke H window) s).callbacksRun
        = s.callbacksRun
          ++ its.map (fun it => { window := window, key := it.1, callback := it.2 }) := by
  induction its with
  | nil => intro s; simp
  | cons it its ih =>
    intro s
    rw [List.foldl_cons, ih]
    simp [RenderState.invoke]

/-- The loop body of a visible panel with a window invokes the panel's hooks in
the order of the map. -/
theorem renderWindow_callbacksRun (H : String → ImGuiID) (input : FrameInput) (s : RenderState)
    (p : Nat) (hwin : (s.ctx.windowManager.data p).window.isSome = true)
    (hvis : (s.ctx.windowManager.data p).isVisible = true)
    (hbegin : (input.window (s.ctx.windowManager.data p).name).preRenderBegin = true) :
    (renderWindow H input s p).callbacksRun
      = s.callbacksRun ++ (s.ctx.windowManager.data p).preRenderCallbacks.map (fun it =>
          { window := some (s.ctx.windowManager.data p).name, key := it.1, callback := it.2 }) := by
  have hd : ((s.withWindowManager (s.ctx.windowManager.modifyData p (beginWindow input))
      ).ctx.windowManager.data p).preRenderCallbacks
        = (s.ctx.windowManager.data p).preRenderCallbacks ∧
      ((s.withWindowManager (s.ctx.windowManager.modifyData p (beginWindow input))
      ).ctx.windowManager.data p).name = (s.ctx.windowManager.data p).name := by
    simp only [RenderState.withWindowManager, data_modifyData]
    split_ifs
    · exact beginWindow_fields input _
    · exact ⟨rfl, rfl⟩
  unfold renderWindow
  simp only [hwin, hvis, and_self, if_true]
  rw [hd.1, hd.2]
  simp only [hbegin, and_true]
  split_ifs with hne
  · rw [foldl_invoke_callbacksRun]
    rfl
  · have : (s.ctx.windowManager.data p).preRenderCallbacks = [] := by simpa using hne
    rw [this]
    simp [RenderState.withWindowManager]

theorem run_setWindowPreRenderCallback (H : String → ImGuiID) (n : String)
    (hook : String × Closure) (ctx : Context) :
    ((Closure.setWindowPreRenderCallback n hook.1 hook.2).run H ctx).windowManager
      = setWindowPreRenderCallbackBody H n ctx.windowManager hook := by
  simp only [Closure.run, setWindowPreRenderCallbackBody]

theorem foldl_run_setWindowPreRenderCallback (H : String → ImGuiID) (n : String)
    (hooks : List (String × Closure)) :
    ∀ (ctx : Context),
      ((hooks.map (fun hook => Closure.setWindowPreRenderCallback n hook.1 hook.2)).foldl
        (fun c task => task.run H c) ctx).windowManager
        = hooks.foldl (setWindowPreRenderCallbackBody H n) ctx.windowManager := by
  induction hooks with
  | nil => intro ctx; rfl
  | cons hook hooks ih =>
    intro ctx
    rw [List.map_cons, List.foldl_cons, ih, run_setWindowPreRenderCallback]
    rfl

theorem hooksQueued_fields (wm : WindowManager) (n : String) (hooks : List (String × Closure)) :
    hooksQueued wm n hooks
      = { windowManager := wm
          tasksForNextFrame :=
            hooks.map (fun hook => Closure.setWindowPreRenderCallback n hook.1 hook.2) } := by
  unfold hooksQueued
  induction hooks using List.reverseRecOn with
  | nil => rfl
  | append_singleton hooks hook ih =>
    rw [List.foldl_append, ih]
    simp [SetWindowPreRenderCallback, RunOnceInImGuiThread]

theorem renderTasks_hooksQueued (H : String → ImGuiID) (wm : WindowManager) (n : String)
    (hooks : List (String × Closure)) :
    (renderTasks H (hooksQueued wm n hooks)).ctx.windowManager
      = hooks.foldl (setWindowPreRenderCallbackBody H n) wm := by
  rw [hooksQueued_fields]
  simp only [renderTasks, clearTasksToRun, runTasks, drainTasks, List.append_nil, List.map_nil]
  exact foldl_run_setWindowPreRenderCallback H n hooks _

theorem foldl_setWindowPreRenderCallbackBody_first (H : String → ImGuiID) (n : String)
    (hooks : List (String × Closure)) (hne : hooks ≠ []) (wm : WindowManager) :
    hooks.foldl (setWindowPreRenderCallbackBody H n) wm
      = hooks.foldl (setWindowPreRenderCallbackBody H n) (wm.FindOrCreateDataForWindow H n).1 := by
  cases hooks with
  | nil => exact absurd rfl hne
  | cons hook hooks =>
    simp only [List.foldl_cons]
    congr 1
    simp only [setWindowPreRenderCallbackBody, FindOrCreateDataForWindow_idem]

/-- The hook map of a panel after the queued calls have run. -/
theorem renderTasks_hooksQueued_installed (H : String → ImGuiID) (wm : WindowManager)
    (n : String) (hooks : List (String × Closure))
    (hnone : ((wm.FindOrCreateDataForWindow H n).1.data
      (wm.FindOrCreateDataForWindow H n).2).preRenderCallbacks = [])
    (hne : hooks ≠ []) :
    ((renderTasks H (hooksQueued wm n hooks)).ctx.windowManager.data
        (wm.FindOrCreateDataForWindow H n).2).preRenderCallbacks
      = hooks.foldl (fun m hook => StdMap.assign m hook.1 hook.2) [] := by
  rw [renderTasks_hooksQueued, foldl_setWindowPreRenderCallbackBody_first H n hooks hne,
    foldl_setWindowPreRenderCallbackBody H n hooks _ _
      (findDataForWindow_FindOrCreateDataForWindow H wm n), hnone]

/-- C24 (as amended). Pre-render hook order: for every registry, panel name and
sequence of `SetWindowPreRenderCallback(window, hookName, closure)` calls with
non-empty closures and distinct hook names, made for a panel without hooks and
applied by the task drain of `Render`, the panel's hook map holds exactly the
inserted hooks in strictly ascending order of hook name (the order of
`std::string`), whatever the insertion order; and the loop body of a visible
panel with a window invokes the hooks of its map in that order. -/
theorem preRenderCallbacks_run_in_name_order (ImHashStr : String → ImGuiID) (input : FrameInput)
    (wm : WindowManager) (windowName : String) (hooks : List (String × Closure))
    (hdistinct : (hooks.map Prod.fst).Nodup)
    (hnone : ((wm.FindOrCreateDataForWindow ImHashStr windowName).1.data
      (wm.FindOrCreateDataForWindow ImHashStr windowName).2).preRenderCallbacks = []) :
    let p := (wm.FindOrCreateDataForWindow ImHashStr windowName).2
    let installed := ((renderTasks ImHashStr (hooksQueued wm windowName hooks)
      ).ctx.windowManager.data p).preRenderCallbacks
    installed.Perm hooks ∧ installed.Pairwise (fun a b => a.1 < b.1) ∧
    ∀ s : RenderState, (s.ctx.windowManager.data p).preRenderCallbacks = installed →
      (s.ctx.windowManager.data p).window.isSome = true →
      (s.ctx.windowManager.data p).isVisible = true →
      (input.window (s.ctx.windowManager.data p).name).preRenderBegin = true →
      (renderWindow ImHashStr input s p).callbacksRun
        = s.callbacksRun ++ installed.map (fun it =>
            { window := some (s.ctx.windowManager.data p).name, key := it.1, callback := it.2 }) := by
  intro p installed
  have hinst : installed = hooks.foldl (fun m hook => StdMap.assign m hook.1 hook.2) [] := by
    by_cases hne : hooks = []
    · subst hne
      simp only [installed, p, List.foldl_nil]
      rw [renderTasks_hooksQueued]
      simp only [List.foldl_nil]
      cases hf : wm.findDataForWindow (ImHashStr windowName) with
      | some q =>
        have e := (FindOrCreateDataForWindow_cases ImHashStr wm windowName).1 q hf
        rw [e] at hnone ⊢
        exact hnone
      | none =>
        have e := (FindOrCreateDataForWindow_cases ImHashStr wm windowName).2 hf
        rw [e.1]
        simp [WindowManager.data]
        rfl
    · exact renderTasks_hooksQueued_installed ImHashStr wm windowName hooks hnone hne
  obtain ⟨h1, h2⟩ := foldl_StdMap_assign hooks hdistinct
  refine ⟨by rw [hinst]; exact h1, by rw [hinst]; exact h2, ?_⟩
  intro s hs hwin hvis hbegin
  rw [renderWindow_callbacksRun ImHashStr input s p hwin hvis hbegin, hs]

/-- C24, witness: the hooks "b" and then "a" set on the panel "A"; the map holds
"a" before "b", and the loop body invokes them in that order. -/
theorem preRenderCallbacks_run_in_name_order_witness :
    (hooksBThenA.map Prod.fst).Nodup ∧
    ((registryWithPanelA.FindOrCreateDataForWindow polyHash "A").1.data
      (registryWithPanelA.FindOrCreateDataForWindow polyHash "A").2).preRenderCallbacks = [] ∧
    ((renderTasks polyHash (hooksQueued registryWithPanelA "A" hooksBThenA)
      ).ctx.windowManager.data (registryWithPanelA.FindOrCreateDataForWindow polyHash "A").2
      ).preRenderCallbacks
      = [("a", Closure.seq Closure.skip Closure.skip), ("b", Closure.skip)] ∧
    (renderWindow polyHash idleFrame
        (renderTasks polyHash (hooksQueued registryWithPanelA "A" hooksBThenA))
        (registryWithPanelA.FindOrCreateDataForWindow polyHash "A").2).callbacksRun
      = (renderTasks polyHash (hooksQueued registryWithPanelA "A" hooksBThenA)).callbacksRun
        ++ (((renderTasks polyHash (hooksQueued registryWithPanelA "A" hooksBThenA)
          ).ctx.windowManager.data (registryWithPanelA.FindOrCreateDataForWindow polyHash "A").2
          ).preRenderCallbacks).map (fun it =>
            { window := some ((renderTasks polyHash (hooksQueued registryWithPanelA "A"
                hooksBThenA)).ctx.windowManager.data
                (registryWithPanelA.FindOrCreateDataForWindow polyHash "A").2).name,
              key := it.1, callback := it.2 }) :=
  ⟨by decide, by decide!, by decide!,
    (preRenderCallbacks_run_in_name_order polyHash idleFrame registryWithPanelA "A" hooksBThenA
      (by decide) (by decide!)).2.2 _ rfl (by decide!) (by decide!) (by decide!)⟩

/-- C24, counterexample to insertion order: the hook "b" is set before the hook
"a" on the panel "A"; the frame that applies the two calls and the frame after
it both invoke "a" before "b". -/
theorem preRenderCallbacks_insertion_order_counterexample :
    hooksBThenA.map Prod.fst = ["b", "a"] ∧
    (Render polyHash idleFrame (hooksQueued registryWithPanelA "A" hooksBThenA)).map
        (fun r => r.callbacksRun.map (fun c => (c.window, c.key)))
      = some [(some "A", "a"), (some "A", "b")] ∧
    ((Render polyHash idleFrame (hooksQueued registryWithPanelA "A" hooksBThenA)).bind
        (fun r => Render polyHash idleFrame r.ctx)).map
        (fun r => r.callbacksRun.map (fun c => (c.window, c.key)))
      = some [(some "A", "a"), (some "A", "b")] := by
  refine ⟨by decide, by decide!, by decide!⟩

theorem lt_of_isVisible (wm : WindowManager) (i : Nat) (h : (wm.data i).isVisible = true) :
    i < wm._windowsData.length := by
  by_contra hlt
  have e : wm.data i = default := by
    simp [WindowManager.data, List.getElem?_eq_none (le_of_not_lt hlt)]
  rw [e] at h
  exact absurd h (by decide)

theorem isArranged_congr {wm1 wm : WindowManager} (h : wm1.SameButLayout wm) (w : Window) :
    wm1.isArranged w = wm.isArranged w := by
  obtain ⟨hv, hd, -, -⟩ := SameButLayout_fields h w.imGuiData
  simp [WindowManager.isArranged, hv, hd]

theorem tilePass_cons_of_not_arranged (vp : ImGuiViewport) (e s : ℚ) (w : Window)
    (ws : List Window) (cur : TileCursor) (wm : WindowManager) (h : wm.isArranged w = false) :
    tilePass vp e s (w :: ws) cur wm = tilePass vp e s ws cur wm := by
  by_cases hv : (wm.data w.imGuiData).isVisible = false
  · exact tilePass_cons_hidden vp e s w ws cur wm hv
  · have hv1 : (wm.data w.imGuiData).isVisible = true := by simpa using hv
    have hd : (wm.data w.imGuiData).isDocked = true := by
      simpa [WindowManager.isArranged, hv1] using h
    exact tilePass_cons_docked vp e s w ws cur wm hd

theorem isArranged_iff (wm : WindowManager) (w : Window) :
    wm.isArranged w = true
      ↔ (wm.data w.imGuiData).isVisible = true ∧ (wm.data w.imGuiData).isDocked = false := by
  simp [WindowManager.isArranged]

/-- A pass over a list of windows is the pass over the arranged windows of the list. -/
theorem tilePass_filter (vp : ImGuiViewport) (e s : ℚ) (wm0 : WindowManager) :
    ∀ (ws : List Window) (cur : TileCursor) (wm : WindowManager), wm.SameButLayout wm0 →
      tilePass vp e s ws cur wm = tilePass vp e s (ws.filter wm0.isArranged) cur wm
  | [], _, _, _ => rfl
  | w :: ws, cur, wm, hsame => by
    by_cases ha : wm0.isArranged w = true
    · have ha1 : wm.isArranged w = true := by rw [isArranged_congr hsame]; exact ha
      obtain ⟨hv, hd⟩ := (isArranged_iff wm w).1 ha1
      rw [List.filter_cons_of_pos ha]
      by_cases hover : (tileStartNewRow vp cur (scaledWinSize (wm.data w.imGuiData) e s)).currentY
          + (scaledWinSize (wm.data w.imGuiData) e s).y > vp.Pos.y + vp.Size.y
      · rw [tilePass_cons_overflow vp e s w _ cur wm hv hd hover,
          tilePass_cons_overflow vp e s w _ cur wm hv hd hover]
      · rw [tilePass_cons_place vp e s w _ cur wm hv hd hover,
          tilePass_cons_place vp e s w _ cur wm hv hd hover]
        exact tilePass_filter vp e s wm0 ws _ _
          (SameButLayout_trans (SameButLayout_modifyData wm _ _ _) hsame)
    · have ha0 : wm0.isArranged w = false := by simpa using ha
      have ha1 : wm.isArranged w = false := by rw [isArranged_congr hsame]; exact ha0
      rw [List.filter_cons_of_neg ha, tilePass_cons_of_not_arranged vp e s w ws cur wm ha1]
      exact tilePass_filter vp e s wm0 ws cur wm hsame

theorem tileLoop_filter (vp : ImGuiViewport) (e : ℚ) (wm0 : WindowManager)
    (sorted : List Window) :
    ∀ (fuel : Nat) (s : ℚ) (wm : WindowManager), wm.SameButLayout wm0 →
      tileLoop vp e sorted fuel s wm = tileLoop vp e (sorted.filter wm0.isArranged) fuel s wm
  | 0, _, _, _ => rfl
  | fuel + 1, s, wm, hsame => by
    unfold tileLoop
    rw [← tilePass_filter vp e s wm0 sorted (tileStart vp) wm hsame]
    split
    · rfl
    · exact tileLoop_filter vp e wm0 sorted fuel _ _
        (SameButLayout_trans (tilePass_SameButLayout vp e s sorted _ wm) hsame)

/-- A pass leaves the entries that are hidden or docked as they are. -/
theorem tilePass_skipped (vp : ImGuiViewport) (e s : ℚ) (wm0 : WindowManager) (i : Nat)
    (hi : (wm0.data i).isVisible = false ∨ (wm0.data i).isDocked = true) :
    ∀ (ws : List Window) (cur : TileCursor) (wm : WindowManager), wm.SameButLayout wm0 →
      (tilePass vp e s ws cur wm).1.data i = wm.data i
  | [], _, _, _ => rfl
  | w :: ws, cur, wm, hsame => by
    by_cases ha : wm.isArranged w = true
    · obtain ⟨hv, hd⟩ := (isArranged_iff wm w).1 ha
      by_cases hover : (tileStartNewRow vp cur (scaledWinSize (wm.data w.imGuiData) e s)).currentY
          + (scaledWinSize (wm.data w.imGuiData) e s).y > vp.Pos.y + vp.Size.y
      · rw [tilePass_cons_overflow vp e s w _ cur wm hv hd hover]
      · rw [tilePass_cons_place vp e s w _ cur wm hv hd hover,
          tilePass_skipped vp e s wm0 i hi ws _ _
            (SameButLayout_trans (SameButLayout_modifyData wm _ _ _) hsame),
          data_modifyData]
        have hne : i ≠ w.imGuiData := by
          intro heq
          obtain ⟨hv0, hd0, -, -⟩ := SameButLayout_fields hsame w.imGuiData
          rw [← heq] at hv0 hd0 hv hd
          rcases hi with hi | hi
          · rw [hv0, hi] at hv; exact absurd hv (by simp)
          · rw [hd0, hi] at hd; exact absurd hd (by simp)
        simp [hne]
    · have ha1 : wm.isArranged w = false := by simpa using ha
      rw [tilePass_cons_of_not_arranged vp e s w ws cur wm ha1]
      exact tilePass_skipped vp e s wm0 i hi ws cur wm hsame

theorem tileLoop_skipped (vp : ImGuiViewport) (e : ℚ) (wm0 : WindowManager) (i : Nat)
    (hi : (wm0.data i).isVisible = false ∨ (wm0.data i).isDocked = true)
    (sorted : List Window) :
    ∀ (fuel : Nat) (s : ℚ) (wm wm' : WindowManager), wm.SameButLayout wm0 →
      tileLoop vp e sorted fuel s wm = some wm' → wm'.data i = wm.data i
  | 0, _, _, _, _, h => by simp [tileLoop] at h
  | fuel + 1, s, wm, wm', hsame, h => by
    unfold tileLoop at h
    split at h
    · injection h with h
      rw [← h]
      exact tilePass_skipped vp e s wm0 i hi sorted _ wm hsame
    · rw [tileLoop_skipped vp e wm0 i hi sorted fuel _ _ wm'
        (SameButLayout_trans (tilePass_SameButLayout vp e s sorted _ wm) hsame) h]
      exact tilePass_skipped vp e s wm0 i hi sorted _ wm hsame

/-- C25. Tiling skips hidden and docked panels: for every registry state, every
pass of `TileAndScaleVisibleWindows` leaves the entry (so the layout command:
`hasData`, `pos`, `size`, condition) of every panel that is not visible or is
docked as it was, and so does the call when it returns; and each pass, and the
whole loop, is the one over the visible undocked members of the sorted set: the
others move no cursor and take no space in the rows. -/
theorem TileAndScaleVisibleWindows_skips_hidden_and_docked (wm : WindowManager) (fuel : Nat)
    (vp : ImGuiViewport) (extraWindowHeight : ℚ) :
    wm.TileAndScaleVisibleWindows fuel vp extraWindowHeight
      = tileLoop vp extraWindowHeight (wm.windowsSortedBySize.filter wm.isArranged) fuel 1 wm ∧
    (∀ (scaleFactor : ℚ) (cur : TileCursor) (wm1 : WindowManager), wm1.SameButLayout wm →
      tilePass vp extraWindowHeight scaleFactor wm.windowsSortedBySize cur wm1
        = tilePass vp extraWindowHeight scaleFactor
            (wm.windowsSortedBySize.filter wm.isArranged) cur wm1) ∧
    ∀ i : Nat, ((wm.data i).isVisible = false ∨ (wm.data i).isDocked = true) →
      (∀ (scaleFactor : ℚ) (cur : TileCursor) (wm1 : WindowManager), wm1.SameButLayout wm →
        (tilePass vp extraWindowHeight scaleFactor wm.windowsSortedBySize cur wm1).1.data i
          = wm1.data i) ∧
      ∀ wm' : WindowManager,
        wm.TileAndScaleVisibleWindows fuel vp extraWindowHeight = some wm' →
        wm'.data i = wm.data i := by
  refine ⟨tileLoop_filter vp extraWindowHeight wm _ fuel 1 wm (SameButLayout_refl wm),
    fun s cur wm1 h => tilePass_filter vp extraWindowHeight s wm _ cur wm1 h, ?_⟩
  intro i hi
  exact ⟨fun s cur wm1 h => tilePass_skipped vp extraWindowHeight s wm i hi _ cur wm1 h,
    fun wm' h => tileLoop_skipped vp extraWindowHeight wm i hi _ fuel 1 wm wm'
      (SameButLayout_refl wm) h⟩

/-- C25, witness: `threePanels` with `B` hidden, tiled in a 1280 by 720
viewport; the call returns after one pass and the entry of `B` is as it was. -/
theorem TileAndScaleVisibleWindows_skips_hidden_and_docked_witness :
    (threePanelsHiddenB.data 1).name = "B" ∧
    (threePanelsHiddenB.data 1).isVisible = false ∧
    threePanelsHiddenB.TileAndScaleVisibleWindows 1 viewportAtOrigin 20
      = some ((threePanelsHiddenB.TileAndScaleVisibleWindows 1 viewportAtOrigin 20).getD {}) ∧
    ((threePanelsHiddenB.TileAndScaleVisibleWindows 1 viewportAtOrigin 20).getD {}).data 1
      = threePanelsHiddenB.data 1 :=
  ⟨by decide, by decide, by decide!,
    ((TileAndScaleVisibleWindows_skips_hidden_and_docked threePanelsHiddenB 1 viewportAtOrigin
      20).2.2 1 (Or.inl (by decide))).2 _ (by decide!)⟩

theorem Separated_symm {a b : LayoutUpdate} (h : a.Separated b) : b.Separated a := by
  unfold LayoutUpdate.Separated at *
  tauto

theorem not_Contains_of_Separated {a b : LayoutUpdate} (h : a.Separated b) (x y : ℚ) :
    ¬ (a.Contains x y ∧ b.Contains x y) := by
  unfold LayoutUpdate.Separated at h
  unfold LayoutUpdate.Contains
  rintro ⟨⟨h1, h2, h3, h4⟩, ⟨h5, h6, h7, h8⟩⟩
  rcases h with h | h | h | h <;> linarith

theorem Covers_tileStartNewRow (vp : ImGuiViewport) (cur : TileCursor) (size : ImVec2)
    (c : LayoutUpdate) (hmax : 0 ≤ cur.maxHeightInCurrentRow) (h : cur.Covers vp c) :
    (tileStartNewRow vp cur size).Covers vp c := by
  unfold tileStartNewRow
  split
  · obtain ⟨h1, h2, h3⟩ := h
    refine ⟨h1, h2, Or.inl ?_⟩
    rcases h3 with h3 | ⟨h3, -, h5⟩
    · simp only; linarith
    · simp only; linarith
  · exact h

theorem Covers_tileAdvance (cur : TileCursor) (vp : ImGuiViewport) (size : ImVec2)
    (c : LayoutUpdate) (hx : 0 ≤ size.x) (h : cur.Covers vp c) :
    (tileAdvance cur size).Covers vp c := by
  obtain ⟨h1, h2, h3⟩ := h
  refine ⟨h1, h2, ?_⟩
  rcases h3 with h3 | ⟨h3, h4, h5⟩
  · exact Or.inl h3
  · refine Or.inr ⟨h3, ?_, le_trans h5 (le_max_left _ _)⟩
    simp only [tileAdvance]
    linarith

theorem tileStartNewRow_bounds (vp : ImGuiViewport) (cur : TileCursor) (size : ImVec2)
    (hy : vp.Pos.y ≤ cur.currentY) (hmax : 0 ≤ cur.maxHeightInCurrentRow) :
    vp.Pos.y ≤ (tileStartNewRow vp cur size).currentY ∧
    0 ≤ (tileStartNewRow vp cur size).maxHeightInCurrentRow := by
  unfold tileStartNewRow
  split
  · exact ⟨by simp only; linarith, le_refl _⟩
  · exact ⟨hy, hmax⟩

/-- The rectangles that a fitting pass places, together with those placed
before it at the cursor, are pairwise separated and covered by a cursor. -/
theorem tilePass_separated (vp : ImGuiViewport) (e s : ℚ) (hs : 0 ≤ s) (wm0 : WindowManager) :
    ∀ (ws : List Window) (cur : TileCursor) (wm : WindowManager) (placed : List Nat),
      wm.SameButLayout wm0 → (ws.map (fun w => w.imGuiData)).Nodup →
      (∀ w ∈ ws, w.imGuiData ∉ placed) →
      (∀ w ∈ ws, wm0.isArranged w = true → 0 ≤ (wm0.data w.imGuiData).preferredContentSize.x) →
      WindowManager.windowListWidth + vp.Pos.x ≤ cur.currentX →
      vp.Pos.y ≤ cur.currentY → 0 ≤ cur.maxHeightInCurrentRow →
      (∀ i ∈ placed, cur.Covers vp (wm.data i).layoutUpdateOnNextFrame) →
      placed.Pairwise (fun i j => (wm.data i).layoutUpdateOnNextFrame.Separated
        (wm.data j).layoutUpdateOnNextFrame) →
      (tilePass vp e s ws cur wm).2 = true →
      (∃ cur1 : TileCursor,
        ∀ i ∈ placed ++ (ws.filter wm0.isArranged).map (fun w => w.imGuiData),
          cur1.Covers vp ((tilePass vp e s ws cur wm).1.data i).layoutUpdateOnNextFrame) ∧
      (placed ++ (ws.filter wm0.isArranged).map (fun w => w.imGuiData)).Pairwise
        (fun i j => ((tilePass vp e s ws cur wm).1.data i).layoutUpdateOnNextFrame.Separated
          ((tilePass vp e s ws cur wm).1.data j).layoutUpdateOnNextFrame)
  | [], cur, wm, placed, _, _, _, _, _, _, _, hcov, hsep, _ => by
    simp only [List.filter_nil, List.map_nil, List.append_nil, tilePass]
    exact ⟨⟨cur, hcov⟩, hsep⟩
  | w :: ws, cur, wm, placed, hsame, hnd, hnot, hx, hcx, hcy, hmax, hcov, hsep, hfit => by
    simp only [List.map_cons, List.nodup_cons] at hnd
    have hnot1 : ∀ w1 ∈ ws, w1.imGuiData ∉ placed :=
      fun w1 h1 => hnot w1 (List.mem_cons_of_mem _ h1)
    have hx1 : ∀ w1 ∈ ws, wm0.isArranged w1 = true →
        0 ≤ (wm0.data w1.imGuiData).preferredContentSize.x :=
      fun w1 h1 => hx w1 (List.mem_cons_of_mem _ h1)
    by_cases ha : wm0.isArranged w = true
    · have ha1 : wm.isArranged w = true := by rw [isArranged_congr hsame]; exact ha
      obtain ⟨hv, hd⟩ := (isArranged_iff wm w).1 ha1
      have hlt : w.imGuiData < wm._windowsData.length := lt_of_isVisible wm _ hv
      rw [List.filter_cons_of_pos ha, List.map_cons]
      by_cases hover : (tileStartNewRow vp cur (scaledWinSize (wm.data w.imGuiData) e s)).currentY
          + (scaledWinSize (wm.data w.imGuiData) e s).y > vp.Pos.y + vp.Size.y
      · rw [tilePass_cons_overflow vp e s w ws cur wm hv hd hover] at hfit
        exact absurd hfit (by simp)
      · rw [tilePass_cons_place vp e s w ws cur wm hv hd hover] at hfit ⊢
        have hsx : 0 ≤ (scaledWinSize (wm.data w.imGuiData) e s).x := by
          simp only [scaledWinSize, WindowData.preferredWindowSize,
            (SameButLayout_fields hsame w.imGuiData).2.2.1]
          exact mul_nonneg (hx w (List.mem_cons_self _ _) ha) hs
        obtain ⟨hge, -⟩ := tileStartNewRow_x vp cur (scaledWinSize (wm.data w.imGuiData) e s) hcx
        obtain ⟨hgy, hgm⟩ := tileStartNewRow_bounds vp cur
          (scaledWinSize (wm.data w.imGuiData) e s) hcy hmax
        have hdata : ∀ i ∈ placed,
            ((wm.modifyData w.imGuiData
              (tilePlace (tileStartNewRow vp cur (scaledWinSize (wm.data w.imGuiData) e s))
                (scaledWinSize (wm.data w.imGuiData) e s))).data i) = wm.data i := by
          intro i hi
          rw [data_modifyData]
          have hne : i ≠ w.imGuiData := fun heq => hnot w (List.mem_cons_self _ _) (heq ▸ hi)
          simp [hne]
        have hnew : ((wm.modifyData w.imGuiData
              (tilePlace (tileStartNewRow vp cur (scaledWinSize (wm.data w.imGuiData) e s))
                (scaledWinSize (wm.data w.imGuiData) e s))).data w.imGuiData
              ).layoutUpdateOnNextFrame
            = { hasData := true
                pos := { x := (tileStartNewRow vp cur
                            (scaledWinSize (wm.data w.imGuiData) e s)).currentX
                         y := (tileStartNewRow vp cur
                            (scaledWinSize (wm.data w.imGuiData) e s)).currentY }
                size := scaledWinSize (wm.data w.imGuiData) e s
                imGuiCond := ImGuiCond.Always } := by
          rw [data_modifyData]
          simp [hlt, tilePlace]
        have h := tilePass_separated vp e s hs wm0 ws
          (tileAdvance (tileStartNewRow vp cur (scaledWinSize (wm.data w.imGuiData) e s))
            (scaledWinSize (wm.data w.imGuiData) e s))
          (wm.modifyData w.imGuiData
            (tilePlace (tileStartNewRow vp cur (scaledWinSize (wm.data w.imGuiData) e s))
              (scaledWinSize (wm.data w.imGuiData) e s)))
          (placed ++ [w.imGuiData])
          (SameButLayout_trans (SameButLayout_modifyData wm _ _ _) hsame) hnd.2
          (by
            intro w1 h1 hmem
            rcases List.mem_append.1 hmem with hmem | hmem
            · exact hnot1 w1 h1 hmem
            · have : w1.imGuiData = w.imGuiData := by simpa using hmem
              exact hnd.1 (List.mem_map.2 ⟨w1, h1, this⟩))
          hx1
          (by simp only [tileAdvance]; linarith)
          (by simp only [tileAdvance]; exact hgy)
          (by simp only [tileAdvance]; exact le_trans hgm (le_max_left _ _))
          (by
            intro i hi
            rcases List.mem_append.1 hi with hi | hi
            · rw [hdata i hi]
              exact Covers_tileAdvance _ vp _ _ hsx
                (Covers_tileStartNewRow vp cur _ _ hmax (hcov i hi))
            · have : i = w.imGuiData := by simpa using hi
              subst this
              rw [hnew]
              refine ⟨hge, hgy, Or.inr ⟨rfl, le_refl _, le_max_right _ _⟩⟩)
          (by
            rw [List.pairwise_append]
            refine ⟨?_, List.pairwise_singleton _ _, ?_⟩
            · refine List.Pairwise.imp_of_mem ?_ hsep
              intro i j hi hj hij
              rw [hdata i hi, hdata j hj]
              exact hij
            · intro i hi j hj
              have : j = w.imGuiData := by simpa using hj
              subst this
              rw [hdata i hi, hnew]
              obtain ⟨-, -, h3⟩ := Covers_tileStartNewRow vp cur
                (scaledWinSize (wm.data w.imGuiData) e s) _ hmax (hcov i hi)
              rcases h3 with h3 | ⟨-, h4, -⟩
              · exact Or.inr (Or.inr (Or.inl h3))
              · exact Or.inl h4)
          hfit
        simpa [List.append_assoc] using h
    · have ha0 : wm0.isArranged w = false := by simpa using ha
      have ha1 : wm.isArranged w = false := by rw [isArranged_congr hsame]; exact ha0
      rw [List.filter_cons_of_neg ha, tilePass_cons_of_not_arranged vp e s w ws cur wm ha1]
      rw [tilePass_cons_of_not_arranged vp e s w ws cur wm ha1] at hfit
      exact tilePass_separated vp e s hs wm0 ws cur wm placed hsame hnd.2 hnot1 hx1 hcx hcy hmax
        hcov hsep hfit

/-- C30. Tiled panels do not overlap: for every viewport and registry whose
visible undocked panels have positive preferred sizes, when
`TileAndScaleVisibleWindows` returns, every panel it arranged (a visible
undocked member of the sorted set) has `pos.x >= vp.Pos.x + 200` and
`pos.y >= vp.Pos.y`, and the rectangles
`[pos.x, pos.x + size.x) x [pos.y, pos.y + size.y)` of two distinct arranged
panels are separated by a vertical or horizontal line, so no point is in
both. -/
theorem tiled_panels_do_not_overlap (wm : WindowManager) (vp : ImGuiViewport)
    (extraWindowHeight : ℚ) (fuel : Nat) (wm' : WindowManager)
    (hsizes : ∀ w ∈ wm.windowsSortedBySize, (wm.data w.imGuiData).isVisible = true →
      (wm.data w.imGuiData).isDocked = false →
      0 < (wm.data w.imGuiData).preferredContentSize.x ∧
      0 < (wm.data w.imGuiData).preferredContentSize.y)
    (hrun : wm.TileAndScaleVisibleWindows fuel vp extraWindowHeight = some wm') :
    (∀ w ∈ wm.windowsSortedBySize, (wm.data w.imGuiData).isVisible = true →
      (wm.data w.imGuiData).isDocked = false →
      vp.Pos.x + 200 ≤ (wm'.data w.imGuiData).layoutUpdateOnNextFrame.pos.x ∧
      vp.Pos.y ≤ (wm'.data w.imGuiData).layoutUpdateOnNextFrame.pos.y) ∧
    ∀ w1 ∈ wm.windowsSortedBySize, ∀ w2 ∈ wm.windowsSortedBySize,
      (wm.data w1.imGuiData).isVisible = true → (wm.data w1.imGuiData).isDocked = false →
      (wm.data w2.imGuiData).isVisible = true → (wm.data w2.imGuiData).isDocked = false →
      w1.imGuiData ≠ w2.imGuiData →
      (wm'.data w1.imGuiData).layoutUpdateOnNextFrame.Separated
        (wm'.data w2.imGuiData).layoutUpdateOnNextFrame ∧
      ∀ x y : ℚ, ¬ ((wm'.data w1.imGuiData).layoutUpdateOnNextFrame.Contains x y ∧
        (wm'.data w2.imGuiData).layoutUpdateOnNextFrame.Contains x y) := by
  obtain ⟨s', wm2, hs', hsame, hfit, hres⟩ := tileLoop_final_pass vp extraWindowHeight
    wm.windowsSortedBySize wm fuel 1 wm wm' (by norm_num) (SameButLayout_refl wm) hrun
  have h := tilePass_separated vp extraWindowHeight s' hs' wm wm.windowsSortedBySize
    (tileStart vp) wm2 [] hsame (windowsSortedBySize_nodup wm) (fun _ _ => List.not_mem_nil _)
    (fun w hw ha => le_of_lt (hsizes w hw ((isArranged_iff wm w).1 ha).1
      ((isArranged_iff wm w).1 ha).2).1)
    (le_refl _) (le_refl _) (le_refl _) (fun i hi => absurd hi (List.not_mem_nil i))
    List.Pairwise.nil hfit
  rw [hres, List.nil_append] at h
  obtain ⟨⟨cur1, hcov⟩, hsep⟩ := h
  have hmem : ∀ w ∈ wm.windowsSortedBySize, (wm.data w.imGuiData).isVisible = true →
      (wm.data w.imGuiData).isDocked = false →
      w.imGuiData ∈ (wm.windowsSortedBySize.filter wm.isArranged).map (fun w => w.imGuiData) :=
    fun w hw hv hd => List.mem_map.2
      ⟨w, List.mem_filter.2 ⟨hw, (isArranged_iff wm w).2 ⟨hv, hd⟩⟩, rfl⟩
  constructor
  · intro w hw hv hd
    obtain ⟨h1, h2, -⟩ := hcov _ (hmem w hw hv hd)
    refine ⟨?_, h2⟩
    simp only [WindowManager.windowListWidth] at h1
    linarith
  · intro w1 hw1 w2 hw2 hv1 hd1 hv2 hd2 hne
    have hs := List.Pairwise.forall (fun _ _ h => Separated_symm h) hsep
      (hmem w1 hw1 hv1 hd1) (hmem w2 hw2 hv2 hd2) hne
    exact ⟨hs, not_Contains_of_Separated hs⟩

/-- C30, witness: `threePanels` tiled in a 1280 by 720 viewport (three passes);
the commands of `A` and `B` are separated. -/
theorem tiled_panels_do_not_overlap_witness :
    (∀ w ∈ threePanels.windowsSortedBySize, (threePanels.data w.imGuiData).isVisible = true →
      (threePanels.data w.imGuiData).isDocked = false →
      0 < (threePanels.data w.imGuiData).preferredContentSize.x ∧
      0 < (threePanels.data w.imGuiData).preferredContentSize.y) ∧
    threePanels.TileAndScaleVisibleWindows 3 viewportAtOrigin 20 = some threePanelsTiled ∧
    threePanels.windowsSortedBySize.map (fun w => (threePanels.data w.imGuiData).name)
      = ["B", "C", "A"] ∧
    (threePanelsTiled.data 0).layoutUpdateOnNextFrame.Separated
      (threePanelsTiled.data 1).layoutUpdateOnNextFrame :=
  ⟨by decide!, by decide!, by decide!,
    ((tiled_panels_do_not_overlap threePanels viewportAtOrigin 20 3 threePanelsTiled
      (by decide!) (by decide!)).2 ⟨0⟩ (by decide!) ⟨1⟩ (by decide!) (by decide) (by decide)
      (by decide) (by decide) (by decide)).1⟩

theorem referenceKey_eq_sizeKey (wm : WindowManager) (w : Window) :
    referenceKey wm w = wm.sizeKey w := rfl

theorem referenceSizes_eq (wm : WindowManager) (e : ℚ) (k : Nat) (ws : List Window) :
    referenceSizes wm e k ws
      = ws.map (fun w => (w, scaledWinSize (wm.data w.imGuiData) e ((95 / 100) ^ k))) := rfl

theorem installGroup_get_of_ok (H : String → ImGuiID) (w w1 : PlotWindow) (group : GroupToAdd)
    (h : w.installGroup H group = Asserted.ok w1) :
    ∀ k, (w1._groupData.get k).xData = (w._groupData.get k).xData ∧
      (w1._groupData.get k).yData = (w._groupData.get k).yData := by
  unfold PlotWindow.installGroup at h
  simp only at h
  by_cases hs : group.style = ""
  · simp only [hs, ne_eq, not_true_eq_false, if_false] at h
    injection h with h
    subst h
    intro k
    simp only [GroupMap.get_update]
    split_ifs with hk
    · subst hk; exact ⟨rfl, rfl⟩
    · exact ⟨rfl, rfl⟩
  · simp only [ne_eq, hs, not_false_eq_true, if_true] at h
    cases hp : parseAndFillStyle group.style
        ((w._groupData.update (H group.name) (fun g => { g with name := group.name })).get
          (H group.name)) with
    | assertionFailed => rw [hp] at h; exact absurd h (by simp)
    | ok g =>
      rw [hp] at h
      injection h with h
      subst h
      obtain ⟨ex, ey⟩ := parseAndFillStyle_data _ _ _ hp
      intro k
      simp only [GroupMap.get_update] at ex ey ⊢
      simp only [if_true] at ex ey
      split_ifs with hk
      · subst hk; exact ⟨ex, ey⟩
      · exact ⟨rfl, rfl⟩

theorem installGroups_get_of_ok (H : String → ImGuiID) (groups : List GroupToAdd) :
    ∀ (w w1 : PlotWindow), PlotWindow.installGroups H w groups = Asserted.ok w1 →
      ∀ k, (w1._groupData.get k).xData = (w._groupData.get k).xData ∧
        (w1._groupData.get k).yData = (w._groupData.get k).yData := by
  induction groups with
  | nil =>
    intro w w1 h k
    simp only [PlotWindow.installGroups] at h
    injection h with h
    subst h
    exact ⟨rfl, rfl⟩
  | cons g groups ih =>
    intro w w1 h k
    simp only [PlotWindow.installGroups] at h
    cases hg : w.installGroup H g with
    | assertionFailed => rw [hg] at h; exact absurd h (by simp)
    | ok w2 =>
      rw [hg] at h
      obtain ⟨a1, a2⟩ := installGroup_get_of_ok H w w2 g hg k
      obtain ⟨b1, b2⟩ := ih w2 w1 h k
      exact ⟨b1.trans a1, b2.trans a2⟩

/-- A flush with an empty cache that returns: the pending samples have moved to
their groups in order, and the pending list and the cache are left empty,
whatever the styles of the pending groups. -/
theorem Render_get_of_ok (H : String → ImGuiID) (w : PlotWindow) (input : PlotFrameInput)
    (result : PlotWindow × PlotFrameOutput) (hcache : w._cacheOfDataToAppend = [])
    (h : w.Render H input = Asserted.ok result) :
    result.1._cacheOfDataToAppend = [] ∧
    result.1.dataSinceLastFrame = [] ∧
    ∀ k, (result.1._groupData.get k).xData = w.heldX k ∧
      (result.1._groupData.get k).yData = w.heldY k := by
  obtain ⟨w2, hi, hr⟩ := Render_ok H w input result h
  obtain ⟨c2, d2, -, -, -⟩ := installGroups_fields H _ _ w2 hi
  have g2 := installGroups_get_of_ok H _ _ w2 hi
  simp only at c2 d2 g2
  obtain ⟨-, d3, -, g3⟩ := foldl_appendSample_fields w2._cacheOfDataToAppend w2
  obtain ⟨gd, cd, dd, -, -⟩ := draw_fields
    { (w2._cacheOfDataToAppend.foldl PlotWindow.appendSample w2) with
      _cacheOfDataToAppend := [] } input
  simp only at gd cd dd
  rw [hr]
  refine ⟨cd, ?_, ?_⟩
  · rw [dd, d3, d2, hcache]
  · intro k
    rw [gd, (g3 k).1, (g3 k).2, (g2 k).1, (g2 k).2, c2]
    exact ⟨rfl, rfl⟩

theorem after_of_ok (H : String → ImGuiID) (input : PlotFrameInput) (calls : List PlotCall) :
    ∀ (w w1 : PlotWindow), w._cacheOfDataToAppend = [] →
    PlotWindow.after H true w (calls ++ [PlotCall.Render input]) = Asserted.ok w1 →
      ∀ k, (w1._groupData.get k).xData = w.heldX k ++ (samplesOfId H calls k).map Prod.fst ∧
        (w1._groupData.get k).yData = w.heldY k ++ (samplesOfId H calls k).map Prod.snd := by
  induction calls with
  | nil =>
    intro w w1 hcache h k
    simp only [List.nil_append, PlotWindow.after] at h
    cases hr : w.Render H input with
    | assertionFailed => rw [hr] at h; exact absurd h (by simp)
    | ok result =>
      rw [hr] at h
      simp only [PlotWindow.after] at h
      injection h with h
      obtain ⟨-, -, hg⟩ := Render_get_of_ok H w input result hcache hr
      rw [← h]
      simp [samplesOfId, hg k]
  | cons c calls ih =>
    intro w w1 hcache h k
    cases c with
    | AddPlotValue g y x style =>
      obtain ⟨hc, hgd, hd, -⟩ := AddPlotValue_visible_fields H w g y x style
      simp only [List.cons_append, PlotWindow.after] at h
      obtain ⟨h1, h2⟩ := ih (w.AddPlotValue H true g y x style) w1 (hc.trans hcache) h k
      rw [h1, h2]
      simp only [PlotWindow.heldX, PlotWindow.heldY, hgd, hd, samplesOfId, List.filterMap_cons]
      by_cases hk : H g = k
      · simp [List.filter_append, List.filter_cons, hk]
      · simp [List.filter_append, List.filter_cons, hk]
    | Render input0 =>
      simp only [List.cons_append, PlotWindow.after] at h
      cases hr : w.Render H input0 with
      | assertionFailed => rw [hr] at h; exact absurd h (by simp)
      | ok result =>
        rw [hr] at h
        simp only at h
        obtain ⟨hc, hd, hg⟩ := Render_get_of_ok H w input0 result hcache hr
        obtain ⟨h1, h2⟩ := ih result.1 w1 hc h k
        rw [h1, h2]
        simp only [PlotWindow.heldX, PlotWindow.heldY, hd, (hg k).1, (hg k).2, samplesOfId,
          List.filterMap_cons]
        simp [PlotWindow.heldX, PlotWindow.heldY]

/-- A call with the style `red` on a new visible panel: the flush fails the
assertion of `parseAndFillStyle`. -/
theorem Render_rejected_style_asserts :
    PlotWindow.after polyHash true {}
        [PlotCall.AddPlotValue "L1" 1 0 (some "red"), PlotCall.Render {}]
      = Asserted.assertionFailed := by
  decide!

/-- C15. Plot sample order: for every sequence of `AddPlotValue` calls, of any
style, on a visible plot panel, interleaved with any number of `Render`
flushes from the creation of the panel on (no `Clear`), when the last flush
returns (no call of `parseAndFillStyle` failed its assertion), for every group
name whose id no other group name of the calls shares, the group's `xData` and
`yData` have equal length and list exactly the x and y values of the calls made
for that group, in call order; and the last flush does return when every style
is null, empty or accepted. -/
theorem PlotWindow_samples_in_call_order (ImHashStr : String → ImGuiID) (calls : List PlotCall)
    (input : PlotFrameInput) :
    (∀ w : PlotWindow,
      PlotWindow.after ImHashStr true {} (calls ++ [PlotCall.Render input]) = Asserted.ok w →
      ∀ groupName : String,
        (∀ (g : String) (y x : ℚ) (s : Option String),
          PlotCall.AddPlotValue g y x s ∈ calls → ImHashStr g = ImHashStr groupName →
          g = groupName) →
        (w._groupData.get (ImHashStr groupName)).xData
          = (samplesOfGroup calls groupName).map Prod.fst ∧
        (w._groupData.get (ImHashStr groupName)).yData
          = (samplesOfGroup calls groupName).map Prod.snd ∧
        (w._groupData.get (ImHashStr groupName)).xData.length
          = (w._groupData.get (ImHashStr groupName)).yData.length) ∧
    ((∀ c ∈ calls, c.styleAccepted = true) →
      ∃ w, PlotWindow.after ImHashStr true {} (calls ++ [PlotCall.Render input])
        = Asserted.ok w) := by
  constructor
  · intro w hw groupName hname
    have hg := after_of_ok ImHashStr input calls {} w rfl hw
    have e := samplesOfId_eq_samplesOfGroup ImHashStr calls groupName hname
    have hx : (w._groupData.get (ImHashStr groupName)).xData
        = (samplesOfGroup calls groupName).map Prod.fst := by
      rw [(hg _).1, e]
      simp [PlotWindow.heldX, GroupMap.get]
    have hy : (w._groupData.get (ImHashStr groupName)).yData
        = (samplesOfGroup calls groupName).map Prod.snd := by
      rw [(hg _).2, e]
      simp [PlotWindow.heldY, GroupMap.get]
    refine ⟨hx, hy, ?_⟩
    rw [hx, hy]
    simp
  · intro hstyles
    obtain ⟨w, hw, -⟩ := after_of_accepted ImHashStr input calls {} rfl (by simp) hstyles
    exact ⟨w, hw⟩

/-- C15, witness: the calls (y=1, x=0), ..., (y=4, x=3) on `L1` and one flush,
which returns, give `xData = [0, 1, 2, 3]` and `yData = [1, 2, 3, 4]`. -/
theorem PlotWindow_samples_in_call_order_witness :
    PlotWindow.after polyHash true {} (fourSamplesOnL1 ++ [PlotCall.Render {}])
      = Asserted.ok fourSamplesFlushed ∧
    (∀ (g : String) (y x : ℚ) (s : Option String),
      PlotCall.AddPlotValue g y x s ∈ fourSamplesOnL1 → polyHash g = polyHash "L1" →
      g = "L1") ∧
    (samplesOfGroup fourSamplesOnL1 "L1").map Prod.fst = [0, 1, 2, 3] ∧
    (samplesOfGroup fourSamplesOnL1 "L1").map Prod.snd = [1, 2, 3, 4] ∧
    ((fourSamplesFlushed._groupData.get (polyHash "L1")).xData
        = (samplesOfGroup fourSamplesOnL1 "L1").map Prod.fst ∧
      (fourSamplesFlushed._groupData.get (polyHash "L1")).yData
        = (samplesOfGroup fourSamplesOnL1 "L1").map Prod.snd ∧
      (fourSamplesFlushed._groupData.get (polyHash "L1")).xData.length
        = (fourSamplesFlushed._groupData.get (polyHash "L1")).yData.length) :=
  have hname : ∀ (g : String) (y x : ℚ) (s : Option String),
      PlotCall.AddPlotValue g y x s ∈ fourSamplesOnL1 → polyHash g = polyHash "L1" →
      g = "L1" := by
    intro g y x s hmem _
    simp only [fourSamplesOnL1, List.mem_cons, PlotCall.AddPlotValue.injEq,
      List.mem_singleton, List.not_mem_nil, or_false] at hmem
    rcases hmem with h | h | h | h <;> exact h.1
  ⟨by decide!, hname, by decide!, by decide!,
    (PlotWindow_samples_in_call_order polyHash fourSamplesOnL1 {}).1 fourSamplesFlushed
      (by decide!) "L1" hname⟩

end CVLog
